import Mathlib

/-!
# LibrePCB board design rules and design rule check

A shallow embedding of `core/project/board/boarddesignrules.{h,cpp}` and of
`core/project/board/drc/boarddesignrulecheck.cpp`.

Conventions of the embedding:

* `Length` is the signed 64 bit nanometer count of the C++ class, embedded as
  `Int` (no operation below depends on wrap-around).
* A C++ member function that may throw is a function from the object to a pair
  of the outcome (`Except RuntimeError`) and the object after the call, so that
  the state left behind by a throwing call can be inspected.
* A constructor that may throw returns `Except RuntimeError` of the object:
  when it throws no object exists.
-/

namespace LibrePCB

/-! ## Basic types -/

/-- The signed length in nanometers (`Length`, a `qint64`). -/
abbrev Length := Int

/-- The exception class thrown by the setters and constructors. -/
structure RuntimeError where
  msg : String
deriving DecidableEq, Repr

/-- Outcome of code that may throw. -/
abbrev Throwing (α : Type) := Except RuntimeError α

/-- Modelled from the spec: the type `UnsignedLength` of `types/length.h`
(not in the sources at hand), a `Length` constrained to be non-negative
("fixed-point integers in nanometer-equivalent units"). -/
structure UnsignedLength where
  value : Length
  nonneg : 0 ≤ value
deriving DecidableEq

/-- Modelled from the spec: the type `PositiveLength` of `types/length.h`
(not in the sources at hand), a `Length` constrained to be strictly
positive. -/
structure PositiveLength where
  value : Length
  pos : 0 < value
deriving DecidableEq

/-- Modelled from the spec: the type `UnsignedRatio` of `types/ratio.h`
(not in the sources at hand), a ratio stored as parts per million and
constrained to be non-negative. -/
structure UnsignedRatio where
  ppm : Int
  nonneg : 0 ≤ ppm
deriving DecidableEq

/-- The checked constructor `UnsignedLength(Length)`: it throws on a negative
value. -/
def UnsignedLength.ofLength (v : Length) : Throwing UnsignedLength :=
  if h : 0 ≤ v then .ok ⟨v, h⟩
  else .error ⟨"Value must be >= 0!"⟩

/-- The checked constructor `PositiveLength(Length)`: it throws unless the
value is strictly positive. -/
def PositiveLength.ofLength (v : Length) : Throwing PositiveLength :=
  if h : 0 < v then .ok ⟨v, h⟩
  else .error ⟨"Value must be > 0!"⟩

/-- Qt: `qMin(a, b)` is `(a < b) ? a : b`. -/
def qMin (a b : Length) : Length := if a < b then a else b

/-- Qt: `qMax(a, b)` is `(a < b) ? b : a`. -/
def qMax (a b : Length) : Length := if a < b then b else a

/-- Qt: `qBound(min, val, max)` is `qMax(min, qMin(max, val))`. -/
def qBound (min val max : Length) : Length := qMax min (qMin max val)

/-- The clamp of the specification, `clamp(lo, v, hi) = max(lo, min(hi, v))`,
written with the order operations of `Int`. -/
def clamp (lo v hi : Int) : Int := max lo (min hi v)

/-- The scaling `Length::scaled(ratio.toNormalized())` is code of
`types/length.h` and `types/ratio.h`, which are not in the sources at hand, and
it goes through floating point; the `calc*` functions take it as an argument. -/
abbrev Scaling := Length → UnsignedRatio → Length

/-- Truncation of a rational toward zero, the rounding of a C++ conversion to
an integer type. -/
def truncToInt (q : ℚ) : Int := if 0 ≤ q then ⌊q⌋ else ⌈q⌉

/-- Modelled from the spec: `baseDimension.scaledBy(ratio)` as the exact
product of the base dimension with the ratio, followed by a rounding to an
integer number of nanometers. -/
def scaledBy (round : ℚ → Int) : Scaling :=
  fun b r => round ((b : ℚ) * (r.ppm : ℚ) / 1000000)

/-! ## BoardDesignRules -/

/-- The fifteen data members of `class BoardDesignRules`. -/
structure BoardDesignRules where
  mName : String
  mDescription : String
  mStopMaskClearanceRatio : UnsignedRatio
  mStopMaskClearanceMin : UnsignedLength
  mStopMaskClearanceMax : UnsignedLength
  mStopMaskMaxViaDrillDiameter : UnsignedLength
  mCreamMaskClearanceRatio : UnsignedRatio
  mCreamMaskClearanceMin : UnsignedLength
  mCreamMaskClearanceMax : UnsignedLength
  mPadAnnularRingRatio : UnsignedRatio
  mPadAnnularRingMin : UnsignedLength
  mPadAnnularRingMax : UnsignedLength
  mViaAnnularRingRatio : UnsignedRatio
  mViaAnnularRingMin : UnsignedLength
  mViaAnnularRingMax : UnsignedLength
deriving DecidableEq

namespace BoardDesignRules

/-- The default constructor `BoardDesignRules()`. -/
def ctorDefault : BoardDesignRules where
  mName := "LibrePCB Default Design Rules"
  mDescription := ""
  mStopMaskClearanceRatio := ⟨0, by decide⟩
  mStopMaskClearanceMin := ⟨100000, by decide⟩
  mStopMaskClearanceMax := ⟨100000, by decide⟩
  mStopMaskMaxViaDrillDiameter := ⟨500000, by decide⟩
  mCreamMaskClearanceRatio := ⟨1000000 / 10, by decide⟩
  mCreamMaskClearanceMin := ⟨0, by decide⟩
  mCreamMaskClearanceMax := ⟨1000000, by decide⟩
  mPadAnnularRingRatio := ⟨1000000 / 4, by decide⟩
  mPadAnnularRingMin := ⟨250000, by decide⟩
  mPadAnnularRingMax := ⟨2000000, by decide⟩
  mViaAnnularRingRatio := ⟨1000000 / 4, by decide⟩
  mViaAnnularRingMin := ⟨200000, by decide⟩
  mViaAnnularRingMax := ⟨2000000, by decide⟩

/-- The copy assignment `operator=`: fifteen member assignments in the order
of the source; the value returned is the object after the assignment. -/
def assign (this rhs : BoardDesignRules) : BoardDesignRules :=
  let this := { this with mName := rhs.mName }
  let this := { this with mDescription := rhs.mDescription }
  let this := { this with mStopMaskClearanceRatio := rhs.mStopMaskClearanceRatio }
  let this := { this with mStopMaskClearanceMin := rhs.mStopMaskClearanceMin }
  let this := { this with mStopMaskClearanceMax := rhs.mStopMaskClearanceMax }
  let this := { this with mStopMaskMaxViaDrillDiameter := rhs.mStopMaskMaxViaDrillDiameter }
  let this := { this with mCreamMaskClearanceRatio := rhs.mCreamMaskClearanceRatio }
  let this := { this with mCreamMaskClearanceMin := rhs.mCreamMaskClearanceMin }
  let this := { this with mCreamMaskClearanceMax := rhs.mCreamMaskClearanceMax }
  let this := { this with mPadAnnularRingRatio := rhs.mPadAnnularRingRatio }
  let this := { this with mPadAnnularRingMin := rhs.mPadAnnularRingMin }
  let this := { this with mPadAnnularRingMax := rhs.mPadAnnularRingMax }
  let this := { this with mViaAnnularRingRatio := rhs.mViaAnnularRingRatio }
  let this := { this with mViaAnnularRingMin := rhs.mViaAnnularRingMin }
  let this := { this with mViaAnnularRingMax := rhs.mViaAnnularRingMax }
  this

/-- The copy constructor: delegate to the default constructor, then
`*this = other`. -/
def ctorCopy (other : BoardDesignRules) : BoardDesignRules :=
  assign ctorDefault other

/-! ### Getters -/

def getName (this : BoardDesignRules) : String := this.mName

def getDescription (this : BoardDesignRules) : String := this.mDescription

def getStopMaskClearanceRatio (this : BoardDesignRules) : UnsignedRatio :=
  this.mStopMaskClearanceRatio

def getStopMaskClearanceMin (this : BoardDesignRules) : UnsignedLength :=
  this.mStopMaskClearanceMin

def getStopMaskClearanceMax (this : BoardDesignRules) : UnsignedLength :=
  this.mStopMaskClearanceMax

def getStopMaskMaxViaDiameter (this : BoardDesignRules) : UnsignedLength :=
  this.mStopMaskMaxViaDrillDiameter

def getCreamMaskClearanceRatio (this : BoardDesignRules) : UnsignedRatio :=
  this.mCreamMaskClearanceRatio

def getCreamMaskClearanceMin (this : BoardDesignRules) : UnsignedLength :=
  this.mCreamMaskClearanceMin

def getCreamMaskClearanceMax (this : BoardDesignRules) : UnsignedLength :=
  this.mCreamMaskClearanceMax

def getPadAnnularRingRatio (this : BoardDesignRules) : UnsignedRatio :=
  this.mPadAnnularRingRatio

def getPadAnnularRingMin (this : BoardDesignRules) : UnsignedLength :=
  this.mPadAnnularRingMin

def getPadAnnularRingMax (this : BoardDesignRules) : UnsignedLength :=
  this.mPadAnnularRingMax

def getViaAnnularRingRatio (this : BoardDesignRules) : UnsignedRatio :=
  this.mViaAnnularRingRatio

def getViaAnnularRingMin (this : BoardDesignRules) : UnsignedLength :=
  this.mViaAnnularRingMin

def getViaAnnularRingMax (this : BoardDesignRules) : UnsignedLength :=
  this.mViaAnnularRingMax

/-! ### Setters -/

def setName (this : BoardDesignRules) (name : String) : BoardDesignRules :=
  { this with mName := name }

def setDescription (this : BoardDesignRules) (desc : String) : BoardDesignRules :=
  { this with mDescription := desc }

def setStopMaskClearanceRatio (this : BoardDesignRules) (ratio : UnsignedRatio) :
    BoardDesignRules :=
  { this with mStopMaskClearanceRatio := ratio }

def setStopMaskMaxViaDiameter (this : BoardDesignRules) (dia : UnsignedLength) :
    BoardDesignRules :=
  { this with mStopMaskMaxViaDrillDiameter := dia }

def setCreamMaskClearanceRatio (this : BoardDesignRules) (ratio : UnsignedRatio) :
    BoardDesignRules :=
  { this with mCreamMaskClearanceRatio := ratio }

def setPadAnnularRingRatio (this : BoardDesignRules) (ratio : UnsignedRatio) :
    BoardDesignRules :=
  { this with mPadAnnularRingRatio := ratio }

def setViaAnnularRingRatio (this : BoardDesignRules) (ratio : UnsignedRatio) :
    BoardDesignRules :=
  { this with mViaAnnularRingRatio := ratio }

/-- The setter `setStopMaskClearanceBounds`: outcome and object after the
call. -/
def setStopMaskClearanceBounds (this : BoardDesignRules) (min max : UnsignedLength) :
    Throwing Unit × BoardDesignRules :=
  if max.value ≥ min.value then
    let this := { this with mStopMaskClearanceMin := min }
    let this := { this with mStopMaskClearanceMax := max }
    (.ok (), this)
  else
    (.error ⟨"Stop mask clearance: MAX must be >= MIN"⟩, this)

/-- The setter `setCreamMaskClearanceBounds`: outcome and object after the
call. -/
def setCreamMaskClearanceBounds (this : BoardDesignRules) (min max : UnsignedLength) :
    Throwing Unit × BoardDesignRules :=
  if max.value ≥ min.value then
    let this := { this with mCreamMaskClearanceMin := min }
    let this := { this with mCreamMaskClearanceMax := max }
    (.ok (), this)
  else
    (.error ⟨"Cream mask clearance: MAX must be >= MIN"⟩, this)

/-- The setter `setPadAnnularRingBounds`: outcome and object after the
call. -/
def setPadAnnularRingBounds (this : BoardDesignRules) (min max : UnsignedLength) :
    Throwing Unit × BoardDesignRules :=
  if max.value ≥ min.value then
    let this := { this with mPadAnnularRingMin := min }
    let this := { this with mPadAnnularRingMax := max }
    (.ok (), this)
  else
    (.error ⟨"Pads annular ring: MAX must be >= MIN"⟩, this)

/-- The setter `setViaAnnularRingBounds`: outcome and object after the
call. -/
def setViaAnnularRingBounds (this : BoardDesignRules) (min max : UnsignedLength) :
    Throwing Unit × BoardDesignRules :=
  if max.value ≥ min.value then
    let this := { this with mViaAnnularRingMin := min }
    let this := { this with mViaAnnularRingMax := max }
    (.ok (), this)
  else
    (.error ⟨"Vias annular ring: MAX must be >= MIN"⟩, this)

/-- The method `restoreDefaults`: `*this = BoardDesignRules()`. -/
def restoreDefaults (this : BoardDesignRules) : BoardDesignRules :=
  assign this ctorDefault

/-! ### Helper methods -/

def doesViaRequireStopMask (this : BoardDesignRules) (drillDia : Length) : Bool :=
  if drillDia > this.mStopMaskMaxViaDrillDiameter.value then true else false

def calcStopMaskClearance (scaled : Scaling) (this : BoardDesignRules) (padSize : Length) :
    Throwing UnsignedLength :=
  UnsignedLength.ofLength
    (qBound this.mStopMaskClearanceMin.value
      (scaled padSize this.mStopMaskClearanceRatio)
      this.mStopMaskClearanceMax.value)

def calcCreamMaskClearance (scaled : Scaling) (this : BoardDesignRules) (padSize : Length) :
    Throwing UnsignedLength :=
  UnsignedLength.ofLength
    (qBound this.mCreamMaskClearanceMin.value
      (scaled padSize this.mCreamMaskClearanceRatio)
      this.mCreamMaskClearanceMax.value)

def calcPadAnnularRing (scaled : Scaling) (this : BoardDesignRules) (drillDia : Length) :
    Throwing UnsignedLength :=
  UnsignedLength.ofLength
    (qBound this.mPadAnnularRingMin.value
      (scaled drillDia this.mPadAnnularRingRatio)
      this.mPadAnnularRingMax.value)

def calcViaAnnularRing (scaled : Scaling) (this : BoardDesignRules) (drillDia : Length) :
    Throwing UnsignedLength :=
  UnsignedLength.ofLength
    (qBound this.mViaAnnularRingMin.value
      (scaled drillDia this.mViaAnnularRingRatio)
      this.mViaAnnularRingMax.value)

/-! ### Construction from serialized data -/

/-- The deserialization of the children of an S-expression node
(`SExpression::getChild`, `getValue` and the `deserialize<T>` functions) is
code that is not in the sources at hand; the constructor takes it as an
argument. Every reader gets the node and the path of the child, and may
throw. -/
structure SExpressionReader (S : Type) where
  deserializeElementName : S → String → Throwing String
  getValue : S → String → Throwing String
  deserializeUnsignedRatio : S → String → Throwing UnsignedRatio
  deserializeUnsignedLength : S → String → Throwing UnsignedLength

/-- The body of the `try` block of the deserializing constructor: the four
bound setters called in sequence with the members just read; the first one
that throws ends the block. -/
def validateBounds (this : BoardDesignRules) : Throwing Unit × BoardDesignRules :=
  match this.setStopMaskClearanceBounds this.mStopMaskClearanceMin
      this.mStopMaskClearanceMax with
  | (.error e, this) => (.error e, this)
  | (.ok _, this) =>
    match this.setCreamMaskClearanceBounds this.mCreamMaskClearanceMin
        this.mCreamMaskClearanceMax with
    | (.error e, this) => (.error e, this)
    | (.ok _, this) =>
      match this.setPadAnnularRingBounds this.mPadAnnularRingMin
          this.mPadAnnularRingMax with
      | (.error e, this) => (.error e, this)
      | (.ok _, this) =>
        this.setViaAnnularRingBounds this.mViaAnnularRingMin this.mViaAnnularRingMax

/-- The constructor `BoardDesignRules(const SExpression&)`: the member
initializers read the fifteen children in declaration order, then the bounds
are validated; an exception of a setter is caught and thrown again as
"Invalid design rules: ...". -/
def ctorSExpression {S : Type} (R : SExpressionReader S) (node : S) :
    Throwing BoardDesignRules := do
  let name ← R.deserializeElementName node "name/@0"
  let description ← R.getValue node "description/@0"
  let stopRatio ← R.deserializeUnsignedRatio node "stopmask_clearance_ratio/@0"
  let stopMin ← R.deserializeUnsignedLength node "stopmask_clearance_min/@0"
  let stopMax ← R.deserializeUnsignedLength node "stopmask_clearance_max/@0"
  let stopVia ← R.deserializeUnsignedLength node "stopmask_max_via_drill_diameter/@0"
  let creamRatio ← R.deserializeUnsignedRatio node "creammask_clearance_ratio/@0"
  let creamMin ← R.deserializeUnsignedLength node "creammask_clearance_min/@0"
  let creamMax ← R.deserializeUnsignedLength node "creammask_clearance_max/@0"
  let padRatio ← R.deserializeUnsignedRatio node "pad_annular_ring_ratio/@0"
  let padMin ← R.deserializeUnsignedLength node "pad_annular_ring_min/@0"
  let padMax ← R.deserializeUnsignedLength node "pad_annular_ring_max/@0"
  let viaRatio ← R.deserializeUnsignedRatio node "via_annular_ring_ratio/@0"
  let viaMin ← R.deserializeUnsignedLength node "via_annular_ring_min/@0"
  let viaMax ← R.deserializeUnsignedLength node "via_annular_ring_max/@0"
  let this : BoardDesignRules :=
    { mName := name
      mDescription := description
      mStopMaskClearanceRatio := stopRatio
      mStopMaskClearanceMin := stopMin
      mStopMaskClearanceMax := stopMax
      mStopMaskMaxViaDrillDiameter := stopVia
      mCreamMaskClearanceRatio := creamRatio
      mCreamMaskClearanceMin := creamMin
      mCreamMaskClearanceMax := creamMax
      mPadAnnularRingRatio := padRatio
      mPadAnnularRingMin := padMin
      mPadAnnularRingMax := padMax
      mViaAnnularRingRatio := viaRatio
      mViaAnnularRingMin := viaMin
      mViaAnnularRingMax := viaMax }
  match validateBounds this with
  | (.error e, _) => .error ⟨"Invalid design rules: " ++ e.msg⟩
  | (.ok _, this) => .ok this

/-- All fifteen children of `node` parse, and `p` holds the parsed values. -/
def AllParse {S : Type} (R : SExpressionReader S) (node : S) (p : BoardDesignRules) : Prop :=
  R.deserializeElementName node "name/@0" = .ok p.mName ∧
  R.getValue node "description/@0" = .ok p.mDescription ∧
  R.deserializeUnsignedRatio node "stopmask_clearance_ratio/@0"
    = .ok p.mStopMaskClearanceRatio ∧
  R.deserializeUnsignedLength node "stopmask_clearance_min/@0"
    = .ok p.mStopMaskClearanceMin ∧
  R.deserializeUnsignedLength node "stopmask_clearance_max/@0"
    = .ok p.mStopMaskClearanceMax ∧
  R.deserializeUnsignedLength node "stopmask_max_via_drill_diameter/@0"
    = .ok p.mStopMaskMaxViaDrillDiameter ∧
  R.deserializeUnsignedRatio node "creammask_clearance_ratio/@0"
    = .ok p.mCreamMaskClearanceRatio ∧
  R.deserializeUnsignedLength node "creammask_clearance_min/@0"
    = .ok p.mCreamMaskClearanceMin ∧
  R.deserializeUnsignedLength node "creammask_clearance_max/@0"
    = .ok p.mCreamMaskClearanceMax ∧
  R.deserializeUnsignedRatio node "pad_annular_ring_ratio/@0"
    = .ok p.mPadAnnularRingRatio ∧
  R.deserializeUnsignedLength node "pad_annular_ring_min/@0"
    = .ok p.mPadAnnularRingMin ∧
  R.deserializeUnsignedLength node "pad_annular_ring_max/@0"
    = .ok p.mPadAnnularRingMax ∧
  R.deserializeUnsignedRatio node "via_annular_ring_ratio/@0"
    = .ok p.mViaAnnularRingRatio ∧
  R.deserializeUnsignedLength node "via_annular_ring_min/@0"
    = .ok p.mViaAnnularRingMin ∧
  R.deserializeUnsignedLength node "via_annular_ring_max/@0"
    = .ok p.mViaAnnularRingMax

/-- A concrete reader used to run the constructor: a node is a table from
child path to an integer (nanometers or parts per million); texts are read as
the path itself; a negative number does not parse. -/
def tableReader : SExpressionReader (String → Int) where
  deserializeElementName := fun _ path => .ok path
  getValue := fun _ path => .ok path
  deserializeUnsignedRatio := fun node path =>
    if h : 0 ≤ node path then .ok ⟨node path, h⟩ else .error ⟨"Invalid ratio"⟩
  deserializeUnsignedLength := fun node path => UnsignedLength.ofLength (node path)

/-- The serialized default rule set, except for the pad annular ring bounds
min = 0.3 mm and max = 0.2 mm. -/
def invalidPadNode : String → Int := fun path =>
  if path = "stopmask_clearance_ratio/@0" then 0
  else if path = "stopmask_clearance_min/@0" then 100000
  else if path = "stopmask_clearance_max/@0" then 100000
  else if path = "stopmask_max_via_drill_diameter/@0" then 500000
  else if path = "creammask_clearance_ratio/@0" then 100000
  else if path = "creammask_clearance_min/@0" then 0
  else if path = "creammask_clearance_max/@0" then 1000000
  else if path = "pad_annular_ring_ratio/@0" then 250000
  else if path = "pad_annular_ring_min/@0" then 300000
  else if path = "pad_annular_ring_max/@0" then 200000
  else if path = "via_annular_ring_ratio/@0" then 250000
  else if path = "via_annular_ring_min/@0" then 200000
  else if path = "via_annular_ring_max/@0" then 2000000
  else 0

/-- The values parsed from `invalidPadNode` by `tableReader`. -/
def invalidPadParsed : BoardDesignRules :=
  { ctorDefault with
    mName := "name/@0"
    mDescription := "description/@0"
    mPadAnnularRingMin := ⟨300000, by decide⟩
    mPadAnnularRingMax := ⟨200000, by decide⟩ }

/-! ### The bound invariant, operations and reachable rule sets -/

/-- The bound invariant: `max >= min` for each of the four pairs. -/
def BoundsValid (r : BoardDesignRules) : Prop :=
  r.mStopMaskClearanceMin.value ≤ r.mStopMaskClearanceMax.value ∧
  r.mCreamMaskClearanceMin.value ≤ r.mCreamMaskClearanceMax.value ∧
  r.mPadAnnularRingMin.value ≤ r.mPadAnnularRingMax.value ∧
  r.mViaAnnularRingMin.value ≤ r.mViaAnnularRingMax.value

instance (r : BoardDesignRules) : Decidable (BoundsValid r) := by
  unfold BoundsValid; infer_instance

/-- The mutating operations of the public interface. -/
inductive Op where
  | setName (name : String)
  | setDescription (desc : String)
  | setStopMaskClearanceRatio (ratio : UnsignedRatio)
  | setStopMaskClearanceBounds (min max : UnsignedLength)
  | setStopMaskMaxViaDiameter (dia : UnsignedLength)
  | setCreamMaskClearanceRatio (ratio : UnsignedRatio)
  | setCreamMaskClearanceBounds (min max : UnsignedLength)
  | setPadAnnularRingRatio (ratio : UnsignedRatio)
  | setPadAnnularRingBounds (min max : UnsignedLength)
  | setViaAnnularRingRatio (ratio : UnsignedRatio)
  | setViaAnnularRingBounds (min max : UnsignedLength)
  | restoreDefaults
  | assign (rhs : BoardDesignRules)

/-- The object after an operation; for a bound setter this is the object left
behind by the call, whether it returned or threw. -/
def Op.apply (this : BoardDesignRules) : Op → BoardDesignRules
  | .setName name => this.setName name
  | .setDescription desc => this.setDescription desc
  | .setStopMaskClearanceRatio ratio => this.setStopMaskClearanceRatio ratio
  | .setStopMaskClearanceBounds min max => (this.setStopMaskClearanceBounds min max).2
  | .setStopMaskMaxViaDiameter dia => this.setStopMaskMaxViaDiameter dia
  | .setCreamMaskClearanceRatio ratio => this.setCreamMaskClearanceRatio ratio
  | .setCreamMaskClearanceBounds min max => (this.setCreamMaskClearanceBounds min max).2
  | .setPadAnnularRingRatio ratio => this.setPadAnnularRingRatio ratio
  | .setPadAnnularRingBounds min max => (this.setPadAnnularRingBounds min max).2
  | .setViaAnnularRingRatio ratio => this.setViaAnnularRingRatio ratio
  | .setViaAnnularRingBounds min max => (this.setViaAnnularRingBounds min max).2
  | .restoreDefaults => this.restoreDefaults
  | .assign rhs => this.assign rhs

/-- The side condition of an operation with respect to a property of rule
sets: the source of an assignment has the property. -/
def Op.SourceSatisfies (P : BoardDesignRules → Prop) : Op → Prop
  | .assign rhs => P rhs
  | _ => True

/-- The rule sets reachable from the default constructor by setters,
`restoreDefaults`, and copy construction or assignment from reachable rule
sets. -/
inductive Reachable : BoardDesignRules → Prop where
  | ctorDefault : Reachable ctorDefault
  | ctorCopy (other : BoardDesignRules) : Reachable other → Reachable (ctorCopy other)
  | step (op : Op) (r : BoardDesignRules) :
      Reachable r → (∀ rhs, op = Op.assign rhs → Reachable rhs) → Reachable (op.apply r)

/-! ### Contracts used to state the properties of the setters and of `calc*` -/

/-- The contract of a bound setter `set` with getters `getMin` and `getMax`:
the call throws exactly when `max < min`; a call that returns leaves `min` and
`max` in the getters; a call with `max = min` returns. -/
def BoundSetterContract
    (set : BoardDesignRules → UnsignedLength → UnsignedLength → Throwing Unit × BoardDesignRules)
    (getMin getMax : BoardDesignRules → UnsignedLength) : Prop :=
  ∀ (r : BoardDesignRules) (min max : UnsignedLength),
    ((∃ e, (set r min max).1 = .error e) ↔ max.value < min.value) ∧
    ((set r min max).1 = .ok () →
      getMin (set r min max).2 = min ∧ getMax (set r min max).2 = max) ∧
    (set r min min).1 = .ok ()

/-- The frame of a bound setter `set` whose own fields are written by `put`:
a call that throws leaves the object as it was, a call that returns leaves the
object with exactly the two own fields replaced. -/
def BoundSetterFrame
    (set : BoardDesignRules → UnsignedLength → UnsignedLength → Throwing Unit × BoardDesignRules)
    (put : BoardDesignRules → UnsignedLength → UnsignedLength → BoardDesignRules) : Prop :=
  ∀ (r : BoardDesignRules) (min max : UnsignedLength),
    (∀ e, (set r min max).1 = .error e → (set r min max).2 = r) ∧
    ((set r min max).1 = .ok () → (set r min max).2 = put r min max)

/-- The function `f` returns (it does not throw) the clamp of the scaled
base dimension to the pair `(min, max)`, and the value is not negative. -/
def CalcIsClamp (f : Scaling → BoardDesignRules → Length → Throwing UnsignedLength)
    (ratio : BoardDesignRules → UnsignedRatio)
    (min max : BoardDesignRules → UnsignedLength) : Prop :=
  ∀ (scaled : Scaling) (r : BoardDesignRules) (b : Length),
    ∃ u : UnsignedLength, f scaled r b = .ok u ∧
      u.value = clamp (min r).value (scaled b (ratio r)) (max r).value ∧ 0 ≤ u.value

/-- The function `f` returns on `r` and `b` a value between `min r` and
`max r`. -/
def CalcWithin (f : Scaling → BoardDesignRules → Length → Throwing UnsignedLength)
    (min max : BoardDesignRules → UnsignedLength)
    (scaled : Scaling) (r : BoardDesignRules) (b : Length) : Prop :=
  ∃ u : UnsignedLength, f scaled r b = .ok u ∧
    (min r).value ≤ u.value ∧ u.value ≤ (max r).value

/-- The function `f` returns on `b1` a value that is at most the value it
returns on `b2`. -/
def CalcLe (f : Scaling → BoardDesignRules → Length → Throwing UnsignedLength)
    (scaled : Scaling) (r : BoardDesignRules) (b1 b2 : Length) : Prop :=
  ∃ u1 u2 : UnsignedLength, f scaled r b1 = .ok u1 ∧ f scaled r b2 = .ok u2 ∧
    u1.value ≤ u2.value

end BoardDesignRules

end LibrePCB

/-! ## BoardDesignRuleCheck -/

namespace LibrePCB

/-- A net signal of the circuit, with its display name. -/
structure NetSignal where
  name : String
deriving DecidableEq, Repr

/-- A layer of the layer stack, with the attributes read by the check. -/
structure GraphicsLayer where
  name : String
  nameTr : String
  isCopperLayer : Bool
  isEnabled : Bool
deriving DecidableEq, Repr

/-- Modelled from the spec: the layer name constant
`GraphicsLayer::sTopCourtyard` of `graphicslayer.h` (not in the sources at
hand), the name of the top courtyard layer. -/
def GraphicsLayer.sTopCourtyard : String := "top_courtyard"

/-- Modelled from the spec: the layer name constant
`GraphicsLayer::sBotCourtyard` of `graphicslayer.h` (not in the sources at
hand), the name of the bottom courtyard layer. -/
def GraphicsLayer.sBotCourtyard : String := "bot_courtyard"

/-- Modelled from the spec: the enumeration `SlotsWarningLevel` of
`boarddesignrulecheck.h` (not in the sources at hand), ordered
None < Curved < MultiSegment < All. -/
inductive SlotsWarningLevel where
  | None
  | Curved
  | MultiSegment
  | All
deriving DecidableEq, Repr

/-- The underlying value of a warning level, which the comparison `>=` of the
enumeration compares. -/
def SlotsWarningLevel.toNat : SlotsWarningLevel → Nat
  | .None => 0
  | .Curved => 1
  | .MultiSegment => 2
  | .All => 3

/-- Modelled from the spec: the structure `Options` of
`boarddesignrulecheck.h` (not in the sources at hand), with the members read
in `boarddesignrulecheck.cpp`. -/
structure Options where
  rebuildPlanes : Bool
  checkCopperWidth : Bool
  minCopperWidth : UnsignedLength
  checkCopperCopperClearance : Bool
  minCopperCopperClearance : UnsignedLength
  checkCopperBoardClearance : Bool
  minCopperBoardClearance : UnsignedLength
  checkCopperNpthClearance : Bool
  minCopperNpthClearance : UnsignedLength
  checkPthAnnularRing : Bool
  minPthAnnularRing : UnsignedLength
  checkNpthDrillDiameter : Bool
  minNpthDrillDiameter : UnsignedLength
  checkNpthSlotWidth : Bool
  minNpthSlotWidth : UnsignedLength
  checkPthDrillDiameter : Bool
  minPthDrillDiameter : UnsignedLength
  checkPthSlotWidth : Bool
  minPthSlotWidth : UnsignedLength
  checkNpthSlotsWarning : Bool
  npthSlotsWarning : SlotsWarningLevel
  checkPthSlotsWarning : Bool
  pthSlotsWarning : SlotsWarningLevel
  checkCourtyardClearance : Bool
  courtyardOffset : Length
  checkMissingConnections : Bool

/-- The polygon operations (`BoardClipperPathGenerator`, `ClipperHelpers`,
`ClipperLib`) are code that is not in the sources at hand; the passes take them
as an argument. `ClipperLib::Paths` is a vector of `ClipperLib::Path`, embedded
as a list. -/
structure Geometry where
  /-- The polygon type `ClipperLib::Path`. -/
  ClipperPath : Type
  /-- The result type `ClipperLib::PolyTree`. -/
  PolyTree : Type
  /-- The path type `librepcb::Path`. -/
  Path : Type
  /-- The paths of a generator after `addCopper(layerName, netsignals)`, for
  the board in its current state. -/
  addCopper : String → List (Option NetSignal) → List ClipperPath
  /-- The paths after `ClipperHelpers::offset(paths, offset, tolerance)`. -/
  offset : List ClipperPath → Length → PositiveLength → List ClipperPath
  /-- The tree returned by `ClipperHelpers::intersect(subject, clip)`. -/
  intersect : List ClipperPath → List ClipperPath → PolyTree
  /-- The paths returned by `ClipperHelpers::flattenTree(tree)`. -/
  flattenTree : PolyTree → List ClipperPath
  /-- The path returned by `ClipperHelpers::convert(path)`. -/
  convert : ClipperPath → Path

/-- A position on the board, `Point(x, y)`. -/
abbrev Point := Length × Length

/-- An angle, in microdegrees. -/
abbrev Angle := Int

/-- Modelled from the spec: the class `Transform` of `utils/transform.h` (not
in the sources at hand), a placement given by position, rotation and
mirroring. -/
structure Transform where
  position : Point
  rotation : Angle
  mirrored : Bool
deriving DecidableEq, Repr

/-- The default constructed transform `Transform()`: no move, no rotation, no
mirroring. -/
def Transform.identity : Transform := ⟨(0, 0), 0, false⟩

/-- The further operations on paths that are not in the sources at hand
(`Path`, `Transform`, `ClipperHelpers`, `BoardClipperPathGenerator`,
`Toolbox`); the passes take them as an argument. -/
structure Helpers (G : Geometry) where
  /-- The path `Path::circle(diameter)`. -/
  circle : PositiveLength → G.Path
  /-- The path `Path::obround(p1, p2, width)`. -/
  obround : Point → Point → PositiveLength → G.Path
  /-- The path `path.translated(offset)`. -/
  translated : G.Path → Point → G.Path
  /-- The path `path.toClosedPath()`. -/
  toClosedPath : G.Path → G.Path
  /-- The paths `path.toOutlineStrokes(width)`. -/
  toOutlineStrokes : G.Path → PositiveLength → List G.Path
  /-- The path `transform.map(path)`. -/
  mapPath : Transform → G.Path → G.Path
  /-- The point `transform.map(point)`. -/
  mapPoint : Transform → Point → Point
  /-- The layer name `transform.map(layerName)`. -/
  mapLayerName : Transform → String → String
  /-- The polygon `ClipperHelpers::convert(path, tolerance)`. -/
  toClipper : G.Path → PositiveLength → G.ClipperPath
  /-- The first argument after `ClipperHelpers::unite(paths, path)`. -/
  unitePath : List G.ClipperPath → G.ClipperPath → List G.ClipperPath
  /-- The first argument after `ClipperHelpers::unite(paths, morePaths)`. -/
  unitePaths : List G.ClipperPath → List G.ClipperPath → List G.ClipperPath
  /-- The first argument after `ClipperHelpers::subtract(subject, clip)`. -/
  subtract : List G.ClipperPath → List G.ClipperPath → List G.ClipperPath
  /-- The tree returned by `ClipperHelpers::subtractToTree(subject, clip)`. -/
  subtractToTree : List G.ClipperPath → List G.ClipperPath → G.PolyTree
  /-- The tree returned by `ClipperHelpers::intersect(listOfPaths)`. -/
  intersectAll : List (List G.ClipperPath) → G.PolyTree
  /-- The paths returned by `ClipperHelpers::treeToPaths(tree)`. -/
  treeToPaths : G.PolyTree → List G.ClipperPath
  /-- The paths of a generator after `addBoardOutline()`. -/
  addBoardOutline : List G.ClipperPath
  /-- The paths of a generator after `addHoles(offset)`. -/
  addHoles : Length → List G.ClipperPath
  /-- The text of `formatLength(length)` without the unit, that is
  `Toolbox::floatToString(length.toMm(), 6, QLocale())`. -/
  floatToString : Length → String

/-- A hole (`Hole`): diameter, path, and the three classifications of the
path that the check reads. -/
structure Hole (G : Geometry) where
  diameter : PositiveLength
  path : G.Path
  isSlot : Bool
  isMultiSegmentSlot : Bool
  isCurvedSlot : Bool

/-- A via (`BI_Via`). -/
structure Via where
  position : Point
  drillDiameter : PositiveLength

/-- A trace (`BI_NetLine`), with its layer and its two end points. -/
structure NetLine where
  layer : GraphicsLayer
  width : PositiveLength
  startPoint : Point
  endPoint : Point

/-- A net segment (`BI_NetSegment`); `netNameToDisplay` is the text of
`getNetNameToDisplay(true)`. -/
structure NetSegment where
  netNameToDisplay : String
  vias : List Via
  netLines : List NetLine

/-- A stroke text of the board or of a device (`BI_StrokeText` with its
`StrokeText`); `paths` is the result of `generatePaths()`. -/
structure StrokeText (G : Geometry) where
  layerName : String
  strokeWidth : UnsignedLength
  position : Point
  rotation : Angle
  mirrored : Bool
  paths : List G.Path

/-- A plane (`BI_Plane`). -/
structure Plane (G : Geometry) where
  layerName : String
  minWidth : UnsignedLength
  outline : G.Path

/-- A polygon of a footprint. -/
structure Polygon (G : Geometry) where
  layerName : String
  path : G.Path

/-- A circle of a footprint. -/
structure Circle where
  layerName : String
  center : Point
  diameter : PositiveLength

/-- A pad of a device on the board (`BI_FootprintPad`): its absolute
placement, its display text (`getDisplayText().simplified()`), and the
position, rotation and holes of its library pad. -/
structure FootprintPad (G : Geometry) where
  position : Point
  rotation : Angle
  mirrored : Bool
  displayText : String
  libPosition : Point
  libRotation : Angle
  holes : List (Hole G)

/-- A device on the board (`BI_Device`): its placement, the name of its
component instance, its pads and stroke texts, and the holes, polygons and
circles of its library footprint. -/
structure Device (G : Geometry) where
  position : Point
  rotation : Angle
  mirrored : Bool
  name : String
  pads : List (FootprintPad G) := []
  holes : List (Hole G) := []
  polygons : List (Polygon G) := []
  circles : List Circle := []
  strokeTexts : List (StrokeText G) := []

/-- An air wire (`BI_AirWire`), with the name of its net signal. -/
structure AirWire where
  netName : String
  p1 : Point
  p2 : Point

/-- The parts of the board read by the passes: the net signals of the circuit
(`getNetSignals().values()`), all layers of the layer stack
(`getAllLayers()`), and the items of the board, each in the order of
iteration; `airWires` are the air wires after `forceAirWiresRebuild()`. -/
structure Board (G : Geometry) where
  netSignals : List NetSignal := []
  layers : List GraphicsLayer := []
  strokeTexts : List (StrokeText G) := []
  planes : List (Plane G) := []
  devices : List (Device G) := []
  netSegments : List NetSegment := []
  holes : List (Hole G) := []
  airWires : List AirWire := []

/-- The layer `getLayerStack().getLayer(name)`, if there is one. -/
def Board.getLayer {G : Geometry} (mBoard : Board G) (name : String) : Option GraphicsLayer :=
  mBoard.layers.find? fun layer => layer.name = name

/-- The layers `getLayerStack().getLayers(names)`: for each name the layer of
that name, if there is one. -/
def Board.getLayers {G : Geometry} (mBoard : Board G) (names : List String) :
    List GraphicsLayer :=
  names.filterMap mBoard.getLayer

/-- The transform `Transform(device)`. -/
def Device.transform {G : Geometry} (device : Device G) : Transform :=
  ⟨device.position, device.rotation, device.mirrored⟩

/-- The transform `Transform(pad)` of a pad on the board. -/
def FootprintPad.transform {G : Geometry} (pad : FootprintPad G) : Transform :=
  ⟨pad.position, pad.rotation, pad.mirrored⟩

/-- The transform `Transform(pad.getLibPad().getPosition(),
pad.getLibPad().getRotation())`. -/
def FootprintPad.libTransform {G : Geometry} (pad : FootprintPad G) : Transform :=
  ⟨pad.libPosition, pad.libRotation, false⟩

/-- The transform `Transform(text.getText())`. -/
def StrokeText.transform {G : Geometry} (text : StrokeText G) : Transform :=
  ⟨text.position, text.rotation, text.mirrored⟩

/-- A message of the check: text, locations and description. -/
structure BoardDesignRuleCheckMessage (Path : Type) where
  message : String
  locations : List Path
  description : String := ""

/-- The Qt signals of the check object. -/
inductive Signal where
  | started
  | progressPercent (percent : Int)
  | progressStatus (status : String)
  | progressMessage (msg : String)
  | finished
deriving DecidableEq, Repr

/-- The calls on the board that change it. -/
inductive BoardCall where
  | rebuildAllPlanes
  | forceAirWiresRebuild
deriving DecidableEq, Repr

/-- The key of the path cache: the layer and the set of net signals (the
unconnected pseudo net is `none`). -/
abbrev CacheKey := GraphicsLayer × List (Option NetSignal)

/-- The mutable members of `class BoardDesignRuleCheck`, the signals emitted
so far and the calls made on the board so far, oldest first. -/
structure BoardDesignRuleCheck (G : Geometry) where
  mProgressStatus : List String := []
  mMessages : List (BoardDesignRuleCheckMessage G.Path) := []
  mCachedPaths : List (CacheKey × List G.ClipperPath) := []
  emitted : List Signal := []
  boardCalls : List BoardCall := []

end LibrePCB

namespace LibrePCB

/-- The checked construction `PositiveLength(qMax(a, b))` for a positive `b`:
the value is at least `b`, so the constructor does not throw. -/
def PositiveLength.ofQMax (a : Length) (b : PositiveLength) : PositiveLength :=
  ⟨qMax a b.value, by
    unfold qMax
    split_ifs with h
    · exact b.pos
    · exact lt_of_lt_of_le b.pos (not_lt.mp h)⟩

namespace BoardDesignRuleCheck

variable {G : Geometry}

def emitStatus (status : String) (this : BoardDesignRuleCheck G) : BoardDesignRuleCheck G :=
  let this := { this with mProgressStatus := this.mProgressStatus ++ [status] }
  { this with emitted := this.emitted ++ [Signal.progressStatus status] }

def emitMessage (msg : BoardDesignRuleCheckMessage G.Path) (this : BoardDesignRuleCheck G) :
    BoardDesignRuleCheck G :=
  let this := { this with mMessages := this.mMessages ++ [msg] }
  { this with emitted := this.emitted ++ [Signal.progressMessage msg.message] }

/-- The statement `emit progressPercent(percent)`. -/
def emitProgressPercent (percent : Int) (this : BoardDesignRuleCheck G) :
    BoardDesignRuleCheck G :=
  { this with emitted := this.emitted ++ [Signal.progressPercent percent] }

/-- The method `formatLength`. -/
def formatLength (H : Helpers G) (length : Length) : String :=
  H.floatToString length ++ "mm"

/-- The method `getHoleLocation(hole, transform1, transform2)`. -/
def getHoleLocation (H : Helpers G) (hole : Hole G) (transform1 transform2 : Transform) :
    List G.Path :=
  (H.toOutlineStrokes (H.mapPath transform1 hole.path) hole.diameter).map
    (H.mapPath transform2)

/-- The method `getCopperPaths`: the cached paths of the key when there are
some, otherwise the generated paths, which are then stored. -/
def getCopperPaths (layer : GraphicsLayer) (netsignals : List (Option NetSignal))
    (this : BoardDesignRuleCheck G) : List G.ClipperPath × BoardDesignRuleCheck G :=
  let key : CacheKey := (layer, netsignals)
  match this.mCachedPaths.lookup key with
  | some paths => (paths, this)
  | none =>
    let paths := G.addCopper layer.name netsignals
    (paths, { this with mCachedPaths := (key, paths) :: this.mCachedPaths })

/-- The method `getDeviceCourtyardPaths(device, layer)`. -/
def getDeviceCourtyardPaths (H : Helpers G) (maxArcTolerance : PositiveLength)
    (device : Device G) (layer : GraphicsLayer) : List G.ClipperPath :=
  let paths : List G.ClipperPath := []
  let transform := device.transform
  let paths := device.polygons.foldl
    (fun paths polygon =>
      let polygonLayer := H.mapLayerName transform polygon.layerName
      if polygonLayer != layer.name then paths
      else
        let path := H.mapPath transform polygon.path
        H.unitePath paths (H.toClipper path maxArcTolerance))
    paths
  device.circles.foldl
    (fun paths circle =>
      let circleLayer := H.mapLayerName transform circle.layerName
      if circleLayer != layer.name then paths
      else
        let _absolutePos := H.mapPoint transform circle.center
        H.unitePath paths (H.toClipper (H.circle circle.diameter) maxArcTolerance))
    paths

/-- The name used in a message for entry `i` of the net signal list: the name
of the net, or the empty string for the unconnected pseudo net. -/
def netNameAt (netsignals : List (Option NetSignal)) (i : Nat) : String :=
  match netsignals.getD i none with
  | some net => net.name
  | none => ""

/-- The progress value of the two passes over layers and net signals:
`progressSpan * qreal((layerIndex + 1) * count + i + 1) / qreal(layerCount * count)`
converted to `int`; the floating point quotient of these small integers is
embedded as the exact rational. -/
def layerNetProgress (progressSpan : Int) (layerCount layerIndex count i : Nat) : Int :=
  truncToInt ((progressSpan : ℚ) * ((((layerIndex + 1) * count + i + 1 : Nat) : Int) : ℚ)
    / (((layerCount * count : Nat) : Int) : ℚ))

/-! ### Rebuild planes, missing connections -/

/-- The method `rebuildPlanes(progressStart, progressEnd)`. -/
def rebuildPlanes (_progressStart progressEnd : Int) (this : BoardDesignRuleCheck G) :
    BoardDesignRuleCheck G :=
  let this := emitStatus "Rebuild planes..." this
  let this := { this with boardCalls := this.boardCalls ++ [BoardCall.rebuildAllPlanes] }
  emitProgressPercent progressEnd this

/-- The method `checkForMissingConnections(progressStart, progressEnd)`. -/
def checkForMissingConnections (H : Helpers G) (mBoard : Board G)
    (_progressStart progressEnd : Int) (this : BoardDesignRuleCheck G) :
    BoardDesignRuleCheck G :=
  let this := emitStatus "Check for missing connections..." this
  let this := { this with boardCalls := this.boardCalls ++ [BoardCall.forceAirWiresRebuild] }
  let this := mBoard.airWires.foldl
    (fun this airwire =>
      let msg := "Missing connection: '" ++ airwire.netName ++ "'"
      let location := H.obround airwire.p1 airwire.p2 ⟨50000, by decide⟩
      emitMessage { message := msg, locations := [location] } this)
    this
  emitProgressPercent progressEnd this

/-! ### Board clearances -/

/-- The restricted area built at the start of `checkCopperBoardClearances`:
the band along the board outline, united with the grown holes. -/
def outlineRestrictedArea (H : Helpers G) (mOptions : Options)
    (maxArcTolerance : PositiveLength) : List G.ClipperPath :=
  let outlineRestrictedArea : List G.ClipperPath := []
  let outlineRestrictedArea :=
    if mOptions.checkCopperBoardClearance then
      let outlineRestrictedArea := H.addBoardOutline
      let outlinePathsInner := H.addBoardOutline
      let outlinePathsInner := G.offset outlinePathsInner
        (maxArcTolerance.value - mOptions.minCopperBoardClearance.value) maxArcTolerance
      H.subtract outlineRestrictedArea outlinePathsInner
    else outlineRestrictedArea
  if mOptions.checkCopperNpthClearance then
    H.unitePaths outlineRestrictedArea
      (H.addHoles (mOptions.minCopperNpthClearance.value - maxArcTolerance.value))
  else outlineRestrictedArea

/-- The body of the loop over `i` in `checkCopperBoardClearances`. -/
def copperBoardNet (restrictedArea : List G.ClipperPath)
    (progressStart progressSpan : Int) (layerCount layerIndex : Nat)
    (layer : GraphicsLayer) (netsignals : List (Option NetSignal))
    (this : BoardDesignRuleCheck G) (i : Nat) : BoardDesignRuleCheck G :=
  let (paths, this) := getCopperPaths layer [netsignals.getD i none] this
  let intersections := G.intersect restrictedArea paths
  let this := (G.flattenTree intersections).foldl
    (fun this path =>
      let name1 := netNameAt netsignals i
      let msg := "Clearance (" ++ layer.nameTr ++ "): '" ++ name1 ++ "' <-> Board Outline"
      let location := G.convert path
      emitMessage { message := msg, locations := [location] } this)
    this
  let progress := layerNetProgress progressSpan layerCount layerIndex netsignals.length i
  emitProgressPercent (progressStart + progress) this

/-- The method `checkCopperBoardClearances(progressStart, progressEnd)`. -/
def checkCopperBoardClearances (H : Helpers G) (mBoard : Board G) (mOptions : Options)
    (maxArcTolerance : PositiveLength) (progressStart progressEnd : Int)
    (this : BoardDesignRuleCheck G) : BoardDesignRuleCheck G :=
  let this := emitStatus "Check board clearances..." this
  let progressSpan := progressEnd - progressStart
  let netsignals : List (Option NetSignal) := mBoard.netSignals.map some ++ [none]
  let restrictedArea := outlineRestrictedArea H mOptions maxArcTolerance
  let layers := mBoard.layers
  (List.range layers.length).foldl
    (fun this layerIndex =>
      match layers.get? layerIndex with
      | none => this
      | some layer =>
        if (!layer.isCopperLayer) || (!layer.isEnabled) then this
        else
          (List.range netsignals.length).foldl
            (copperBoardNet restrictedArea progressStart progressSpan
              layers.length layerIndex layer netsignals)
            this)
    this

/-! ### Copper clearances -/

/-- The offset applied to the copper of each net in the copper clearance
pass, `(minCopperCopperClearance - maxArcTolerance) / 2` with the division of
`Length` by an integer (truncating). -/
def copperCopperOffset (mOptions : Options) (maxArcTolerance : PositiveLength) : Length :=
  (mOptions.minCopperCopperClearance.value - maxArcTolerance.value).tdiv 2

/-- The body of the loop over `k` in `checkCopperCopperClearances`, for the
layer `layer`, the entry `i` with its offset paths `paths1`, and the entry
`k`: one message for each path of the flattened intersection. -/
def copperCopperPair (mOptions : Options) (maxArcTolerance : PositiveLength)
    (layer : GraphicsLayer) (netsignals : List (Option NetSignal)) (i : Nat)
    (paths1 : List G.ClipperPath) (this : BoardDesignRuleCheck G) (k : Nat) :
    BoardDesignRuleCheck G :=
  let (paths2, this) := getCopperPaths layer [netsignals.getD k none] this
  let paths2 := G.offset paths2 (copperCopperOffset mOptions maxArcTolerance) maxArcTolerance
  let intersections := G.intersect paths1 paths2
  (G.flattenTree intersections).foldl
    (fun this path =>
      let name1 := netNameAt netsignals i
      let name2 := netNameAt netsignals k
      let msg := "Clearance (" ++ layer.nameTr ++ "): '" ++ name1 ++ "' <-> '" ++ name2 ++ "'"
      let location := G.convert path
      emitMessage { message := msg, locations := [location] } this)
    this

/-- The body of the loop over `i` in `checkCopperCopperClearances`. -/
def copperCopperNet (mOptions : Options) (maxArcTolerance : PositiveLength)
    (progressStart progressSpan : Int) (layerCount layerIndex : Nat)
    (layer : GraphicsLayer) (netsignals : List (Option NetSignal))
    (this : BoardDesignRuleCheck G) (i : Nat) : BoardDesignRuleCheck G :=
  let (paths1, this) := getCopperPaths layer [netsignals.getD i none] this
  let paths1 := G.offset paths1 (copperCopperOffset mOptions maxArcTolerance) maxArcTolerance
  let this := (List.range' (i + 1) (netsignals.length - (i + 1))).foldl
    (copperCopperPair mOptions maxArcTolerance layer netsignals i paths1) this
  let progress := layerNetProgress progressSpan layerCount layerIndex netsignals.length i
  emitProgressPercent (progressStart + progress) this

/-- The method `checkCopperCopperClearances(progressStart, progressEnd)`. -/
def checkCopperCopperClearances (mBoard : Board G) (mOptions : Options)
    (maxArcTolerance : PositiveLength) (progressStart progressEnd : Int)
    (this : BoardDesignRuleCheck G) : BoardDesignRuleCheck G :=
  let this := emitStatus "Check copper clearances..." this
  let progressSpan := progressEnd - progressStart
  let netsignals : List (Option NetSignal) := mBoard.netSignals.map some ++ [none]
  let layers := mBoard.layers
  (List.range layers.length).foldl
    (fun this layerIndex =>
      match layers.get? layerIndex with
      | none => this
      | some layer =>
        if (!layer.isCopperLayer) || (!layer.isEnabled) then this
        else
          (List.range netsignals.length).foldl
            (copperCopperNet mOptions maxArcTolerance progressStart progressSpan
              layers.length layerIndex layer netsignals)
            this)
    this

/-! ### Courtyard clearances -/

/-- The body of the loop over `k` in `checkCourtyardClearances`, for the
entries `i` and `k` of the map from device to courtyard paths. The map is
ordered by the address of the device; the embedding takes the order of the
device list of the board for it. -/
def courtyardPair (layer : GraphicsLayer)
    (deviceCourtyards : List (Device G × List G.ClipperPath)) (i : Nat)
    (this : BoardDesignRuleCheck G) (k : Nat) : BoardDesignRuleCheck G :=
  match deviceCourtyards.get? i, deviceCourtyards.get? k with
  | some (dev1, paths1), some (dev2, paths2) =>
    let intersections := G.intersect paths1 paths2
    (G.flattenTree intersections).foldl
      (fun this path =>
        let name1 := dev1.name
        let name2 := dev2.name
        let msg := "Clearance (" ++ layer.nameTr ++ "): '" ++ name1 ++ "' <-> '" ++ name2 ++ "'"
        let location := G.convert path
        emitMessage { message := msg, locations := [location] } this)
      this
  | _, _ => this

/-- The method `checkCourtyardClearances(progressStart, progressEnd)`. -/
def checkCourtyardClearances (H : Helpers G) (mBoard : Board G) (mOptions : Options)
    (maxArcTolerance : PositiveLength) (_progressStart progressEnd : Int)
    (this : BoardDesignRuleCheck G) : BoardDesignRuleCheck G :=
  let this := emitStatus "Check courtyard clearances..." this
  let layers := mBoard.getLayers [GraphicsLayer.sTopCourtyard, GraphicsLayer.sBotCourtyard]
  let this := layers.foldl
    (fun this layer =>
      let deviceCourtyards := mBoard.devices.map fun device =>
        (device, G.offset (getDeviceCourtyardPaths H maxArcTolerance device layer)
          mOptions.courtyardOffset maxArcTolerance)
      (List.range deviceCourtyards.length).foldl
        (fun this i =>
          (List.range' (i + 1) (deviceCourtyards.length - (i + 1))).foldl
            (courtyardPair layer deviceCourtyards i) this)
        this)
    this
  emitProgressPercent progressEnd this

end BoardDesignRuleCheck

end LibrePCB

namespace LibrePCB

namespace BoardDesignRuleCheck

variable {G : Geometry}

/-! ### Minimum copper width -/

/-- The body of the loops over stroke texts in `checkMinimumCopperWidth` (the
texts of the board and the texts of the devices run the same statements). -/
def copperWidthText (H : Helpers G) (mBoard : Board G) (mOptions : Options)
    (this : BoardDesignRuleCheck G) (text : StrokeText G) : BoardDesignRuleCheck G :=
  match mBoard.getLayer text.layerName with
  | none => this
  | some layer =>
    if (!layer.isCopperLayer) || (!layer.isEnabled) then this
    else if text.strokeWidth.value < mOptions.minCopperWidth.value then
      let msg := "Min. copper width (" ++ layer.nameTr ++ ") of text: "
        ++ formatLength H text.strokeWidth.value
      let transform := text.transform
      let locations := (text.paths.map (H.mapPath transform)).foldl
        (fun locations path =>
          locations ++ H.toOutlineStrokes path
            (PositiveLength.ofQMax text.strokeWidth.value ⟨50000, by decide⟩))
        []
      emitMessage { message := msg, locations := locations } this
    else this

/-- The body of the loop over planes in `checkMinimumCopperWidth`. -/
def copperWidthPlane (H : Helpers G) (mBoard : Board G) (mOptions : Options)
    (this : BoardDesignRuleCheck G) (plane : Plane G) : BoardDesignRuleCheck G :=
  match mBoard.getLayer plane.layerName with
  | none => this
  | some layer =>
    if (!layer.isCopperLayer) || (!layer.isEnabled) then this
    else if plane.minWidth.value < mOptions.minCopperWidth.value then
      let msg := "Min. copper width (" ++ layer.nameTr ++ ") of plane: "
        ++ formatLength H plane.minWidth.value
      let locations := H.toOutlineStrokes (H.toClosedPath plane.outline) ⟨200000, by decide⟩
      emitMessage { message := msg, locations := locations } this
    else this

/-- The body of the loop over traces in `checkMinimumCopperWidth`. -/
def copperWidthNetLine (H : Helpers G) (mOptions : Options)
    (this : BoardDesignRuleCheck G) (netline : NetLine) : BoardDesignRuleCheck G :=
  if (!netline.layer.isCopperLayer) || (!netline.layer.isEnabled) then this
  else if netline.width.value < mOptions.minCopperWidth.value then
    let msg := "Min. copper width (" ++ netline.layer.nameTr ++ ") of trace: "
      ++ formatLength H netline.width.value
    let location := H.obround netline.startPoint netline.endPoint netline.width
    emitMessage { message := msg, locations := [location] } this
  else this

/-- The method `checkMinimumCopperWidth(progressStart, progressEnd)`. -/
def checkMinimumCopperWidth (H : Helpers G) (mBoard : Board G) (mOptions : Options)
    (_progressStart progressEnd : Int) (this : BoardDesignRuleCheck G) :
    BoardDesignRuleCheck G :=
  let this := emitStatus "Check minimum copper width..." this
  let this := mBoard.strokeTexts.foldl (copperWidthText H mBoard mOptions) this
  let this := mBoard.planes.foldl (copperWidthPlane H mBoard mOptions) this
  let this := mBoard.devices.foldl
    (fun this device => device.strokeTexts.foldl (copperWidthText H mBoard mOptions) this)
    this
  let this := mBoard.netSegments.foldl
    (fun this netsegment => netsegment.netLines.foldl (copperWidthNetLine H mOptions) this)
    this
  emitProgressPercent progressEnd this

/-! ### Minimum annular ring of plated holes -/

/-- The diameter `drill + (minPthAnnularRing * 2) - 1` computed for a via or
a pad hole in `checkMinimumPthAnnularRing`. -/
def annularRingDiameter (mOptions : Options) (drill : PositiveLength) : Length :=
  drill.value + (mOptions.minPthAnnularRing.value * 2) - 1

/-- The first loop of `checkMinimumPthAnnularRing`: the copper paths (of all
nets) of each enabled copper layer, in the order of the layers. -/
def thtCopperAreas (mBoard : Board G) (this : BoardDesignRuleCheck G) :
    List (List G.ClipperPath) × BoardDesignRuleCheck G :=
  mBoard.layers.foldl
    (fun (acc : List (List G.ClipperPath) × BoardDesignRuleCheck G) l =>
      if l.isCopperLayer && l.isEnabled then
        let (paths, this) := getCopperPaths l [] acc.2
        (acc.1 ++ [paths], this)
      else acc)
    ([], this)

/-- The area built for a via in `checkMinimumPthAnnularRing`: the circle of
the computed diameter at the position of the via, or nothing when the
computed diameter is not positive (the via is then skipped). -/
def viaRequiredAreas (H : Helpers G) (mOptions : Options) (maxArcTolerance : PositiveLength)
    (via : Via) : Option (List G.ClipperPath) :=
  if h : annularRingDiameter mOptions via.drillDiameter ≤ 0 then none
  else
    some [H.toClipper
      (H.translated (H.circle ⟨annularRingDiameter mOptions via.drillDiameter, not_le.mp h⟩)
        via.position)
      maxArcTolerance]

/-- The body of the loop over vias in `checkMinimumPthAnnularRing`. -/
def annularRingVia (H : Helpers G) (mOptions : Options) (maxArcTolerance : PositiveLength)
    (thtCopperAreaPaths : List G.ClipperPath) (netsegment : NetSegment)
    (this : BoardDesignRuleCheck G) (via : Via) : BoardDesignRuleCheck G :=
  match viaRequiredAreas H mOptions maxArcTolerance via with
  | none => this
  | some areas =>
    let remainingAreasTree := H.subtractToTree areas thtCopperAreaPaths
    let remainingAreas := G.flattenTree remainingAreasTree
    if !remainingAreas.isEmpty then
      let msg := "Annular ring of via '" ++ netsegment.netNameToDisplay ++ "' < "
        ++ formatLength H mOptions.minPthAnnularRing.value
      let location := remainingAreas.map G.convert
      emitMessage { message := msg, locations := location } this
    else this

/-- The areas built for a pad in `checkMinimumPthAnnularRing`: the union over
the holes of the pad (those with a positive computed diameter) of the hole
path stroked with the computed diameter. -/
def padRequiredAreas (H : Helpers G) (mOptions : Options) (maxArcTolerance : PositiveLength)
    (pad : FootprintPad G) : List G.ClipperPath :=
  let transform := pad.transform
  pad.holes.foldl
    (fun areas hole =>
      if h : annularRingDiameter mOptions hole.diameter ≤ 0 then areas
      else
        (H.toOutlineStrokes hole.path
            ⟨annularRingDiameter mOptions hole.diameter, not_le.mp h⟩).foldl
          (fun areas area =>
            H.unitePath areas (H.toClipper (H.mapPath transform area) maxArcTolerance))
          areas)
    []

/-- The body of the loop over pads in `checkMinimumPthAnnularRing`. -/
def annularRingPad (H : Helpers G) (mOptions : Options) (maxArcTolerance : PositiveLength)
    (thtCopperAreaPaths : List G.ClipperPath)
    (this : BoardDesignRuleCheck G) (pad : FootprintPad G) : BoardDesignRuleCheck G :=
  let areas := padRequiredAreas H mOptions maxArcTolerance pad
  let remainingAreasTree := H.subtractToTree areas thtCopperAreaPaths
  let remainingAreas := G.flattenTree remainingAreasTree
  if !remainingAreas.isEmpty then
    let msg := "Annular ring of pad '" ++ pad.displayText ++ "' < "
      ++ formatLength H mOptions.minPthAnnularRing.value
    let location := remainingAreas.map G.convert
    emitMessage { message := msg, locations := location } this
  else this

/-- The method `checkMinimumPthAnnularRing(progressStart, progressEnd)`. -/
def checkMinimumPthAnnularRing (H : Helpers G) (mBoard : Board G) (mOptions : Options)
    (maxArcTolerance : PositiveLength) (_progressStart progressEnd : Int)
    (this : BoardDesignRuleCheck G) : BoardDesignRuleCheck G :=
  let this := emitStatus "Check minimum PTH annular rings..." this
  let (areas, this) := thtCopperAreas mBoard this
  let thtCopperAreaIntersections := H.intersectAll areas
  let thtCopperAreaPaths := H.treeToPaths thtCopperAreaIntersections
  let this := mBoard.netSegments.foldl
    (fun this netsegment =>
      netsegment.vias.foldl
        (annularRingVia H mOptions maxArcTolerance thtCopperAreaPaths netsegment) this)
    this
  let this := mBoard.devices.foldl
    (fun this device =>
      device.pads.foldl (annularRingPad H mOptions maxArcTolerance thtCopperAreaPaths) this)
    this
  emitProgressPercent progressEnd this

/-! ### Minimum drill diameters and slot widths -/

/-- The text `msgTr.arg(formatLength(diameter), formatLength(minimum))` of the
three passes whose text is `"<head>%1 < %2"`. -/
def holeMsg (H : Helpers G) (head : String) (diameter minimum : Length) : String :=
  head ++ formatLength H diameter ++ " < " ++ formatLength H minimum

/-- The body of the two loops over holes in `checkMinimumNpthDrillDiameter`;
`transform` is the default transform for a hole of the board and the
transform of the device for a hole of a footprint. -/
def npthDrillHole (H : Helpers G) (mOptions : Options) (transform : Transform)
    (this : BoardDesignRuleCheck G) (hole : Hole G) : BoardDesignRuleCheck G :=
  if (!hole.isSlot) && decide (hole.diameter.value < mOptions.minNpthDrillDiameter.value) then
    emitMessage
      { message := holeMsg H "Min. hole diameter: " hole.diameter.value
          mOptions.minNpthDrillDiameter.value
        locations := getHoleLocation H hole transform Transform.identity } this
  else this

/-- The method `checkMinimumNpthDrillDiameter(progressStart, progressEnd)`. -/
def checkMinimumNpthDrillDiameter (H : Helpers G) (mBoard : Board G) (mOptions : Options)
    (_progressStart progressEnd : Int) (this : BoardDesignRuleCheck G) :
    BoardDesignRuleCheck G :=
  let this := emitStatus "Check minimum NPTH drill diameters..." this
  let this := mBoard.holes.foldl (npthDrillHole H mOptions Transform.identity) this
  let this := mBoard.devices.foldl
    (fun this device =>
      let transform := device.transform
      device.holes.foldl (npthDrillHole H mOptions transform) this)
    this
  emitProgressPercent progressEnd this

/-- The body of the two loops over holes in `checkMinimumNpthSlotWidth`;
`transform` is the default transform for a hole of the board and the
transform of the device for a hole of a footprint. -/
def npthSlotHole (H : Helpers G) (mOptions : Options) (transform : Transform)
    (this : BoardDesignRuleCheck G) (hole : Hole G) : BoardDesignRuleCheck G :=
  if hole.isSlot && decide (hole.diameter.value < mOptions.minNpthSlotWidth.value) then
    emitMessage
      { message := holeMsg H "Min. NPTH slot width: " hole.diameter.value
          mOptions.minNpthSlotWidth.value
        locations := getHoleLocation H hole transform Transform.identity } this
  else this

/-- The method `checkMinimumNpthSlotWidth(progressStart, progressEnd)`. -/
def checkMinimumNpthSlotWidth (H : Helpers G) (mBoard : Board G) (mOptions : Options)
    (_progressStart progressEnd : Int) (this : BoardDesignRuleCheck G) :
    BoardDesignRuleCheck G :=
  let this := emitStatus "Check minimum NPTH slot width..." this
  let this := mBoard.holes.foldl (npthSlotHole H mOptions Transform.identity) this
  let this := mBoard.devices.foldl
    (fun this device =>
      let transform := device.transform
      device.holes.foldl (npthSlotHole H mOptions transform) this)
    this
  emitProgressPercent progressEnd this

/-- The body of the loop over vias in `checkMinimumPthDrillDiameter`. -/
def pthDrillVia (H : Helpers G) (mOptions : Options) (netsegment : NetSegment)
    (this : BoardDesignRuleCheck G) (via : Via) : BoardDesignRuleCheck G :=
  if via.drillDiameter.value < mOptions.minPthDrillDiameter.value then
    let msg := "Min. via drill diameter ('" ++ netsegment.netNameToDisplay ++ "'): "
      ++ formatLength H via.drillDiameter.value
    let location := H.translated (H.circle via.drillDiameter) via.position
    emitMessage { message := msg, locations := [location] } this
  else this

/-- The body of the loop over the holes of a pad in
`checkMinimumPthDrillDiameter`. -/
def pthDrillPadHole (H : Helpers G) (mOptions : Options) (pad : FootprintPad G)
    (this : BoardDesignRuleCheck G) (hole : Hole G) : BoardDesignRuleCheck G :=
  if hole.diameter.value < mOptions.minPthDrillDiameter.value then
    let msg := "Min. pad drill diameter ('" ++ pad.displayText ++ "'): "
      ++ formatLength H hole.diameter.value
    let diameter := PositiveLength.ofQMax hole.diameter.value ⟨50000, by decide⟩
    let location := H.translated (H.circle diameter) pad.position
    emitMessage { message := msg, locations := [location] } this
  else this

/-- The method `checkMinimumPthDrillDiameter(progressStart, progressEnd)`. -/
def checkMinimumPthDrillDiameter (H : Helpers G) (mBoard : Board G) (mOptions : Options)
    (_progressStart progressEnd : Int) (this : BoardDesignRuleCheck G) :
    BoardDesignRuleCheck G :=
  let this := emitStatus "Check minimum PTH drill diameters..." this
  let this := mBoard.netSegments.foldl
    (fun this netsegment => netsegment.vias.foldl (pthDrillVia H mOptions netsegment) this)
    this
  let this := mBoard.devices.foldl
    (fun this device =>
      device.pads.foldl
        (fun this pad => pad.holes.foldl (pthDrillPadHole H mOptions pad) this)
        this)
    this
  emitProgressPercent progressEnd this

/-- The body of the loop over the holes of a pad in
`checkMinimumPthSlotWidth`. -/
def pthSlotPadHole (H : Helpers G) (mOptions : Options) (padTransform devTransform : Transform)
    (this : BoardDesignRuleCheck G) (hole : Hole G) : BoardDesignRuleCheck G :=
  if hole.isSlot && decide (hole.diameter.value < mOptions.minPthSlotWidth.value) then
    emitMessage
      { message := holeMsg H "Min. PTH slot width: " hole.diameter.value
          mOptions.minPthSlotWidth.value
        locations := getHoleLocation H hole padTransform devTransform } this
  else this

/-- The method `checkMinimumPthSlotWidth(progressStart, progressEnd)`. -/
def checkMinimumPthSlotWidth (H : Helpers G) (mBoard : Board G) (mOptions : Options)
    (_progressStart progressEnd : Int) (this : BoardDesignRuleCheck G) :
    BoardDesignRuleCheck G :=
  let this := emitStatus "Check minimum PTH slot width..." this
  let this := mBoard.devices.foldl
    (fun this device =>
      let devTransform := device.transform
      device.pads.foldl
        (fun this pad =>
          let padTransform := pad.libTransform
          pad.holes.foldl (pthSlotPadHole H mOptions padTransform devTransform) this)
        this)
    this
  emitProgressPercent progressEnd this

/-! ### Slot warnings -/

/-- The method `processHoleSlotWarning(hole, level, transform1, transform2)`. -/
def processHoleSlotWarning (H : Helpers G) (hole : Hole G) (level : SlotsWarningLevel)
    (transform1 transform2 : Transform) (this : BoardDesignRuleCheck G) :
    BoardDesignRuleCheck G :=
  let suggestion := "\n"
    ++ "Either avoid them or check if your PCB manufacturer supports them."
  let checkSlotMode := "\n"
    ++ "Choose the desired Excellon slot mode when generating the production data (G85 vs. G00..G03)."
  let g85NotAvailable := "\n"
    ++ "The drilled slot mode (G85) will not be available when generating production data."
  if decide (level.toNat ≥ SlotsWarningLevel.Curved.toNat) && hole.isCurvedSlot then
    emitMessage
      { message := "Hole is a slot with curves"
        locations := getHoleLocation H hole transform1 transform2
        description :=
          "Curved slots are a very unusual thing and may cause troubles with many PCB manufacturers."
            ++ suggestion ++ g85NotAvailable } this
  else if decide (level.toNat ≥ SlotsWarningLevel.MultiSegment.toNat)
      && hole.isMultiSegmentSlot then
    emitMessage
      { message := "Hole is a multi-segment slot"
        locations := getHoleLocation H hole transform1 transform2
        description :=
          "Multi-segment slots are a rather unusual thing and may cause troubles with some PCB manufacturers."
            ++ suggestion ++ checkSlotMode } this
  else if decide (level.toNat ≥ SlotsWarningLevel.All.toNat) && hole.isSlot then
    emitMessage
      { message := "Hole is a slot"
        locations := getHoleLocation H hole transform1 transform2
        description := "Slots may cause troubles with some PCB manufacturers."
          ++ suggestion ++ checkSlotMode } this
  else this

/-- The method `checkWarnNpthSlots(progressStart, progressEnd)`. -/
def checkWarnNpthSlots (H : Helpers G) (mBoard : Board G) (mOptions : Options)
    (_progressStart progressEnd : Int) (this : BoardDesignRuleCheck G) :
    BoardDesignRuleCheck G :=
  let this := emitStatus "Check NPTH slots..." this
  let this := mBoard.holes.foldl
    (fun this hole =>
      processHoleSlotWarning H hole mOptions.npthSlotsWarning Transform.identity
        Transform.identity this)
    this
  let this := mBoard.devices.foldl
    (fun this device =>
      let transform := device.transform
      device.holes.foldl
        (fun this hole =>
          processHoleSlotWarning H hole mOptions.npthSlotsWarning transform
            Transform.identity this)
        this)
    this
  emitProgressPercent progressEnd this

/-- The method `checkWarnPthSlots(progressStart, progressEnd)`. -/
def checkWarnPthSlots (H : Helpers G) (mBoard : Board G) (mOptions : Options)
    (_progressStart progressEnd : Int) (this : BoardDesignRuleCheck G) :
    BoardDesignRuleCheck G :=
  let this := emitStatus "Check PTH slots..." this
  let this := mBoard.devices.foldl
    (fun this device =>
      let devTransform := device.transform
      device.pads.foldl
        (fun this pad =>
          let padTransform := pad.libTransform
          pad.holes.foldl
            (fun this hole =>
              processHoleSlotWarning H hole mOptions.pthSlotsWarning padTransform
                devTransform this)
            this)
        this)
    this
  emitProgressPercent progressEnd this

/-! ### The run -/

/-- The method `execute()`. -/
def execute (H : Helpers G) (mBoard : Board G) (mOptions : Options)
    (maxArcTolerance : PositiveLength) (this : BoardDesignRuleCheck G) :
    BoardDesignRuleCheck G :=
  let this := { this with emitted := this.emitted ++ [Signal.started] }
  let this := emitProgressPercent 5 this
  let this := { this with mProgressStatus := [] }
  let this := { this with mMessages := [] }
  let this := if mOptions.rebuildPlanes then rebuildPlanes 5 15 this else this
  let this :=
    if mOptions.checkCopperBoardClearance || mOptions.checkCopperNpthClearance then
      checkCopperBoardClearances H mBoard mOptions maxArcTolerance 15 40 this
    else this
  let this :=
    if mOptions.checkCopperCopperClearance then
      checkCopperCopperClearances mBoard mOptions maxArcTolerance 40 70 this
    else this
  let this :=
    if mOptions.checkCopperWidth then checkMinimumCopperWidth H mBoard mOptions 70 72 this
    else this
  let this :=
    if mOptions.checkPthAnnularRing then
      checkMinimumPthAnnularRing H mBoard mOptions maxArcTolerance 72 74 this
    else this
  let this :=
    if mOptions.checkNpthDrillDiameter then
      checkMinimumNpthDrillDiameter H mBoard mOptions 74 76 this
    else this
  let this :=
    if mOptions.checkNpthSlotWidth then checkMinimumNpthSlotWidth H mBoard mOptions 76 78 this
    else this
  let this :=
    if mOptions.checkPthDrillDiameter then
      checkMinimumPthDrillDiameter H mBoard mOptions 78 80 this
    else this
  let this :=
    if mOptions.checkPthSlotWidth then checkMinimumPthSlotWidth H mBoard mOptions 80 82 this
    else this
  let this :=
    if mOptions.checkNpthSlotsWarning then checkWarnNpthSlots H mBoard mOptions 82 83 this
    else this
  let this :=
    if mOptions.checkPthSlotsWarning then checkWarnPthSlots H mBoard mOptions 83 84 this
    else this
  let this :=
    if mOptions.checkCourtyardClearance then
      checkCourtyardClearances H mBoard mOptions maxArcTolerance 84 88 this
    else this
  let this :=
    if mOptions.checkMissingConnections then checkForMissingConnections H mBoard 88 90 this
    else this
  let this := emitStatus
    ("Finished with " ++ toString this.mMessages.length ++ " message(s)!") this
  let this := emitProgressPercent 100 this
  { this with emitted := this.emitted ++ [Signal.finished] }

/-! ### Notions used to state the properties of the passes -/

/-- The messages that a step of a pass appends to the message list, read off
the run of the step on the object without messages. -/
def newMessages (step : BoardDesignRuleCheck G → BoardDesignRuleCheck G) :
    List (BoardDesignRuleCheckMessage G.Path) :=
  (step {}).mMessages

/-- The signals emitted from the state `this` to the state `that` all satisfy
`Q`. -/
def EmitsOnly (Q : Signal → Prop) (this that : BoardDesignRuleCheck G) : Prop :=
  ∃ new, that.emitted = this.emitted ++ new ∧ ∀ s ∈ new, Q s

end BoardDesignRuleCheck

end LibrePCB

namespace LibrePCB

/-- The progress percentages among signals, in their order. -/
def progressValues (signals : List Signal) : List Int :=
  signals.filterMap fun s =>
    match s with
    | .progressPercent p => some p
    | _ => none

/-- A signal is not a progress percentage outside the range 0 to 100. -/
def Signal.PercentInRange : Signal → Prop
  | .progressPercent p => 0 ≤ p ∧ p ≤ 100
  | _ => True

/-- The rank of the classification of a hole, the classification taken in the
priority order curved slot, multi-segment slot, plain slot: the lowest warning
level at which the hole is reported; a hole that is no slot has none. -/
def slotClassRank {G : Geometry} (hole : Hole G) : Option SlotsWarningLevel :=
  if hole.isCurvedSlot then some SlotsWarningLevel.Curved
  else if hole.isMultiSegmentSlot then some SlotsWarningLevel.MultiSegment
  else if hole.isSlot then some SlotsWarningLevel.All
  else none

end LibrePCB

namespace LibrePCB

/-! ### A geometry on a line, used to run the passes -/

/-- Offset of intervals `(lo, hi)` of a line: each boundary moves outward by
exactly `d`; intervals that become empty disappear. -/
def lineOffset (paths : List (Int × Int)) (d : Length) : List (Int × Int) :=
  (paths.map fun p => (p.1 - d, p.2 + d)).filter fun p => decide (p.1 < p.2)

/-- Intersection of two sets of intervals: the overlaps of positive length. -/
def lineIntersect (a b : List (Int × Int)) : List (Int × Int) :=
  a.flatMap fun p =>
    (b.map fun q => (max p.1 q.1, min p.2 q.2)).filter fun r => decide (r.1 < r.2)

/-- A board in one dimension: net `A` has copper on the interval from 0 to
0.1 mm, net `B` on the interval from 0.3 mm to 0.4 mm, on every layer; the gap
between the two is 0.2 mm. -/
def lineGeometry : Geometry where
  ClipperPath := Int × Int
  PolyTree := List (Int × Int)
  Path := Int × Int
  addCopper := fun _ netsignals =>
    (if some ⟨"A"⟩ ∈ netsignals then [(0, 100000)] else []) ++
    (if some ⟨"B"⟩ ∈ netsignals then [(300000, 400000)] else [])
  offset := fun paths d _ => lineOffset paths d
  intersect := lineIntersect
  flattenTree := fun tree => tree
  convert := fun path => path

/-- The top copper layer. -/
def topCopper : GraphicsLayer :=
  { name := "top_cu", nameTr := "Top Copper", isCopperLayer := true, isEnabled := true }

/-- The net signal list of a circuit with the nets `A` and `B`, followed by
the unconnected pseudo net. -/
def exampleNets : List (Option NetSignal) := [some ⟨"A"⟩, some ⟨"B"⟩, none]

/-- Options with every check enabled, a minimum copper clearance of 0.2 mm and
the other minimum values as stated. -/
def exampleOptions : Options where
  rebuildPlanes := true
  checkCopperWidth := true
  minCopperWidth := ⟨200000, by decide⟩
  checkCopperCopperClearance := true
  minCopperCopperClearance := ⟨200000, by decide⟩
  checkCopperBoardClearance := true
  minCopperBoardClearance := ⟨300000, by decide⟩
  checkCopperNpthClearance := true
  minCopperNpthClearance := ⟨250000, by decide⟩
  checkPthAnnularRing := true
  minPthAnnularRing := ⟨200000, by decide⟩
  checkNpthDrillDiameter := true
  minNpthDrillDiameter := ⟨250000, by decide⟩
  checkNpthSlotWidth := true
  minNpthSlotWidth := ⟨1000000, by decide⟩
  checkPthDrillDiameter := true
  minPthDrillDiameter := ⟨250000, by decide⟩
  checkPthSlotWidth := true
  minPthSlotWidth := ⟨700000, by decide⟩
  checkNpthSlotsWarning := true
  npthSlotsWarning := SlotsWarningLevel.MultiSegment
  checkPthSlotsWarning := true
  pthSlotsWarning := SlotsWarningLevel.MultiSegment
  checkCourtyardClearance := true
  courtyardOffset := 0
  checkMissingConnections := true

/-- Subtraction of a set of intervals from a set of intervals: what is left of
each interval of `a` after every interval of `b` has been cut out. -/
def lineSubtract (a b : List (Int × Int)) : List (Int × Int) :=
  b.foldl
    (fun acc q =>
      acc.flatMap fun p =>
        [(p.1, min p.2 q.1), (max p.1 q.2, p.2)].filter fun r => decide (r.1 < r.2))
    a

/-- A length in millimeters with six decimals. -/
def lineFloatToString (length : Length) : String :=
  (if length < 0 then "-" else "") ++ toString (length.natAbs / 1000000) ++ "."
    ++ (toString (1000000 + length.natAbs % 1000000)).drop 1

/-- The path operations of the board in one dimension: a path is an interval,
a transform moves it by the first coordinate of its position, a circle is the
interval of the given length around zero, and a union is kept as the list of
its parts. -/
def lineHelpers : Helpers lineGeometry where
  circle := fun d => (-(d.value / 2), d.value / 2)
  obround := fun p1 p2 w => (min p1.1 p2.1 - w.value / 2, max p1.1 p2.1 + w.value / 2)
  translated := fun path p => (path.1 + p.1, path.2 + p.1)
  toClosedPath := fun path => path
  toOutlineStrokes := fun path w => [(path.1 - w.value / 2, path.2 + w.value / 2)]
  mapPath := fun t path => (path.1 + t.position.1, path.2 + t.position.1)
  mapPoint := fun t p => (p.1 + t.position.1, p.2 + t.position.2)
  mapLayerName := fun _ name => name
  toClipper := fun path _ => path
  unitePath := fun paths path => paths ++ [path]
  unitePaths := fun paths more => paths ++ more
  subtract := lineSubtract
  subtractToTree := lineSubtract
  intersectAll := fun areas =>
    match areas with
    | [] => []
    | first :: rest => rest.foldl lineIntersect first
  treeToPaths := fun tree => tree
  addBoardOutline := [(-1000000, 10000000)]
  addHoles := fun _ => []
  floatToString := lineFloatToString

/-- The bottom copper layer. -/
def botCopper : GraphicsLayer :=
  { name := "bot_cu", nameTr := "Bottom Copper", isCopperLayer := true, isEnabled := true }

/-- The arc tolerance of 0.005 mm. -/
def exampleTolerance : PositiveLength := ⟨5000, by decide⟩

/-- Options with no check enabled, and the minimum values of `exampleOptions`. -/
def noCheckOptions : Options :=
  { exampleOptions with
    rebuildPlanes := false
    checkCopperWidth := false
    checkCopperCopperClearance := false
    checkCopperBoardClearance := false
    checkCopperNpthClearance := false
    checkPthAnnularRing := false
    checkNpthDrillDiameter := false
    checkNpthSlotWidth := false
    checkPthDrillDiameter := false
    checkPthSlotWidth := false
    checkNpthSlotsWarning := false
    checkPthSlotsWarning := false
    checkCourtyardClearance := false
    checkMissingConnections := false }

/-- The options `exampleOptions` with a minimum copper clearance of 0.200001
mm, one unit more than the gap between the nets `A` and `B` of the board in one
dimension. -/
def gapOptions : Options :=
  { exampleOptions with minCopperCopperClearance := ⟨200001, by decide⟩ }

/-- A board with the two copper layers top and bottom, no net signal and no
item. -/
def twoLayerBoard : Board lineGeometry :=
  { layers := [topCopper, botCopper] }

/-- A board with the top copper layer and the nets `A` and `B`. -/
def twoNetBoard : Board lineGeometry :=
  { netSignals := [⟨"A"⟩, ⟨"B"⟩], layers := [topCopper] }

/-- A plated slot of width 0.2 mm. -/
def narrowSlot : Hole lineGeometry :=
  { diameter := ⟨200000, by decide⟩, path := (0, 1000000), isSlot := true,
    isMultiSegmentSlot := false, isCurvedSlot := false }

/-- A round hole of diameter 0.2 mm. -/
def narrowHole : Hole lineGeometry :=
  { diameter := ⟨200000, by decide⟩, path := (0, 0), isSlot := false,
    isMultiSegmentSlot := false, isCurvedSlot := false }

/-- A board with one device that has one pad, whose only hole is the slot
`narrowSlot`. -/
def slotPadBoard : Board lineGeometry :=
  { layers := [topCopper]
    devices :=
      [{ position := (0, 0), rotation := 0, mirrored := false, name := "J1"
         pads :=
           [{ position := (0, 0), rotation := 0, mirrored := false, displayText := "1"
              libPosition := (0, 0), libRotation := 0, holes := [narrowSlot] }] }] }

/-- A board whose only hole is the round non-plated hole `narrowHole`, without
vias and pads. -/
def oneHoleBoard : Board lineGeometry :=
  { layers := [topCopper], holes := [narrowHole] }

/-- Options with the copper clearance check and the copper width check
enabled and every other check disabled. -/
def widthAndClearanceOptions : Options :=
  { noCheckOptions with checkCopperCopperClearance := true, checkCopperWidth := true }

end LibrePCB

namespace LibrePCB

/-- A via at the origin with a drill of 0.3 mm. -/
def exampleVia : Via :=
  { position := (0, 0), drillDiameter := ⟨300000, by decide⟩ }

/-- The top courtyard layer. -/
def topCourtyard : GraphicsLayer :=
  { name := GraphicsLayer.sTopCourtyard, nameTr := "Top Courtyard", isCopperLayer := false,
    isEnabled := true }

/-- A device placed 5 mm from the origin whose footprint has, on the top
courtyard layer, a polygon from 0 to 1 mm and a circle of diameter 1 mm with
its centre at the origin of the footprint. -/
def courtyardDevice : Device lineGeometry :=
  { position := (5000000, 0), rotation := 0, mirrored := false, name := "U1"
    polygons := [{ layerName := GraphicsLayer.sTopCourtyard, path := (0, 1000000) }]
    circles :=
      [{ layerName := GraphicsLayer.sTopCourtyard, center := (0, 0)
         diameter := ⟨1000000, by decide⟩ }] }

/-- The options `exampleOptions` with a minimum copper width of 0.5 mm. -/
def wideOptions : Options :=
  { exampleOptions with minCopperWidth := ⟨500000, by decide⟩ }

/-- A plane on the top copper layer with a minimum width of 0.3 mm and the
outline from 0 to 1 mm. -/
def examplePlane : Plane lineGeometry :=
  { layerName := "top_cu", minWidth := ⟨300000, by decide⟩, outline := (0, 1000000) }

/-- A board with the top copper layer whose only item is `examplePlane`. -/
def planeBoard : Board lineGeometry :=
  { layers := [topCopper], planes := [examplePlane] }

end LibrePCB

namespace LibrePCB

/-- A trace of width 0.1 mm on the top copper layer, from the origin to the
point at 1 mm. -/
def thinTrace : NetLine :=
  { layer := topCopper, width := ⟨100000, by decide⟩, startPoint := (0, 0)
    endPoint := (1000000, 0) }

/-- A board with two copper layers and the net `A`, whose only item is the
trace `thinTrace`. -/
def traceBoard : Board lineGeometry :=
  { netSignals := [⟨"A"⟩], layers := [topCopper, botCopper]
    netSegments := [{ netNameToDisplay := "A", vias := [], netLines := [thinTrace] }] }

end LibrePCB

namespace LibrePCB

/-- The status lines among signals, in their order. -/
def statusValues (signals : List Signal) : List String :=
  signals.filterMap fun s =>
    match s with
    | .progressStatus status => some status
    | _ => none

/-- The texts of the messages among signals, in their order. -/
def messageValues (signals : List Signal) : List String :=
  signals.filterMap fun s =>
    match s with
    | .progressMessage msg => some msg
    | _ => none

/-- A signal is not a status line. -/
def Signal.NotStatus : Signal → Prop
  | .progressStatus _ => False
  | _ => True

namespace BoardDesignRuleCheck

variable {G : Geometry}

/-- A relation between the state of the check before and after a piece of a
pass that holds from every state to itself, composes, and holds across each
statement that the loops of the passes run on the state: `emitMessage`,
`emit progressPercent`, a call of `getCopperPaths`, and a call on the board. -/
structure StepRel (R : BoardDesignRuleCheck G → BoardDesignRuleCheck G → Prop) : Prop where
  refl : ∀ s, R s s
  trans : ∀ a b c, R a b → R b c → R a c
  message : ∀ msg s, R s (emitMessage msg s)
  percent : ∀ p s, R s (emitProgressPercent p s)
  copperPaths : ∀ layer netsignals s, R s (getCopperPaths layer netsignals s).2
  boardCall : ∀ call s, R s { s with boardCalls := s.boardCalls ++ [call] }

/-- From the state `this` to the state `that` every record appended to the
message list goes with one `progressMessage` signal of its text, in the same
order, and no other `progressMessage` signal is emitted. -/
def MessagesInStep (this that : BoardDesignRuleCheck G) : Prop :=
  ∃ new, that.emitted = this.emitted ++ new ∧
    that.mMessages.map (fun m => m.message)
      = this.mMessages.map (fun m => m.message) ++ messageValues new

/-- Every entry that a lookup finds in the path cache of the state `this` is
found unchanged in the path cache of the state `that`. -/
def CacheKept (this that : BoardDesignRuleCheck G) : Prop :=
  ∀ key paths, this.mCachedPaths.lookup key = some paths →
    that.mCachedPaths.lookup key = some paths

/-- The paths returned by `getCopperPaths` in the state `that` are those
returned in the state `this`, for every layer and every set of net signals. -/
def CopperPathsKept (this that : BoardDesignRuleCheck G) : Prop :=
  ∀ layer netsignals,
    (getCopperPaths layer netsignals that).1 = (getCopperPaths layer netsignals this).1

/-- The state of `execute` after its first statements: `started` and the
progress value 5 are emitted, the status list and the message list are
empty. -/
def executeStart (this : BoardDesignRuleCheck G) : BoardDesignRuleCheck G :=
  let this := { this with emitted := this.emitted ++ [Signal.started] }
  let this := emitProgressPercent 5 this
  let this := { this with mProgressStatus := [] }
  { this with mMessages := [] }

end BoardDesignRuleCheck

end LibrePCB

namespace LibrePCB

namespace BoardDesignRuleCheck

variable {G : Geometry}

/-- The passes of `execute` in the order of its `if` statements, each with its
condition, with the status line that it emits first, and with its call. -/
def executePasses (H : Helpers G) (mBoard : Board G) (mOptions : Options)
    (maxArcTolerance : PositiveLength) :
    List (Bool × String × (BoardDesignRuleCheck G → BoardDesignRuleCheck G)) :=
  [(mOptions.rebuildPlanes, "Rebuild planes...", rebuildPlanes 5 15),
   (mOptions.checkCopperBoardClearance || mOptions.checkCopperNpthClearance,
     "Check board clearances...",
     checkCopperBoardClearances H mBoard mOptions maxArcTolerance 15 40),
   (mOptions.checkCopperCopperClearance, "Check copper clearances...",
     checkCopperCopperClearances mBoard mOptions maxArcTolerance 40 70),
   (mOptions.checkCopperWidth, "Check minimum copper width...",
     checkMinimumCopperWidth H mBoard mOptions 70 72),
   (mOptions.checkPthAnnularRing, "Check minimum PTH annular rings...",
     checkMinimumPthAnnularRing H mBoard mOptions maxArcTolerance 72 74),
   (mOptions.checkNpthDrillDiameter, "Check minimum NPTH drill diameters...",
     checkMinimumNpthDrillDiameter H mBoard mOptions 74 76),
   (mOptions.checkNpthSlotWidth, "Check minimum NPTH slot width...",
     checkMinimumNpthSlotWidth H mBoard mOptions 76 78),
   (mOptions.checkPthDrillDiameter, "Check minimum PTH drill diameters...",
     checkMinimumPthDrillDiameter H mBoard mOptions 78 80),
   (mOptions.checkPthSlotWidth, "Check minimum PTH slot width...",
     checkMinimumPthSlotWidth H mBoard mOptions 80 82),
   (mOptions.checkNpthSlotsWarning, "Check NPTH slots...",
     checkWarnNpthSlots H mBoard mOptions 82 83),
   (mOptions.checkPthSlotsWarning, "Check PTH slots...",
     checkWarnPthSlots H mBoard mOptions 83 84),
   (mOptions.checkCourtyardClearance, "Check courtyard clearances...",
     checkCourtyardClearances H mBoard mOptions maxArcTolerance 84 88),
   (mOptions.checkMissingConnections, "Check for missing connections...",
     checkForMissingConnections H mBoard 88 90)]

/-- The `if` statements of `execute` one after the other: each pass of the
list runs when its condition holds. -/
def runPasses
    (passes : List (Bool × String × (BoardDesignRuleCheck G → BoardDesignRuleCheck G)))
    (this : BoardDesignRuleCheck G) : BoardDesignRuleCheck G :=
  passes.foldl (fun this pass => if pass.1 then pass.2.2 this else this) this

/-- The last statements of `execute`: the summary status line with the number
of messages, the progress value 100 and `finished`. -/
def executeFinish (this : BoardDesignRuleCheck G) : BoardDesignRuleCheck G :=
  let this := emitStatus
    ("Finished with " ++ toString this.mMessages.length ++ " message(s)!") this
  let this := emitProgressPercent 100 this
  { this with emitted := this.emitted ++ [Signal.finished] }

end BoardDesignRuleCheck

end LibrePCB

namespace LibrePCB

/-- Options with the copper clearance check enabled and every other check
disabled. -/
def clearanceOnlyOptions : Options :=
  { noCheckOptions with checkCopperCopperClearance := true }

/-- A board whose only layer is a copper layer that is not enabled. -/
def disabledCopperBoard : Board lineGeometry :=
  { layers := [{ topCopper with isEnabled := false }] }

/-- The board in one dimension after an edit: the copper of net `B` is moved
to the interval from 0.15 mm to 0.25 mm, so that the gap to net `A` is 0.05
mm. -/
def movedGeometry : Geometry :=
  { lineGeometry with
    addCopper := fun _ netsignals =>
      (if some ⟨"A"⟩ ∈ netsignals then [(0, 100000)] else []) ++
      (if some ⟨"B"⟩ ∈ netsignals then [(150000, 250000)] else []) }

/-- The path operations `lineHelpers`, on the board after the edit. -/
def movedHelpers : Helpers movedGeometry where
  circle := lineHelpers.circle
  obround := lineHelpers.obround
  translated := lineHelpers.translated
  toClosedPath := lineHelpers.toClosedPath
  toOutlineStrokes := lineHelpers.toOutlineStrokes
  mapPath := lineHelpers.mapPath
  mapPoint := lineHelpers.mapPoint
  mapLayerName := lineHelpers.mapLayerName
  toClipper := lineHelpers.toClipper
  unitePath := lineHelpers.unitePath
  unitePaths := lineHelpers.unitePaths
  subtract := lineHelpers.subtract
  subtractToTree := lineHelpers.subtractToTree
  intersectAll := lineHelpers.intersectAll
  treeToPaths := lineHelpers.treeToPaths
  addBoardOutline := lineHelpers.addBoardOutline
  addHoles := lineHelpers.addHoles
  floatToString := lineHelpers.floatToString

/-- The board `twoNetBoard` after the edit. -/
def movedBoard : Board movedGeometry :=
  { netSignals := [⟨"A"⟩, ⟨"B"⟩], layers := [topCopper] }

/-- The engine object of a run on the board in one dimension, with the same
members, when the board has been edited in between. -/
def afterEdit (s : BoardDesignRuleCheck lineGeometry) : BoardDesignRuleCheck movedGeometry :=
  { mProgressStatus := s.mProgressStatus
    mMessages := s.mMessages
    mCachedPaths := s.mCachedPaths
    emitted := s.emitted
    boardCalls := s.boardCalls }

end LibrePCB

namespace LibrePCB

/-- The index pairs `(i, k)` reached by the loop nest
`for (i = 0; i < n; ++i) for (k = i + 1; k < n; ++k)` of the two pairwise
passes, in the order in which the loops reach them. -/
def loopPairs (n : Nat) : List (Nat × Nat) :=
  (List.range n).flatMap fun i => (List.range' (i + 1) (n - (i + 1))).map fun k => (i, k)

end LibrePCB

namespace LibrePCB

namespace BoardDesignRuleCheck

variable {G : Geometry}

/-- The messages of the innermost loop of `checkCopperCopperClearances` for
the entries `i` and `k` on a layer, when `copper j` are the paths that
`getCopperPaths` returns for entry `j`: one message for each path of the
flattened intersection of the two offset path sets. -/
def copperCopperPairMessages (mOptions : Options) (maxArcTolerance : PositiveLength)
    (layer : GraphicsLayer) (netsignals : List (Option NetSignal))
    (copper : Nat → List G.ClipperPath) (i k : Nat) :
    List (BoardDesignRuleCheckMessage G.Path) :=
  (G.flattenTree (G.intersect
    (G.offset (copper i) (copperCopperOffset mOptions maxArcTolerance) maxArcTolerance)
    (G.offset (copper k) (copperCopperOffset mOptions maxArcTolerance)
      maxArcTolerance))).map
    fun path =>
      { message := "Clearance (" ++ layer.nameTr ++ "): '" ++ netNameAt netsignals i
          ++ "' <-> '" ++ netNameAt netsignals k ++ "'"
        locations := [G.convert path] }

/-- The messages of the innermost loop of `checkCourtyardClearances` for the
entries `i` and `k` of the map from device to courtyard paths: one message for
each path of the flattened intersection of the two path sets. -/
def courtyardPairMessages (layer : GraphicsLayer)
    (deviceCourtyards : List (Device G × List G.ClipperPath)) (i k : Nat) :
    List (BoardDesignRuleCheckMessage G.Path) :=
  match deviceCourtyards.get? i, deviceCourtyards.get? k with
  | some (dev1, paths1), some (dev2, paths2) =>
    (G.flattenTree (G.intersect paths1 paths2)).map fun path =>
      { message := "Clearance (" ++ layer.nameTr ++ "): '" ++ dev1.name ++ "' <-> '"
          ++ dev2.name ++ "'"
        locations := [G.convert path] }
  | _, _ => []

end BoardDesignRuleCheck

end LibrePCB

/-! # Theorems -/

namespace LibrePCB

/-! ## Helper lemmas -/

theorem qMin_eq_min (a b : Int) : qMin a b = min a b := by
  unfold qMin
  split_ifs with h
  · exact (min_eq_left (le_of_lt h)).symm
  · exact (min_eq_right (not_lt.mp h)).symm

theorem qMax_eq_max (a b : Int) : qMax a b = max a b := by
  unfold qMax
  split_ifs with h
  · exact (max_eq_right (le_of_lt h)).symm
  · exact (max_eq_left (not_lt.mp h)).symm

theorem qBound_eq_clamp (lo v hi : Int) : qBound lo v hi = clamp lo v hi := by
  unfold qBound clamp
  rw [qMin_eq_min, qMax_eq_max]

theorem clamp_ge_lo (lo v hi : Int) : lo ≤ clamp lo v hi := by
  unfold clamp; exact le_max_left _ _

theorem clamp_le_hi (lo v hi : Int) (h : lo ≤ hi) : clamp lo v hi ≤ hi := by
  unfold clamp; exact max_le h (min_le_left _ _)

theorem clamp_mono (lo hi : Int) {v1 v2 : Int} (h : v1 ≤ v2) :
    clamp lo v1 hi ≤ clamp lo v2 hi := by
  unfold clamp; exact max_le_max le_rfl (min_le_min le_rfl h)

theorem UnsignedLength.ofLength_of_nonneg {v : Length} (h : 0 ≤ v) :
    UnsignedLength.ofLength v = .ok ⟨v, h⟩ := by
  unfold UnsignedLength.ofLength
  simp [h]

theorem ofLength_qBound (lo : UnsignedLength) (v hi : Int) :
    ∃ u : UnsignedLength, UnsignedLength.ofLength (qBound lo.value v hi) = .ok u ∧
      u.value = clamp lo.value v hi := by
  have h : 0 ≤ qBound lo.value v hi := by
    rw [qBound_eq_clamp]
    exact le_trans lo.nonneg (clamp_ge_lo _ _ _)
  exact ⟨⟨_, h⟩, UnsignedLength.ofLength_of_nonneg h, qBound_eq_clamp _ _ _⟩

theorem truncToInt_mono : Monotone truncToInt := by
  intro a b hab
  unfold truncToInt
  split_ifs with ha hb hb
  · exact Int.floor_mono hab
  · exact absurd (le_trans ha hab) hb
  · have h1 : ⌈a⌉ ≤ 0 := Int.ceil_le.mpr (by push_cast; exact le_of_lt (not_le.mp ha))
    have h2 : (0 : Int) ≤ ⌊b⌋ := Int.floor_nonneg.mpr hb
    exact le_trans h1 h2
  · exact Int.ceil_mono hab

theorem scaledBy_mono {round : ℚ → Int} (hround : Monotone round) (r : UnsignedRatio)
    {b1 b2 : Length} (h : b1 ≤ b2) : scaledBy round b1 r ≤ scaledBy round b2 r := by
  unfold scaledBy
  apply hround
  have hr : (0 : ℚ) ≤ (r.ppm : ℚ) := by exact_mod_cast r.nonneg
  have hb : (b1 : ℚ) ≤ (b2 : ℚ) := by exact_mod_cast h
  have : (b1 : ℚ) * (r.ppm : ℚ) ≤ (b2 : ℚ) * (r.ppm : ℚ) :=
    mul_le_mul_of_nonneg_right hb hr
  exact div_le_div_of_nonneg_right this (by norm_num)

end LibrePCB

namespace LibrePCB
open BoardDesignRules

/-! ## Bound lemmas shared by the invariant and range theorems -/

theorem boundsValid_ctorDefault : BoundsValid ctorDefault := by decide

theorem assign_eq (this rhs : BoardDesignRules) : this.assign rhs = rhs := rfl

theorem boundsValid_apply (op : Op) (r : BoardDesignRules) (hr : BoundsValid r)
    (hsrc : op.SourceSatisfies BoundsValid) : BoundsValid (op.apply r) := by
  obtain ⟨h1, h2, h3, h4⟩ := hr
  cases op with
  | setStopMaskClearanceBounds min max =>
    simp only [Op.apply, setStopMaskClearanceBounds]
    split_ifs with h
    · exact ⟨h, h2, h3, h4⟩
    · exact ⟨h1, h2, h3, h4⟩
  | setCreamMaskClearanceBounds min max =>
    simp only [Op.apply, setCreamMaskClearanceBounds]
    split_ifs with h
    · exact ⟨h1, h, h3, h4⟩
    · exact ⟨h1, h2, h3, h4⟩
  | setPadAnnularRingBounds min max =>
    simp only [Op.apply, setPadAnnularRingBounds]
    split_ifs with h
    · exact ⟨h1, h2, h, h4⟩
    · exact ⟨h1, h2, h3, h4⟩
  | setViaAnnularRingBounds min max =>
    simp only [Op.apply, setViaAnnularRingBounds]
    split_ifs with h
    · exact ⟨h1, h2, h3, h⟩
    · exact ⟨h1, h2, h3, h4⟩
  | restoreDefaults => exact boundsValid_ctorDefault
  | assign rhs => exact hsrc
  | _ => exact ⟨h1, h2, h3, h4⟩

theorem boundsValid_of_reachable {r : BoardDesignRules} (h : Reachable r) : BoundsValid r := by
  induction h with
  | ctorDefault => exact boundsValid_ctorDefault
  | ctorCopy other _ ih => exact ih
  | step op r _ hsrc ih ihsrc =>
    apply boundsValid_apply op r ih
    cases op <;> first | trivial | exact ihsrc _ rfl

end LibrePCB

namespace LibrePCB
open BoardDesignRules

/-! ## BoardDesignRules: bound setters -/

/-- C1: each of the four bound setters throws if and only if `max < min`; when
it returns, the getters of its pair return exactly `min` and `max`; and the
call with `max = min` returns. -/
theorem bound_setters_throw_iff_max_lt_min :
    BoundSetterContract setStopMaskClearanceBounds
      getStopMaskClearanceMin getStopMaskClearanceMax ∧
    BoundSetterContract setCreamMaskClearanceBounds
      getCreamMaskClearanceMin getCreamMaskClearanceMax ∧
    BoundSetterContract setPadAnnularRingBounds
      getPadAnnularRingMin getPadAnnularRingMax ∧
    BoundSetterContract setViaAnnularRingBounds
      getViaAnnularRingMin getViaAnnularRingMax := by
  refine ⟨?_, ?_, ?_, ?_⟩ <;> intro r min max <;> refine ⟨?_, ?_, ?_⟩
  all_goals
    simp only [setStopMaskClearanceBounds, setCreamMaskClearanceBounds,
      setPadAnnularRingBounds, setViaAnnularRingBounds, getStopMaskClearanceMin,
      getStopMaskClearanceMax, getCreamMaskClearanceMin, getCreamMaskClearanceMax,
      getPadAnnularRingMin, getPadAnnularRingMax, getViaAnnularRingMin,
      getViaAnnularRingMax]
    first
      | (simp; done)
      | (by_cases h : min.value ≤ max.value <;> simp [h] <;> exact not_le.mp h)

end LibrePCB

namespace LibrePCB
open BoardDesignRules

/-! ## BoardDesignRules: the `calc*` functions -/

/-- C2: for every scaling function, every rule set and every signed base
dimension, each of the four `calc*` functions returns the clamp
`max(min, min(max, scaled base))` of the scaled base dimension to the pair of
its rule, and the value returned is not negative. -/
theorem calc_eq_clamp_and_nonneg :
    CalcIsClamp calcStopMaskClearance (fun r => r.mStopMaskClearanceRatio)
      (fun r => r.mStopMaskClearanceMin) (fun r => r.mStopMaskClearanceMax) ∧
    CalcIsClamp calcCreamMaskClearance (fun r => r.mCreamMaskClearanceRatio)
      (fun r => r.mCreamMaskClearanceMin) (fun r => r.mCreamMaskClearanceMax) ∧
    CalcIsClamp calcPadAnnularRing (fun r => r.mPadAnnularRingRatio)
      (fun r => r.mPadAnnularRingMin) (fun r => r.mPadAnnularRingMax) ∧
    CalcIsClamp calcViaAnnularRing (fun r => r.mViaAnnularRingRatio)
      (fun r => r.mViaAnnularRingMin) (fun r => r.mViaAnnularRingMax) := by
  refine ⟨?_, ?_, ?_, ?_⟩ <;> intro scaled r b
  · obtain ⟨u, hu, hv⟩ := ofLength_qBound r.mStopMaskClearanceMin
      (scaled b r.mStopMaskClearanceRatio) r.mStopMaskClearanceMax.value
    exact ⟨u, hu, hv, u.nonneg⟩
  · obtain ⟨u, hu, hv⟩ := ofLength_qBound r.mCreamMaskClearanceMin
      (scaled b r.mCreamMaskClearanceRatio) r.mCreamMaskClearanceMax.value
    exact ⟨u, hu, hv, u.nonneg⟩
  · obtain ⟨u, hu, hv⟩ := ofLength_qBound r.mPadAnnularRingMin
      (scaled b r.mPadAnnularRingRatio) r.mPadAnnularRingMax.value
    exact ⟨u, hu, hv, u.nonneg⟩
  · obtain ⟨u, hu, hv⟩ := ofLength_qBound r.mViaAnnularRingMin
      (scaled b r.mViaAnnularRingRatio) r.mViaAnnularRingMax.value
    exact ⟨u, hu, hv, u.nonneg⟩

/-- C3: for every rule set reachable from the default constructor by setters,
`restoreDefaults` and assignments, every scaling function and every base
dimension (zero and negative ones included), each `calc*` function returns a
value between the min and the max of its rule. -/
theorem calc_within_bounds_of_reachable (r : BoardDesignRules) (hr : Reachable r)
    (scaled : Scaling) (b : Length) :
    CalcWithin calcStopMaskClearance (fun r => r.mStopMaskClearanceMin)
      (fun r => r.mStopMaskClearanceMax) scaled r b ∧
    CalcWithin calcCreamMaskClearance (fun r => r.mCreamMaskClearanceMin)
      (fun r => r.mCreamMaskClearanceMax) scaled r b ∧
    CalcWithin calcPadAnnularRing (fun r => r.mPadAnnularRingMin)
      (fun r => r.mPadAnnularRingMax) scaled r b ∧
    CalcWithin calcViaAnnularRing (fun r => r.mViaAnnularRingMin)
      (fun r => r.mViaAnnularRingMax) scaled r b := by
  obtain ⟨h1, h2, h3, h4⟩ := boundsValid_of_reachable hr
  refine ⟨?_, ?_, ?_, ?_⟩
  · obtain ⟨u, hu, hv⟩ := ofLength_qBound r.mStopMaskClearanceMin
      (scaled b r.mStopMaskClearanceRatio) r.mStopMaskClearanceMax.value
    exact ⟨u, hu, hv ▸ clamp_ge_lo _ _ _, hv ▸ clamp_le_hi _ _ _ h1⟩
  · obtain ⟨u, hu, hv⟩ := ofLength_qBound r.mCreamMaskClearanceMin
      (scaled b r.mCreamMaskClearanceRatio) r.mCreamMaskClearanceMax.value
    exact ⟨u, hu, hv ▸ clamp_ge_lo _ _ _, hv ▸ clamp_le_hi _ _ _ h2⟩
  · obtain ⟨u, hu, hv⟩ := ofLength_qBound r.mPadAnnularRingMin
      (scaled b r.mPadAnnularRingRatio) r.mPadAnnularRingMax.value
    exact ⟨u, hu, hv ▸ clamp_ge_lo _ _ _, hv ▸ clamp_le_hi _ _ _ h3⟩
  · obtain ⟨u, hu, hv⟩ := ofLength_qBound r.mViaAnnularRingMin
      (scaled b r.mViaAnnularRingRatio) r.mViaAnnularRingMax.value
    exact ⟨u, hu, hv ▸ clamp_ge_lo _ _ _, hv ▸ clamp_le_hi _ _ _ h4⟩

/-- Witness of C3: the default rule set after a throwing and a returning
bound setter, at the negative base dimension -700000 nm. -/
theorem calc_within_bounds_of_reachable_witness :
    Reachable ((Op.setPadAnnularRingBounds ⟨300000, by decide⟩ ⟨200000, by decide⟩).apply
      ((Op.setViaAnnularRingBounds ⟨100000, by decide⟩ ⟨150000, by decide⟩).apply
        ctorDefault)) ∧
    (CalcWithin calcStopMaskClearance (fun r => r.mStopMaskClearanceMin)
      (fun r => r.mStopMaskClearanceMax) (scaledBy truncToInt)
      ((Op.setPadAnnularRingBounds ⟨300000, by decide⟩ ⟨200000, by decide⟩).apply
        ((Op.setViaAnnularRingBounds ⟨100000, by decide⟩ ⟨150000, by decide⟩).apply
          ctorDefault)) (-700000) ∧
    CalcWithin calcCreamMaskClearance (fun r => r.mCreamMaskClearanceMin)
      (fun r => r.mCreamMaskClearanceMax) (scaledBy truncToInt)
      ((Op.setPadAnnularRingBounds ⟨300000, by decide⟩ ⟨200000, by decide⟩).apply
        ((Op.setViaAnnularRingBounds ⟨100000, by decide⟩ ⟨150000, by decide⟩).apply
          ctorDefault)) (-700000) ∧
    CalcWithin calcPadAnnularRing (fun r => r.mPadAnnularRingMin)
      (fun r => r.mPadAnnularRingMax) (scaledBy truncToInt)
      ((Op.setPadAnnularRingBounds ⟨300000, by decide⟩ ⟨200000, by decide⟩).apply
        ((Op.setViaAnnularRingBounds ⟨100000, by decide⟩ ⟨150000, by decide⟩).apply
          ctorDefault)) (-700000) ∧
    CalcWithin calcViaAnnularRing (fun r => r.mViaAnnularRingMin)
      (fun r => r.mViaAnnularRingMax) (scaledBy truncToInt)
      ((Op.setPadAnnularRingBounds ⟨300000, by decide⟩ ⟨200000, by decide⟩).apply
        ((Op.setViaAnnularRingBounds ⟨100000, by decide⟩ ⟨150000, by decide⟩).apply
          ctorDefault)) (-700000)) :=
  have hreach : Reachable ((Op.setPadAnnularRingBounds ⟨300000, by decide⟩
      ⟨200000, by decide⟩).apply
      ((Op.setViaAnnularRingBounds ⟨100000, by decide⟩ ⟨150000, by decide⟩).apply
        ctorDefault)) :=
    Reachable.step _ _ (Reachable.step _ _ Reachable.ctorDefault (fun _ h => nomatch h))
      (fun _ h => nomatch h)
  ⟨hreach, calc_within_bounds_of_reachable _ hreach (scaledBy truncToInt) (-700000)⟩

/-- C4: with the scaling modelled as the exact product with the ratio followed
by a monotone rounding to integer nanometers, each `calc*` function is
monotonically non-decreasing in the base dimension, for every rule set (the
ratio is non-negative by its type; the order of min and max is not needed). -/
theorem calc_monotone (round : ℚ → Int) (hround : Monotone round)
    (r : BoardDesignRules) (b1 b2 : Length) (hb : b1 ≤ b2) :
    CalcLe calcStopMaskClearance (scaledBy round) r b1 b2 ∧
    CalcLe calcCreamMaskClearance (scaledBy round) r b1 b2 ∧
    CalcLe calcPadAnnularRing (scaledBy round) r b1 b2 ∧
    CalcLe calcViaAnnularRing (scaledBy round) r b1 b2 := by
  refine ⟨?_, ?_, ?_, ?_⟩
  · obtain ⟨u1, hu1, hv1⟩ := ofLength_qBound r.mStopMaskClearanceMin
      (scaledBy round b1 r.mStopMaskClearanceRatio) r.mStopMaskClearanceMax.value
    obtain ⟨u2, hu2, hv2⟩ := ofLength_qBound r.mStopMaskClearanceMin
      (scaledBy round b2 r.mStopMaskClearanceRatio) r.mStopMaskClearanceMax.value
    exact ⟨u1, u2, hu1, hu2, hv1 ▸ hv2 ▸ clamp_mono _ _ (scaledBy_mono hround _ hb)⟩
  · obtain ⟨u1, hu1, hv1⟩ := ofLength_qBound r.mCreamMaskClearanceMin
      (scaledBy round b1 r.mCreamMaskClearanceRatio) r.mCreamMaskClearanceMax.value
    obtain ⟨u2, hu2, hv2⟩ := ofLength_qBound r.mCreamMaskClearanceMin
      (scaledBy round b2 r.mCreamMaskClearanceRatio) r.mCreamMaskClearanceMax.value
    exact ⟨u1, u2, hu1, hu2, hv1 ▸ hv2 ▸ clamp_mono _ _ (scaledBy_mono hround _ hb)⟩
  · obtain ⟨u1, hu1, hv1⟩ := ofLength_qBound r.mPadAnnularRingMin
      (scaledBy round b1 r.mPadAnnularRingRatio) r.mPadAnnularRingMax.value
    obtain ⟨u2, hu2, hv2⟩ := ofLength_qBound r.mPadAnnularRingMin
      (scaledBy round b2 r.mPadAnnularRingRatio) r.mPadAnnularRingMax.value
    exact ⟨u1, u2, hu1, hu2, hv1 ▸ hv2 ▸ clamp_mono _ _ (scaledBy_mono hround _ hb)⟩
  · obtain ⟨u1, hu1, hv1⟩ := ofLength_qBound r.mViaAnnularRingMin
      (scaledBy round b1 r.mViaAnnularRingRatio) r.mViaAnnularRingMax.value
    obtain ⟨u2, hu2, hv2⟩ := ofLength_qBound r.mViaAnnularRingMin
      (scaledBy round b2 r.mViaAnnularRingRatio) r.mViaAnnularRingMax.value
    exact ⟨u1, u2, hu1, hu2, hv1 ▸ hv2 ▸ clamp_mono _ _ (scaledBy_mono hround _ hb)⟩

/-- Witness of C4: truncation toward zero, the default rule set, and the base
dimensions 1 mm and 3 mm. -/
theorem calc_monotone_witness :
    Monotone truncToInt ∧ (1000000 : Length) ≤ 3000000 ∧
    CalcLe calcStopMaskClearance (scaledBy truncToInt) ctorDefault 1000000 3000000 ∧
    CalcLe calcCreamMaskClearance (scaledBy truncToInt) ctorDefault 1000000 3000000 ∧
    CalcLe calcPadAnnularRing (scaledBy truncToInt) ctorDefault 1000000 3000000 ∧
    CalcLe calcViaAnnularRing (scaledBy truncToInt) ctorDefault 1000000 3000000 :=
  ⟨truncToInt_mono, by decide,
    calc_monotone truncToInt truncToInt_mono ctorDefault 1000000 3000000 (by decide)⟩

end LibrePCB

namespace LibrePCB
open BoardDesignRules

/-! ## BoardDesignRules: invariant, frame, threshold, construction, copy -/

/-- C5: the bound invariant (`max >= min` for each of the four pairs) holds for
the default-constructed rule set and is preserved by every operation: the
name, description, ratio and threshold setters, the four bound setters
(whether the call returns or throws), `restoreDefaults`, and the assignment
from a rule set that satisfies the invariant. -/
theorem bounds_invariant_preserved (op : Op) (r : BoardDesignRules)
    (hr : BoundsValid r) (hsrc : op.SourceSatisfies BoundsValid) :
    BoundsValid ctorDefault ∧ BoundsValid (op.apply r) :=
  ⟨boundsValid_ctorDefault, boundsValid_apply op r hr hsrc⟩

/-- Witness of C5: a throwing pad annular ring setter on the default rule
set. -/
theorem bounds_invariant_preserved_witness :
    BoundsValid ctorDefault ∧
    (Op.setPadAnnularRingBounds ⟨300000, by decide⟩ ⟨200000, by decide⟩).SourceSatisfies
      BoundsValid ∧
    BoundsValid ctorDefault ∧
    BoundsValid ((Op.setPadAnnularRingBounds ⟨300000, by decide⟩ ⟨200000, by decide⟩).apply
      ctorDefault) :=
  ⟨by decide, trivial,
    bounds_invariant_preserved
      (Op.setPadAnnularRingBounds ⟨300000, by decide⟩ ⟨200000, by decide⟩) ctorDefault
      (by decide) trivial⟩

/-- C6: a bound setter that throws leaves every field of the rule set
unchanged, and a bound setter that returns replaces exactly its own min and
max fields and leaves every other field unchanged. -/
theorem bound_setters_frame :
    BoundSetterFrame setStopMaskClearanceBounds
      (fun r min max => { r with mStopMaskClearanceMin := min, mStopMaskClearanceMax := max }) ∧
    BoundSetterFrame setCreamMaskClearanceBounds
      (fun r min max => { r with mCreamMaskClearanceMin := min, mCreamMaskClearanceMax := max }) ∧
    BoundSetterFrame setPadAnnularRingBounds
      (fun r min max => { r with mPadAnnularRingMin := min, mPadAnnularRingMax := max }) ∧
    BoundSetterFrame setViaAnnularRingBounds
      (fun r min max => { r with mViaAnnularRingMin := min, mViaAnnularRingMax := max }) := by
  refine ⟨?_, ?_, ?_, ?_⟩ <;> intro r min max <;> refine ⟨?_, ?_⟩
  all_goals
    simp only [setStopMaskClearanceBounds, setCreamMaskClearanceBounds,
      setPadAnnularRingBounds, setViaAnnularRingBounds]
    by_cases h : min.value ≤ max.value <;> simp [h]

/-- C7: `doesViaRequireStopMask` returns true if and only if the drill
diameter is strictly greater than the threshold; it is false at the threshold
itself; with the default threshold of 500000 nm it is false for 500000 and
true for 500001. -/
theorem doesViaRequireStopMask_iff (r : BoardDesignRules) (d : Length) :
    (r.doesViaRequireStopMask d = true ↔ d > r.mStopMaskMaxViaDrillDiameter.value) ∧
    r.doesViaRequireStopMask r.mStopMaskMaxViaDrillDiameter.value = false ∧
    ctorDefault.mStopMaskMaxViaDrillDiameter.value = 500000 ∧
    ctorDefault.doesViaRequireStopMask 500000 = false ∧
    ctorDefault.doesViaRequireStopMask 500001 = true := by
  refine ⟨?_, ?_, rfl, by decide, by decide⟩
  · unfold doesViaRequireStopMask
    by_cases h : d > r.mStopMaskMaxViaDrillDiameter.value <;> simp [h]
  · unfold doesViaRequireStopMask
    simp

/-- C9: copy assignment and copy construction are a full value copy: the
object after `operator=` equals the source, field by field for all fifteen
fields, whatever the target held before; the copy constructor yields the
source; and assigning an object to itself leaves it unchanged (the source is
taken by constant reference and is never written). -/
theorem copy_is_full_value_copy (this rhs : BoardDesignRules) :
    this.assign rhs = rhs ∧
    (this.assign rhs).mName = rhs.mName ∧
    (this.assign rhs).mDescription = rhs.mDescription ∧
    (this.assign rhs).mStopMaskClearanceRatio = rhs.mStopMaskClearanceRatio ∧
    (this.assign rhs).mStopMaskClearanceMin = rhs.mStopMaskClearanceMin ∧
    (this.assign rhs).mStopMaskClearanceMax = rhs.mStopMaskClearanceMax ∧
    (this.assign rhs).mStopMaskMaxViaDrillDiameter = rhs.mStopMaskMaxViaDrillDiameter ∧
    (this.assign rhs).mCreamMaskClearanceRatio = rhs.mCreamMaskClearanceRatio ∧
    (this.assign rhs).mCreamMaskClearanceMin = rhs.mCreamMaskClearanceMin ∧
    (this.assign rhs).mCreamMaskClearanceMax = rhs.mCreamMaskClearanceMax ∧
    (this.assign rhs).mPadAnnularRingRatio = rhs.mPadAnnularRingRatio ∧
    (this.assign rhs).mPadAnnularRingMin = rhs.mPadAnnularRingMin ∧
    (this.assign rhs).mPadAnnularRingMax = rhs.mPadAnnularRingMax ∧
    (this.assign rhs).mViaAnnularRingRatio = rhs.mViaAnnularRingRatio ∧
    (this.assign rhs).mViaAnnularRingMin = rhs.mViaAnnularRingMin ∧
    (this.assign rhs).mViaAnnularRingMax = rhs.mViaAnnularRingMax ∧
    ctorCopy rhs = rhs ∧
    rhs.assign rhs = rhs :=
  ⟨rfl, rfl, rfl, rfl, rfl, rfl, rfl, rfl, rfl, rfl, rfl, rfl, rfl, rfl, rfl, rfl, rfl, rfl⟩

end LibrePCB

namespace LibrePCB
open BoardDesignRules

/-! ## BoardDesignRules: construction from serialized data -/

theorem validateBounds_of_valid (p : BoardDesignRules) (h : BoundsValid p) :
    validateBounds p = (.ok (), p) := by
  obtain ⟨h1, h2, h3, h4⟩ := h
  simp [validateBounds, setStopMaskClearanceBounds, setCreamMaskClearanceBounds,
    setPadAnnularRingBounds, setViaAnnularRingBounds, h1, h2, h3, h4]

theorem validateBounds_of_not_valid (p : BoardDesignRules) (h : ¬ BoundsValid p) :
    ∃ e, (validateBounds p).1 = .error e := by
  unfold BoundsValid at h
  by_cases h1 : p.mStopMaskClearanceMin.value ≤ p.mStopMaskClearanceMax.value
  · by_cases h2 : p.mCreamMaskClearanceMin.value ≤ p.mCreamMaskClearanceMax.value
    · by_cases h3 : p.mPadAnnularRingMin.value ≤ p.mPadAnnularRingMax.value
      · have h4 : ¬ p.mViaAnnularRingMin.value ≤ p.mViaAnnularRingMax.value :=
          fun h4 => h ⟨h1, h2, h3, h4⟩
        simp [validateBounds, setStopMaskClearanceBounds, setCreamMaskClearanceBounds,
          setPadAnnularRingBounds, setViaAnnularRingBounds, h1, h2, h3, h4]
      · simp [validateBounds, setStopMaskClearanceBounds, setCreamMaskClearanceBounds,
          setPadAnnularRingBounds, h1, h2, h3]
    · simp [validateBounds, setStopMaskClearanceBounds, setCreamMaskClearanceBounds, h1, h2]
  · simp [validateBounds, setStopMaskClearanceBounds, h1]

theorem ctorSExpression_of_allParse {S : Type} (R : SExpressionReader S) (node : S)
    (p : BoardDesignRules) (hp : AllParse R node p) :
    ctorSExpression R node =
      match validateBounds p with
      | (.error e, _) => .error ⟨"Invalid design rules: " ++ e.msg⟩
      | (.ok _, this) => .ok this := by
  obtain ⟨a1, a2, a3, a4, a5, a6, a7, a8, a9, a10, a11, a12, a13, a14, a15⟩ := hp
  unfold ctorSExpression
  simp only [a1, a2, a3, a4, a5, a6, a7, a8, a9, a10, a11, a12, a13, a14, a15,
    bind, Except.bind]

theorem not_boundsValid_iff (p : BoardDesignRules) :
    ¬ BoundsValid p ↔
      (p.mStopMaskClearanceMax.value < p.mStopMaskClearanceMin.value ∨
       p.mCreamMaskClearanceMax.value < p.mCreamMaskClearanceMin.value ∨
       p.mPadAnnularRingMax.value < p.mPadAnnularRingMin.value ∨
       p.mViaAnnularRingMax.value < p.mViaAnnularRingMin.value) := by
  unfold BoundsValid
  simp only [not_and_or, not_le]

/-- C8: when all fifteen fields of the serialized data parse (to the values
held by `p`), the deserializing constructor throws, and so produces no object,
if and only if at least one of the four pairs has `max < min`; otherwise it
produces the object holding the parsed values; in particular the data with pad
annular ring min 0.3 mm and max 0.2 mm is rejected. -/
theorem ctorSExpression_throws_iff {S : Type} (R : SExpressionReader S) (node : S)
    (p : BoardDesignRules) (hp : AllParse R node p) :
    ((∃ e, ctorSExpression R node = .error e) ↔
      (p.mStopMaskClearanceMax.value < p.mStopMaskClearanceMin.value ∨
       p.mCreamMaskClearanceMax.value < p.mCreamMaskClearanceMin.value ∨
       p.mPadAnnularRingMax.value < p.mPadAnnularRingMin.value ∨
       p.mViaAnnularRingMax.value < p.mViaAnnularRingMin.value)) ∧
    ((¬ ∃ e, ctorSExpression R node = .error e) → ctorSExpression R node = .ok p) ∧
    (p.mPadAnnularRingMin.value = 300000 → p.mPadAnnularRingMax.value = 200000 →
      ∃ e, ctorSExpression R node = .error e) := by
  have key : (∃ e, ctorSExpression R node = .error e) ↔ ¬ BoundsValid p := by
    rw [ctorSExpression_of_allParse R node p hp]
    by_cases hv : BoundsValid p
    · rw [validateBounds_of_valid p hv]
      simp [hv]
    · obtain ⟨e, he⟩ := validateBounds_of_not_valid p hv
      have : validateBounds p = (.error e, (validateBounds p).2) := by
        rw [← he]
      rw [this]
      simp [hv]
  refine ⟨key.trans (not_boundsValid_iff p), ?_, ?_⟩
  · intro hne
    have hv : BoundsValid p := by
      by_contra hv
      exact hne (key.mpr hv)
    rw [ctorSExpression_of_allParse R node p hp, validateBounds_of_valid p hv]
  · intro hmin hmax
    apply key.mpr
    intro hv
    have h3 := hv.2.2.1
    rw [hmin, hmax] at h3
    exact absurd h3 (by decide)

/-- Witness of C8: the serialized default rule set with pad annular ring
min = 0.3 mm and max = 0.2 mm, read by the table reader. -/
theorem ctorSExpression_throws_iff_witness :
    AllParse tableReader invalidPadNode invalidPadParsed ∧
    (((∃ e, ctorSExpression tableReader invalidPadNode = .error e) ↔
      (invalidPadParsed.mStopMaskClearanceMax.value
          < invalidPadParsed.mStopMaskClearanceMin.value ∨
       invalidPadParsed.mCreamMaskClearanceMax.value
          < invalidPadParsed.mCreamMaskClearanceMin.value ∨
       invalidPadParsed.mPadAnnularRingMax.value
          < invalidPadParsed.mPadAnnularRingMin.value ∨
       invalidPadParsed.mViaAnnularRingMax.value
          < invalidPadParsed.mViaAnnularRingMin.value)) ∧
    ((¬ ∃ e, ctorSExpression tableReader invalidPadNode = .error e) →
      ctorSExpression tableReader invalidPadNode = .ok invalidPadParsed) ∧
    (invalidPadParsed.mPadAnnularRingMin.value = 300000 →
      invalidPadParsed.mPadAnnularRingMax.value = 200000 →
      ∃ e, ctorSExpression tableReader invalidPadNode = .error e)) :=
  have hp : AllParse tableReader invalidPadNode invalidPadParsed :=
    ⟨rfl, rfl, rfl, rfl, rfl, rfl, rfl, rfl, rfl, rfl, rfl, rfl, rfl, rfl, rfl⟩
  ⟨hp, ctorSExpression_throws_iff tableReader invalidPadNode invalidPadParsed hp⟩

end LibrePCB

namespace LibrePCB
open BoardDesignRuleCheck

/-! ## BoardDesignRuleCheck: copper to copper clearance -/

theorem getCopperPaths_snd_mMessages {G : Geometry} (layer : GraphicsLayer)
    (netsignals : List (Option NetSignal)) (this : BoardDesignRuleCheck G) :
    (getCopperPaths layer netsignals this).2.mMessages = this.mMessages := by
  simp only [getCopperPaths]
  split <;> rfl

theorem getCopperPaths_snd_emitted {G : Geometry} (layer : GraphicsLayer)
    (netsignals : List (Option NetSignal)) (this : BoardDesignRuleCheck G) :
    (getCopperPaths layer netsignals this).2.emitted = this.emitted := by
  simp only [getCopperPaths]
  split <;> rfl

theorem two_mul_tdiv_two_le (x : Int) : 2 * x.tdiv 2 ≤ max x 0 := by
  rcases le_or_lt 0 x with h | h
  · rw [Int.tdiv_eq_ediv h (by decide), max_eq_left h]
    omega
  · have hneg : x.tdiv 2 = -((-x).tdiv 2) := by rw [Int.neg_tdiv, neg_neg]
    rw [hneg, Int.tdiv_eq_ediv (by omega) (by decide), max_eq_right (le_of_lt h)]
    omega

theorem two_mul_copperCopperOffset_lt (mOptions : Options) (maxArcTolerance : PositiveLength)
    (gap : Length) (hgap : mOptions.minCopperCopperClearance.value ≤ gap) :
    ¬ gap < copperCopperOffset mOptions maxArcTolerance
        + copperCopperOffset mOptions maxArcTolerance := by
  unfold copperCopperOffset
  have h1 := two_mul_tdiv_two_le
    (mOptions.minCopperCopperClearance.value - maxArcTolerance.value)
  have h2 := maxArcTolerance.pos
  have h3 := mOptions.minCopperCopperClearance.nonneg
  have h4 : max (mOptions.minCopperCopperClearance.value - maxArcTolerance.value) 0
      ≤ gap := by
    apply max_le
    · linarith
    · linarith
  intro hlt
  linarith

/-- C10: in the copper to copper clearance pass, in the idealised model of
offsetting (the copper of entry `i` and the copper of entry `k` on the layer
are at gap `gap`: offset by `d1` and `d2` they intersect only if
`d1 + d2 > gap`), a gap of `minCopperCopperClearance` or more makes the step
of the pass for the pair `(i, k)` on that layer emit no message, for every
positive arc tolerance: the message list and the emitted signals are those
before the step. -/
theorem copper_clearance_none_at_gap (G : Geometry) (mOptions : Options)
    (maxArcTolerance : PositiveLength) (layer : GraphicsLayer)
    (netsignals : List (Option NetSignal)) (i k : Nat) (copper1 : List G.ClipperPath)
    (this : BoardDesignRuleCheck G) (gap : Length)
    (hideal : ∀ d1 d2 : Length,
      G.flattenTree (G.intersect (G.offset copper1 d1 maxArcTolerance)
        (G.offset (getCopperPaths layer [netsignals.getD k none] this).1 d2
          maxArcTolerance)) ≠ [] → gap < d1 + d2)
    (hgap : mOptions.minCopperCopperClearance.value ≤ gap) :
    (copperCopperPair mOptions maxArcTolerance layer netsignals i
        (G.offset copper1 (copperCopperOffset mOptions maxArcTolerance) maxArcTolerance)
        this k).mMessages = this.mMessages ∧
    (copperCopperPair mOptions maxArcTolerance layer netsignals i
        (G.offset copper1 (copperCopperOffset mOptions maxArcTolerance) maxArcTolerance)
        this k).emitted = this.emitted := by
  have hnil : G.flattenTree (G.intersect
      (G.offset copper1 (copperCopperOffset mOptions maxArcTolerance) maxArcTolerance)
      (G.offset (getCopperPaths layer [netsignals.getD k none] this).1
        (copperCopperOffset mOptions maxArcTolerance) maxArcTolerance)) = [] := by
    by_contra hne
    exact two_mul_copperCopperOffset_lt mOptions maxArcTolerance gap hgap
      (hideal _ _ hne)
  unfold copperCopperPair
  simp only [hnil, List.foldl_nil]
  exact ⟨getCopperPaths_snd_mMessages _ _ _, getCopperPaths_snd_emitted _ _ _⟩

end LibrePCB

namespace LibrePCB
open BoardDesignRuleCheck

theorem lineOffset_singleton (a b d : Int) :
    lineOffset [(a, b)] d = if a - d < b + d then [(a - d, b + d)] else [] := by
  unfold lineOffset
  simp only [List.map_cons, List.map_nil, List.filter_cons, List.filter_nil,
    decide_eq_true_eq]

theorem lineIntersect_singleton (p q : Int × Int) :
    lineIntersect [p] [q] =
      if max p.1 q.1 < min p.2 q.2 then [(max p.1 q.1, min p.2 q.2)] else [] := by
  unfold lineIntersect
  simp only [List.flatMap_cons, List.flatMap_nil, List.map_cons, List.map_nil,
    List.filter_cons, List.filter_nil, decide_eq_true_eq, List.append_nil]

theorem lineIntersect_nil_left (b : List (Int × Int)) : lineIntersect [] b = [] := rfl

theorem lineIntersect_nil_right (a : List (Int × Int)) : lineIntersect a [] = [] := by
  unfold lineIntersect
  induction a with
  | nil => rfl
  | cons p a ih => simp [List.flatMap_cons]

theorem lineGeometry_ideal_gap (d1 d2 : Int) :
    lineGeometry.flattenTree (lineGeometry.intersect
      (lineGeometry.offset [(0, 100000)] d1 ⟨5000, by decide⟩)
      (lineGeometry.offset
        (getCopperPaths topCopper [exampleNets.getD 1 none]
          ({} : BoardDesignRuleCheck lineGeometry)).1 d2 ⟨5000, by decide⟩)) ≠ [] →
    (200000 : Int) < d1 + d2 := by
  have hc : (getCopperPaths topCopper [exampleNets.getD 1 none]
      ({} : BoardDesignRuleCheck lineGeometry)).1 = [((300000 : Int), (400000 : Int))] := by
    rfl
  rw [hc]
  intro hne
  by_contra hlt
  apply hne
  show lineIntersect (lineOffset [(0, 100000)] d1) (lineOffset [(300000, 400000)] d2) = []
  rw [lineOffset_singleton, lineOffset_singleton]
  split_ifs with h1 h2 h2
  · rw [lineIntersect_singleton]
    split_ifs with h3
    · exfalso
      have h4 : (300000 : Int) - d2 < 100000 + d1 :=
        lt_of_le_of_lt (le_max_right _ _) (lt_of_lt_of_le h3 (min_le_left _ _))
      omega
    · rfl
  · exact lineIntersect_nil_right _
  · exact lineIntersect_nil_left _
  · exact lineIntersect_nil_left _

/-- Witness of C10: on the line, net `A` on 0 to 0.1 mm and net `B` on 0.3 mm
to 0.4 mm (gap 0.2 mm), a minimum clearance of 0.2 mm and an arc tolerance of
0.005 mm. -/
theorem copper_clearance_none_at_gap_witness :
    (∀ d1 d2 : Length,
      lineGeometry.flattenTree (lineGeometry.intersect
        (lineGeometry.offset [(0, 100000)] d1 ⟨5000, by decide⟩)
        (lineGeometry.offset
          (getCopperPaths topCopper [exampleNets.getD 1 none]
            ({} : BoardDesignRuleCheck lineGeometry)).1 d2 ⟨5000, by decide⟩)) ≠ [] →
      (200000 : Length) < d1 + d2) ∧
    exampleOptions.minCopperCopperClearance.value ≤ 200000 ∧
    (copperCopperPair exampleOptions ⟨5000, by decide⟩ topCopper exampleNets 0
        (lineGeometry.offset [(0, 100000)]
          (copperCopperOffset exampleOptions ⟨5000, by decide⟩) ⟨5000, by decide⟩)
        ({} : BoardDesignRuleCheck lineGeometry) 1).mMessages
      = ({} : BoardDesignRuleCheck lineGeometry).mMessages ∧
    (copperCopperPair exampleOptions ⟨5000, by decide⟩ topCopper exampleNets 0
        (lineGeometry.offset [(0, 100000)]
          (copperCopperOffset exampleOptions ⟨5000, by decide⟩) ⟨5000, by decide⟩)
        ({} : BoardDesignRuleCheck lineGeometry) 1).emitted
      = ({} : BoardDesignRuleCheck lineGeometry).emitted :=
  ⟨lineGeometry_ideal_gap, by decide,
    copper_clearance_none_at_gap lineGeometry exampleOptions ⟨5000, by decide⟩ topCopper
      exampleNets 0 1 [(0, 100000)] {} 200000 lineGeometry_ideal_gap (by decide)⟩

end LibrePCB

namespace LibrePCB
open BoardDesignRuleCheck

/-! ## BoardDesignRuleCheck: message lists of steps and loops -/

theorem emitMessage_mMessages {G : Geometry} (msg : BoardDesignRuleCheckMessage G.Path)
    (this : BoardDesignRuleCheck G) :
    (emitMessage msg this).mMessages = this.mMessages ++ [msg] := rfl

theorem emitStatus_mMessages {G : Geometry} (status : String) (this : BoardDesignRuleCheck G) :
    (emitStatus status this).mMessages = this.mMessages := rfl

theorem emitProgressPercent_mMessages {G : Geometry} (p : Int)
    (this : BoardDesignRuleCheck G) :
    (emitProgressPercent p this).mMessages = this.mMessages := rfl

theorem foldl_mMessages {G : Geometry} {α : Type}
    (f : BoardDesignRuleCheck G → α → BoardDesignRuleCheck G)
    (g : α → List (BoardDesignRuleCheckMessage G.Path))
    (hf : ∀ s x, (f s x).mMessages = s.mMessages ++ g x)
    (l : List α) (s : BoardDesignRuleCheck G) :
    (l.foldl f s).mMessages = s.mMessages ++ l.flatMap g := by
  induction l generalizing s with
  | nil => simp
  | cons x l ih =>
    rw [List.foldl_cons, ih, hf, List.flatMap_cons, List.append_assoc]

theorem newMessages_spec {G : Geometry}
    (step : BoardDesignRuleCheck G → BoardDesignRuleCheck G)
    (new : List (BoardDesignRuleCheckMessage G.Path))
    (h : ∀ s, (step s).mMessages = s.mMessages ++ new) :
    newMessages step = new := by
  unfold newMessages
  rw [h]
  rfl

/-! ## BoardDesignRuleCheck: slot warnings -/

theorem processHoleSlotWarning_mMessages {G : Geometry} (H : Helpers G) (hole : Hole G)
    (level : SlotsWarningLevel) (t1 t2 : Transform) (this : BoardDesignRuleCheck G) :
    (processHoleSlotWarning H hole level t1 t2 this).mMessages
      = this.mMessages ++ newMessages (processHoleSlotWarning H hole level t1 t2) := by
  unfold newMessages processHoleSlotWarning
  split_ifs <;> simp [emitMessage]

end LibrePCB

namespace LibrePCB
open BoardDesignRuleCheck

/-- C17: for every hole and every warning level `processHoleSlotWarning`
appends at most one advisory to the message list; a hole that is both a curved
slot and a multi-segment slot is reported exactly once, with the message of
curved slots, at every level at or above Curved (so never in addition as a
multi-segment or plain slot). -/
theorem slot_warning_at_most_one {G : Geometry} (H : Helpers G) (hole : Hole G)
    (level : SlotsWarningLevel) (t1 t2 : Transform) (this : BoardDesignRuleCheck G) :
    (processHoleSlotWarning H hole level t1 t2 this).mMessages
      = this.mMessages ++ newMessages (processHoleSlotWarning H hole level t1 t2) ∧
    (newMessages (processHoleSlotWarning H hole level t1 t2)).length ≤ 1 ∧
    (hole.isCurvedSlot = true → hole.isMultiSegmentSlot = true →
      SlotsWarningLevel.Curved.toNat ≤ level.toNat →
      ∃ m, newMessages (processHoleSlotWarning H hole level t1 t2) = [m] ∧
        m.message = "Hole is a slot with curves") := by
  refine ⟨processHoleSlotWarning_mMessages H hole level t1 t2 this, ?_, ?_⟩
  · unfold newMessages processHoleSlotWarning
    split_ifs <;> simp [emitMessage]
  · intro hc _ hl
    unfold newMessages processHoleSlotWarning
    have hl2 : decide (level.toNat ≥ SlotsWarningLevel.Curved.toNat) = true := by
      simpa using hl
    simp [emitMessage, hc, hl2]

/-- C18: `processHoleSlotWarning` appends an advisory if and only if the
configured level is at or above the rank of the classification of the hole
(curved slot, else multi-segment slot, else plain slot, with the ranks Curved,
MultiSegment, All): level None never reports; level Curved reports exactly the
curved slots; level MultiSegment exactly the curved and the multi-segment
slots; level All every slot; and an advisory appended at one level is appended
unchanged at every higher level. -/
theorem slot_warning_iff_level_ge_rank {G : Geometry} (H : Helpers G) (hole : Hole G)
    (level : SlotsWarningLevel) (t1 t2 : Transform) :
    (newMessages (processHoleSlotWarning H hole level t1 t2) ≠ [] ↔
      ∃ rank, slotClassRank hole = some rank ∧ rank.toNat ≤ level.toNat) ∧
    newMessages (processHoleSlotWarning H hole SlotsWarningLevel.None t1 t2) = [] ∧
    (newMessages (processHoleSlotWarning H hole SlotsWarningLevel.Curved t1 t2) ≠ [] ↔
      hole.isCurvedSlot = true) ∧
    (newMessages (processHoleSlotWarning H hole SlotsWarningLevel.MultiSegment t1 t2) ≠ [] ↔
      (hole.isCurvedSlot = true ∨ hole.isMultiSegmentSlot = true)) ∧
    (newMessages (processHoleSlotWarning H hole SlotsWarningLevel.All t1 t2) ≠ [] ↔
      (hole.isCurvedSlot = true ∨ hole.isMultiSegmentSlot = true ∨ hole.isSlot = true)) ∧
    (hole.isSlot = true →
      newMessages (processHoleSlotWarning H hole SlotsWarningLevel.All t1 t2) ≠ []) ∧
    (∀ higher : SlotsWarningLevel, level.toNat ≤ higher.toNat →
      newMessages (processHoleSlotWarning H hole level t1 t2) ≠ [] →
      newMessages (processHoleSlotWarning H hole higher t1 t2)
        = newMessages (processHoleSlotWarning H hole level t1 t2)) := by
  refine ⟨?_, ?_, ?_, ?_, ?_, ?_, ?_⟩
  · cases level <;> cases hc : hole.isCurvedSlot <;> cases hm : hole.isMultiSegmentSlot <;>
      cases hs : hole.isSlot <;>
      simp [newMessages, processHoleSlotWarning, emitMessage, SlotsWarningLevel.toNat,
        slotClassRank, hc, hm, hs]
  · simp [newMessages, processHoleSlotWarning, SlotsWarningLevel.toNat]
  · cases hc : hole.isCurvedSlot <;>
      simp [newMessages, processHoleSlotWarning, emitMessage, SlotsWarningLevel.toNat, hc]
  · cases hc : hole.isCurvedSlot <;> cases hm : hole.isMultiSegmentSlot <;>
      simp [newMessages, processHoleSlotWarning, emitMessage, SlotsWarningLevel.toNat, hc, hm]
  · cases hc : hole.isCurvedSlot <;> cases hm : hole.isMultiSegmentSlot <;>
      cases hs : hole.isSlot <;>
      simp [newMessages, processHoleSlotWarning, emitMessage, SlotsWarningLevel.toNat,
        hc, hm, hs]
  · intro hs
    cases hc : hole.isCurvedSlot <;> cases hm : hole.isMultiSegmentSlot <;>
      simp [newMessages, processHoleSlotWarning, emitMessage, SlotsWarningLevel.toNat,
        hc, hm, hs]
  · intro higher
    cases level <;> cases higher <;> cases hc : hole.isCurvedSlot <;>
      cases hm : hole.isMultiSegmentSlot <;> cases hs : hole.isSlot <;>
      simp [newMessages, processHoleSlotWarning, emitMessage, SlotsWarningLevel.toNat,
        hc, hm, hs]

end LibrePCB

namespace LibrePCB
open BoardDesignRuleCheck

/-! ## BoardDesignRuleCheck: drill diameters and slot widths -/

theorem npthDrillHole_mMessages {G : Geometry} (H : Helpers G) (mOptions : Options)
    (t : Transform) (s : BoardDesignRuleCheck G) (hole : Hole G) :
    (npthDrillHole H mOptions t s hole).mMessages
      = s.mMessages ++ newMessages (fun s => npthDrillHole H mOptions t s hole) := by
  unfold newMessages npthDrillHole
  split_ifs <;> simp [emitMessage]

theorem npthSlotHole_mMessages {G : Geometry} (H : Helpers G) (mOptions : Options)
    (t : Transform) (s : BoardDesignRuleCheck G) (hole : Hole G) :
    (npthSlotHole H mOptions t s hole).mMessages
      = s.mMessages ++ newMessages (fun s => npthSlotHole H mOptions t s hole) := by
  unfold newMessages npthSlotHole
  split_ifs <;> simp [emitMessage]

theorem pthSlotPadHole_mMessages {G : Geometry} (H : Helpers G) (mOptions : Options)
    (t1 t2 : Transform) (s : BoardDesignRuleCheck G) (hole : Hole G) :
    (pthSlotPadHole H mOptions t1 t2 s hole).mMessages
      = s.mMessages ++ newMessages (fun s => pthSlotPadHole H mOptions t1 t2 s hole) := by
  unfold newMessages pthSlotPadHole
  split_ifs <;> simp [emitMessage]

theorem pthDrillPadHole_mMessages {G : Geometry} (H : Helpers G) (mOptions : Options)
    (pad : FootprintPad G) (s : BoardDesignRuleCheck G) (hole : Hole G) :
    (pthDrillPadHole H mOptions pad s hole).mMessages
      = s.mMessages ++ newMessages (fun s => pthDrillPadHole H mOptions pad s hole) := by
  unfold newMessages pthDrillPadHole
  split_ifs <;> simp [emitMessage]

theorem npthDrillHole_length {G : Geometry} (H : Helpers G) (mOptions : Options)
    (t : Transform) (hole : Hole G) :
    (newMessages (fun s => npthDrillHole H mOptions t s hole)).length
      = if hole.isSlot = false ∧ hole.diameter.value < mOptions.minNpthDrillDiameter.value
        then 1 else 0 := by
  unfold newMessages npthDrillHole
  cases hs : hole.isSlot <;>
    by_cases hd : hole.diameter.value < mOptions.minNpthDrillDiameter.value <;>
    simp [emitMessage, hs, hd]

theorem npthSlotHole_length {G : Geometry} (H : Helpers G) (mOptions : Options)
    (t : Transform) (hole : Hole G) :
    (newMessages (fun s => npthSlotHole H mOptions t s hole)).length
      = if hole.isSlot = true ∧ hole.diameter.value < mOptions.minNpthSlotWidth.value
        then 1 else 0 := by
  unfold newMessages npthSlotHole
  cases hs : hole.isSlot <;>
    by_cases hd : hole.diameter.value < mOptions.minNpthSlotWidth.value <;>
    simp [emitMessage, hs, hd]

theorem pthSlotPadHole_length {G : Geometry} (H : Helpers G) (mOptions : Options)
    (t1 t2 : Transform) (hole : Hole G) :
    (newMessages (fun s => pthSlotPadHole H mOptions t1 t2 s hole)).length
      = if hole.isSlot = true ∧ hole.diameter.value < mOptions.minPthSlotWidth.value
        then 1 else 0 := by
  unfold newMessages pthSlotPadHole
  cases hs : hole.isSlot <;>
    by_cases hd : hole.diameter.value < mOptions.minPthSlotWidth.value <;>
    simp [emitMessage, hs, hd]

theorem checkMinimumNpthDrillDiameter_mMessages {G : Geometry} (H : Helpers G)
    (mBoard : Board G) (mOptions : Options) (progressStart progressEnd : Int)
    (this : BoardDesignRuleCheck G) :
    (checkMinimumNpthDrillDiameter H mBoard mOptions progressStart progressEnd this).mMessages
      = this.mMessages
        ++ mBoard.holes.flatMap
            (fun hole => newMessages
              (fun s => npthDrillHole H mOptions Transform.identity s hole))
        ++ mBoard.devices.flatMap
            (fun device => device.holes.flatMap
              (fun hole => newMessages
                (fun s => npthDrillHole H mOptions device.transform s hole))) := by
  unfold checkMinimumNpthDrillDiameter
  simp only [emitProgressPercent_mMessages]
  have hdev : ∀ (s : BoardDesignRuleCheck G) (device : Device G),
      (device.holes.foldl (npthDrillHole H mOptions device.transform) s).mMessages
        = s.mMessages ++ device.holes.flatMap
            (fun hole => newMessages
              (fun s => npthDrillHole H mOptions device.transform s hole)) :=
    fun s device => foldl_mMessages (npthDrillHole H mOptions device.transform) _
      (fun s hole => npthDrillHole_mMessages H mOptions device.transform s hole) _ s
  rw [foldl_mMessages
      (fun (this : BoardDesignRuleCheck G) (device : Device G) =>
        device.holes.foldl (npthDrillHole H mOptions device.transform) this)
      _ hdev,
    foldl_mMessages (npthDrillHole H mOptions Transform.identity) _
      (fun s hole => npthDrillHole_mMessages H mOptions Transform.identity s hole),
    emitStatus_mMessages]

theorem checkMinimumNpthSlotWidth_mMessages {G : Geometry} (H : Helpers G)
    (mBoard : Board G) (mOptions : Options) (progressStart progressEnd : Int)
    (this : BoardDesignRuleCheck G) :
    (checkMinimumNpthSlotWidth H mBoard mOptions progressStart progressEnd this).mMessages
      = this.mMessages
        ++ mBoard.holes.flatMap
            (fun hole => newMessages
              (fun s => npthSlotHole H mOptions Transform.identity s hole))
        ++ mBoard.devices.flatMap
            (fun device => device.holes.flatMap
              (fun hole => newMessages
                (fun s => npthSlotHole H mOptions device.transform s hole))) := by
  unfold checkMinimumNpthSlotWidth
  simp only [emitProgressPercent_mMessages]
  have hdev : ∀ (s : BoardDesignRuleCheck G) (device : Device G),
      (device.holes.foldl (npthSlotHole H mOptions device.transform) s).mMessages
        = s.mMessages ++ device.holes.flatMap
            (fun hole => newMessages
              (fun s => npthSlotHole H mOptions device.transform s hole)) :=
    fun s device => foldl_mMessages (npthSlotHole H mOptions device.transform) _
      (fun s hole => npthSlotHole_mMessages H mOptions device.transform s hole) _ s
  rw [foldl_mMessages
      (fun (this : BoardDesignRuleCheck G) (device : Device G) =>
        device.holes.foldl (npthSlotHole H mOptions device.transform) this)
      _ hdev,
    foldl_mMessages (npthSlotHole H mOptions Transform.identity) _
      (fun s hole => npthSlotHole_mMessages H mOptions Transform.identity s hole),
    emitStatus_mMessages]

theorem checkMinimumPthSlotWidth_mMessages {G : Geometry} (H : Helpers G)
    (mBoard : Board G) (mOptions : Options) (progressStart progressEnd : Int)
    (this : BoardDesignRuleCheck G) :
    (checkMinimumPthSlotWidth H mBoard mOptions progressStart progressEnd this).mMessages
      = this.mMessages
        ++ mBoard.devices.flatMap
            (fun device => device.pads.flatMap
              (fun pad => pad.holes.flatMap
                (fun hole => newMessages
                  (fun s => pthSlotPadHole H mOptions pad.libTransform device.transform
                    s hole)))) := by
  unfold checkMinimumPthSlotWidth
  simp only [emitProgressPercent_mMessages]
  have hpad : ∀ (device : Device G) (s : BoardDesignRuleCheck G) (pad : FootprintPad G),
      (pad.holes.foldl (pthSlotPadHole H mOptions pad.libTransform device.transform) s).mMessages
        = s.mMessages ++ pad.holes.flatMap
            (fun hole => newMessages
              (fun s => pthSlotPadHole H mOptions pad.libTransform device.transform s hole)) :=
    fun device s pad =>
      foldl_mMessages (pthSlotPadHole H mOptions pad.libTransform device.transform) _
        (fun s hole =>
          pthSlotPadHole_mMessages H mOptions pad.libTransform device.transform s hole) _ s
  have hdev : ∀ (s : BoardDesignRuleCheck G) (device : Device G),
      (device.pads.foldl
        (fun this pad =>
          pad.holes.foldl (pthSlotPadHole H mOptions pad.libTransform device.transform) this)
        s).mMessages
        = s.mMessages ++ device.pads.flatMap
            (fun pad => pad.holes.flatMap
              (fun hole => newMessages
                (fun s => pthSlotPadHole H mOptions pad.libTransform device.transform
                  s hole))) :=
    fun s device => foldl_mMessages
      (fun (this : BoardDesignRuleCheck G) (pad : FootprintPad G) =>
        pad.holes.foldl (pthSlotPadHole H mOptions pad.libTransform device.transform) this)
      _ (hpad device) _ s
  rw [foldl_mMessages
      (fun (this : BoardDesignRuleCheck G) (device : Device G) =>
        device.pads.foldl
          (fun (this : BoardDesignRuleCheck G) (pad : FootprintPad G) =>
            pad.holes.foldl (pthSlotPadHole H mOptions pad.libTransform device.transform) this)
          this)
      _ hdev,
    emitStatus_mMessages]

end LibrePCB

namespace LibrePCB
open BoardDesignRuleCheck

/-- C13: the minimum NPTH drill diameter pass appends to the message list, in
the order of iteration, the messages of the holes of the board and then of the
holes of the footprints of the devices, and the step for a hole appends exactly
one message when the hole is not a slot and its diameter is strictly less than
`minNpthDrillDiameter`, and none otherwise (no message for a slot of any
diameter, none for a diameter at or above the minimum). -/
theorem npth_drill_pass_reports_small_round_holes {G : Geometry} (H : Helpers G)
    (mBoard : Board G) (mOptions : Options) (progressStart progressEnd : Int)
    (this : BoardDesignRuleCheck G) :
    (checkMinimumNpthDrillDiameter H mBoard mOptions progressStart progressEnd this).mMessages
      = this.mMessages
        ++ mBoard.holes.flatMap
            (fun hole => newMessages
              (fun s => npthDrillHole H mOptions Transform.identity s hole))
        ++ mBoard.devices.flatMap
            (fun device => device.holes.flatMap
              (fun hole => newMessages
                (fun s => npthDrillHole H mOptions device.transform s hole))) ∧
    (∀ (t : Transform) (hole : Hole G),
      (newMessages (fun s => npthDrillHole H mOptions t s hole)).length
        = if hole.isSlot = false ∧ hole.diameter.value < mOptions.minNpthDrillDiameter.value
          then 1 else 0) ∧
    (∀ (t : Transform) (hole : Hole G), hole.isSlot = true →
      newMessages (fun s => npthDrillHole H mOptions t s hole) = []) ∧
    (∀ (t : Transform) (hole : Hole G),
      mOptions.minNpthDrillDiameter.value ≤ hole.diameter.value →
      newMessages (fun s => npthDrillHole H mOptions t s hole) = []) := by
  refine ⟨checkMinimumNpthDrillDiameter_mMessages H mBoard mOptions progressStart
    progressEnd this, npthDrillHole_length H mOptions, ?_, ?_⟩
  · intro t hole hs
    have h := npthDrillHole_length H mOptions t hole
    simp only [hs] at h
    exact List.length_eq_zero.mp (by simpa using h)
  · intro t hole hd
    have h := npthDrillHole_length H mOptions t hole
    have hnot : ¬ hole.diameter.value < mOptions.minNpthDrillDiameter.value := not_lt.mpr hd
    exact List.length_eq_zero.mp (by simpa [hnot] using h)

/-- C15: the NPTH and PTH slot width passes append, in the order of
iteration, the messages of the holes (holes of the board and of the footprints
for NPTH, holes of the pads for PTH), and the step for a hole appends exactly
one message when the hole is a slot and its diameter is strictly less than the
minimum slot width (`minNpthSlotWidth`, `minPthSlotWidth`), and none otherwise;
so a hole that is no slot gets no slot width message, and for every non-plated
hole the drill diameter step and the slot width step together append at most
one message. -/
theorem slot_width_passes_report_narrow_slots {G : Geometry} (H : Helpers G)
    (mBoard : Board G) (mOptions : Options) (progressStart progressEnd : Int)
    (this : BoardDesignRuleCheck G) :
    (checkMinimumNpthSlotWidth H mBoard mOptions progressStart progressEnd this).mMessages
      = this.mMessages
        ++ mBoard.holes.flatMap
            (fun hole => newMessages
              (fun s => npthSlotHole H mOptions Transform.identity s hole))
        ++ mBoard.devices.flatMap
            (fun device => device.holes.flatMap
              (fun hole => newMessages
                (fun s => npthSlotHole H mOptions device.transform s hole))) ∧
    (checkMinimumPthSlotWidth H mBoard mOptions progressStart progressEnd this).mMessages
      = this.mMessages
        ++ mBoard.devices.flatMap
            (fun device => device.pads.flatMap
              (fun pad => pad.holes.flatMap
                (fun hole => newMessages
                  (fun s => pthSlotPadHole H mOptions pad.libTransform device.transform
                    s hole)))) ∧
    (∀ (t : Transform) (hole : Hole G),
      (newMessages (fun s => npthSlotHole H mOptions t s hole)).length
        = if hole.isSlot = true ∧ hole.diameter.value < mOptions.minNpthSlotWidth.value
          then 1 else 0) ∧
    (∀ (t1 t2 : Transform) (hole : Hole G),
      (newMessages (fun s => pthSlotPadHole H mOptions t1 t2 s hole)).length
        = if hole.isSlot = true ∧ hole.diameter.value < mOptions.minPthSlotWidth.value
          then 1 else 0) ∧
    (∀ (t1 t2 : Transform) (hole : Hole G), hole.isSlot = false →
      newMessages (fun s => npthSlotHole H mOptions t1 s hole) = [] ∧
      newMessages (fun s => pthSlotPadHole H mOptions t1 t2 s hole) = []) ∧
    (∀ (t1 t2 : Transform) (hole : Hole G),
      (newMessages (fun s => npthDrillHole H mOptions t1 s hole)).length
        + (newMessages (fun s => npthSlotHole H mOptions t2 s hole)).length ≤ 1) := by
  refine ⟨checkMinimumNpthSlotWidth_mMessages H mBoard mOptions progressStart progressEnd
      this,
    checkMinimumPthSlotWidth_mMessages H mBoard mOptions progressStart progressEnd this,
    npthSlotHole_length H mOptions, pthSlotPadHole_length H mOptions, ?_, ?_⟩
  · intro t1 t2 hole hs
    have h1 := npthSlotHole_length H mOptions t1 hole
    have h2 := pthSlotPadHole_length H mOptions t1 t2 hole
    simp only [hs] at h1 h2
    exact ⟨List.length_eq_zero.mp (by simpa using h1),
      List.length_eq_zero.mp (by simpa using h2)⟩
  · intro t1 t2 hole
    rw [npthDrillHole_length, npthSlotHole_length]
    cases hs : hole.isSlot <;> simp <;> split_ifs <;> simp

/-- C14, the code at the failing input: on a board with one pad whose only
hole is a slot of width 0.2 mm, with `minPthDrillDiameter` 0.25 mm and
`minPthSlotWidth` 0.7 mm, the minimum PTH drill diameter pass appends a
message for the slot, and the PTH slot width pass appends one as well. -/
theorem pth_drill_pass_reports_slot :
    narrowSlot.isSlot = true ∧
    (newMessages
      (checkMinimumPthDrillDiameter lineHelpers slotPadBoard exampleOptions 78 80)).map
        (fun m => m.message) = ["Min. pad drill diameter ('1'): 0.200000mm"] ∧
    (newMessages
      (checkMinimumPthSlotWidth lineHelpers slotPadBoard exampleOptions 80 82)).map
        (fun m => m.message) = ["Min. PTH slot width: 0.200000mm < 0.700000mm"] := by
  decide

end LibrePCB

namespace LibrePCB
open BoardDesignRuleCheck

/-! ## BoardDesignRuleCheck: the path cache -/

theorem foldl_preserves {α β : Type} (P : β → Prop) (f : β → α → β)
    (hf : ∀ b a, P b → P (f b a)) (l : List α) (init : β) (h : P init) :
    P (l.foldl f init) := by
  induction l generalizing init with
  | nil => exact h
  | cons a l ih => exact ih _ (hf _ _ h)

theorem getCopperPaths_snd_mProgressStatus {G : Geometry} (layer : GraphicsLayer)
    (netsignals : List (Option NetSignal)) (this : BoardDesignRuleCheck G) :
    (getCopperPaths layer netsignals this).2.mProgressStatus = this.mProgressStatus := by
  simp only [getCopperPaths]
  split <;> rfl

theorem getCopperPaths_fst_congr {G : Geometry} (layer : GraphicsLayer)
    (netsignals : List (Option NetSignal)) (s s' : BoardDesignRuleCheck G)
    (h : s.mCachedPaths = s'.mCachedPaths) :
    (getCopperPaths layer netsignals s).1 = (getCopperPaths layer netsignals s').1 := by
  simp only [getCopperPaths, h]
  split <;> rfl

theorem getCopperPaths_fst_after {G : Geometry} (layer layer' : GraphicsLayer)
    (netsignals netsignals' : List (Option NetSignal)) (s : BoardDesignRuleCheck G) :
    (getCopperPaths layer' netsignals' (getCopperPaths layer netsignals s).2).1
      = (getCopperPaths layer' netsignals' s).1 := by
  cases h : s.mCachedPaths.lookup (layer, netsignals) with
  | some paths =>
    have hs : (getCopperPaths layer netsignals s).2 = s := by
      simp only [getCopperPaths, h]
    rw [hs]
  | none =>
    have hs : (getCopperPaths layer netsignals s).2
        = { s with mCachedPaths :=
              ((layer, netsignals), G.addCopper layer.name netsignals) :: s.mCachedPaths } := by
      simp only [getCopperPaths, h]
    rw [hs]
    by_cases hk : ((layer', netsignals') : CacheKey) = (layer, netsignals)
    · have h1 : layer' = layer := congrArg Prod.fst hk
      have h2 : netsignals' = netsignals := congrArg Prod.snd hk
      subst h1
      subst h2
      simp [getCopperPaths, List.lookup, h]
    · have hb : (((layer', netsignals') : CacheKey) == (layer, netsignals)) = false := by
        simpa using hk
      simp only [getCopperPaths, List.lookup, hb]
      split <;> rfl

end LibrePCB

namespace LibrePCB
open BoardDesignRuleCheck

/-! ## BoardDesignRuleCheck: annular rings of plated holes -/

theorem thtCopperAreas_fold {G : Geometry} (s0 : BoardDesignRuleCheck G)
    (layers : List GraphicsLayer)
    (acc : List (List G.ClipperPath) × BoardDesignRuleCheck G)
    (hc : ∀ l ns, (getCopperPaths l ns acc.2).1 = (getCopperPaths l ns s0).1)
    (hm : acc.2.mMessages = s0.mMessages) (he : acc.2.emitted = s0.emitted) :
    (layers.foldl
      (fun (acc : List (List G.ClipperPath) × BoardDesignRuleCheck G) l =>
        if l.isCopperLayer && l.isEnabled then
          let (paths, this) := getCopperPaths l [] acc.2
          (acc.1 ++ [paths], this)
        else acc)
      acc).1
      = acc.1 ++ (layers.filter fun l => l.isCopperLayer && l.isEnabled).map
          (fun l => (getCopperPaths l [] s0).1) ∧
    (layers.foldl
      (fun (acc : List (List G.ClipperPath) × BoardDesignRuleCheck G) l =>
        if l.isCopperLayer && l.isEnabled then
          let (paths, this) := getCopperPaths l [] acc.2
          (acc.1 ++ [paths], this)
        else acc)
      acc).2.mMessages = s0.mMessages ∧
    (layers.foldl
      (fun (acc : List (List G.ClipperPath) × BoardDesignRuleCheck G) l =>
        if l.isCopperLayer && l.isEnabled then
          let (paths, this) := getCopperPaths l [] acc.2
          (acc.1 ++ [paths], this)
        else acc)
      acc).2.emitted = s0.emitted := by
  induction layers generalizing acc with
  | nil => simp [hm, he]
  | cons l layers ih =>
    rw [List.foldl_cons]
    by_cases hl : (l.isCopperLayer && l.isEnabled) = true
    · simp only [hl, if_true, List.filter_cons_of_pos, List.map_cons]
      have := ih (acc.1 ++ [(getCopperPaths l [] acc.2).1], (getCopperPaths l [] acc.2).2)
        (fun l' ns => by
          show (getCopperPaths l' ns (getCopperPaths l [] acc.2).2).1 = _
          rw [getCopperPaths_fst_after, hc])
        (by
          show (getCopperPaths l [] acc.2).2.mMessages = _
          rw [getCopperPaths_snd_mMessages, hm])
        (by
          show (getCopperPaths l [] acc.2).2.emitted = _
          rw [getCopperPaths_snd_emitted, he])
      exact ⟨this.1.trans (by rw [List.append_assoc, List.singleton_append, hc]), this.2⟩
    · have hl' : (l.isCopperLayer && l.isEnabled) = false := by simpa using hl
      simp only [hl', Bool.false_eq_true, if_false]
      rw [List.filter_cons_of_neg (by simp [hl'])]
      exact ih acc hc hm he

theorem thtCopperAreas_spec {G : Geometry} (mBoard : Board G) (s : BoardDesignRuleCheck G) :
    (thtCopperAreas mBoard s).1
      = (mBoard.layers.filter fun l => l.isCopperLayer && l.isEnabled).map
          (fun l => (getCopperPaths l [] s).1) ∧
    (thtCopperAreas mBoard s).2.mMessages = s.mMessages ∧
    (thtCopperAreas mBoard s).2.emitted = s.emitted := by
  have h := thtCopperAreas_fold s mBoard.layers ([], s) (fun _ _ => rfl) rfl rfl
  simpa [thtCopperAreas] using h

end LibrePCB

namespace LibrePCB
open BoardDesignRuleCheck

theorem annularRingVia_mMessages {G : Geometry} (H : Helpers G) (mOptions : Options)
    (tol : PositiveLength) (tht : List G.ClipperPath) (netsegment : NetSegment)
    (s : BoardDesignRuleCheck G) (via : Via) :
    (annularRingVia H mOptions tol tht netsegment s via).mMessages
      = s.mMessages
        ++ newMessages (fun s => annularRingVia H mOptions tol tht netsegment s via) := by
  unfold newMessages annularRingVia
  cases viaRequiredAreas H mOptions tol via with
  | none => simp
  | some areas =>
    simp only
    split_ifs <;> simp [emitMessage]

theorem annularRingPad_mMessages {G : Geometry} (H : Helpers G) (mOptions : Options)
    (tol : PositiveLength) (tht : List G.ClipperPath)
    (s : BoardDesignRuleCheck G) (pad : FootprintPad G) :
    (annularRingPad H mOptions tol tht s pad).mMessages
      = s.mMessages ++ newMessages (fun s => annularRingPad H mOptions tol tht s pad) := by
  unfold newMessages annularRingPad
  simp only
  split_ifs <;> simp [emitMessage]

theorem annularRingVia_length {G : Geometry} (H : Helpers G) (mOptions : Options)
    (tol : PositiveLength) (tht : List G.ClipperPath) (netsegment : NetSegment) (via : Via) :
    (newMessages (fun s => annularRingVia H mOptions tol tht netsegment s via)).length ≤ 1 ∧
    ((newMessages (fun s => annularRingVia H mOptions tol tht netsegment s via)).length = 1 ↔
      ∃ areas, viaRequiredAreas H mOptions tol via = some areas ∧
        G.flattenTree (H.subtractToTree areas tht) ≠ []) := by
  unfold newMessages annularRingVia
  cases viaRequiredAreas H mOptions tol via with
  | none => simp
  | some areas =>
    simp only
    by_cases he : G.flattenTree (H.subtractToTree areas tht) = []
    · simp [he]
    · have he' : (G.flattenTree (H.subtractToTree areas tht)).isEmpty = false := by
        simpa [List.isEmpty_iff] using he
      simp [he, he', emitMessage]

theorem annularRingPad_length {G : Geometry} (H : Helpers G) (mOptions : Options)
    (tol : PositiveLength) (tht : List G.ClipperPath) (pad : FootprintPad G) :
    (newMessages (fun s => annularRingPad H mOptions tol tht s pad)).length ≤ 1 := by
  unfold newMessages annularRingPad
  simp only
  split_ifs <;> simp [emitMessage]

theorem checkMinimumPthAnnularRing_mMessages {G : Geometry} (H : Helpers G)
    (mBoard : Board G) (mOptions : Options) (tol : PositiveLength)
    (progressStart progressEnd : Int) (this : BoardDesignRuleCheck G) :
    (checkMinimumPthAnnularRing H mBoard mOptions tol progressStart progressEnd this).mMessages
      = this.mMessages
        ++ mBoard.netSegments.flatMap
            (fun netsegment => netsegment.vias.flatMap
              (fun via => newMessages
                (fun s => annularRingVia H mOptions tol
                  (H.treeToPaths (H.intersectAll
                    ((mBoard.layers.filter fun l => l.isCopperLayer && l.isEnabled).map
                      (fun l => (getCopperPaths l [] this).1))))
                  netsegment s via)))
        ++ mBoard.devices.flatMap
            (fun device => device.pads.flatMap
              (fun pad => newMessages
                (fun s => annularRingPad H mOptions tol
                  (H.treeToPaths (H.intersectAll
                    ((mBoard.layers.filter fun l => l.isCopperLayer && l.isEnabled).map
                      (fun l => (getCopperPaths l [] this).1))))
                  s pad))) := by
  obtain ⟨h1, h2, _⟩ := thtCopperAreas_spec mBoard
    (emitStatus "Check minimum PTH annular rings..." this)
  have h1' : (thtCopperAreas mBoard
      (emitStatus "Check minimum PTH annular rings..." this)).1
      = (mBoard.layers.filter fun l => l.isCopperLayer && l.isEnabled).map
          (fun l => (getCopperPaths l [] this).1) := by
    rw [h1]
    apply List.map_congr_left
    intro l _
    exact getCopperPaths_fst_congr l [] _ _ rfl
  unfold checkMinimumPthAnnularRing
  simp only [emitProgressPercent_mMessages]
  rw [h1']
  have hseg : ∀ (tht : List G.ClipperPath) (s : BoardDesignRuleCheck G)
      (netsegment : NetSegment),
      (netsegment.vias.foldl (annularRingVia H mOptions tol tht netsegment) s).mMessages
        = s.mMessages ++ netsegment.vias.flatMap
            (fun via => newMessages
              (fun s => annularRingVia H mOptions tol tht netsegment s via)) :=
    fun tht s netsegment => foldl_mMessages (annularRingVia H mOptions tol tht netsegment) _
      (fun s via => annularRingVia_mMessages H mOptions tol tht netsegment s via) _ s
  have hdev : ∀ (tht : List G.ClipperPath) (s : BoardDesignRuleCheck G) (device : Device G),
      (device.pads.foldl (annularRingPad H mOptions tol tht) s).mMessages
        = s.mMessages ++ device.pads.flatMap
            (fun pad => newMessages (fun s => annularRingPad H mOptions tol tht s pad)) :=
    fun tht s device => foldl_mMessages (annularRingPad H mOptions tol tht) _
      (fun s pad => annularRingPad_mMessages H mOptions tol tht s pad) _ s
  rw [foldl_mMessages
      (fun (this : BoardDesignRuleCheck G) (device : Device G) =>
        device.pads.foldl (annularRingPad H mOptions tol _) this)
      _ (hdev _),
    foldl_mMessages
      (fun (this : BoardDesignRuleCheck G) (netsegment : NetSegment) =>
        netsegment.vias.foldl (annularRingVia H mOptions tol _ netsegment) this)
      _ (hseg _),
    h2, emitStatus_mMessages]

end LibrePCB

namespace LibrePCB
open BoardDesignRuleCheck

/-- C12: in the minimum PTH annular ring pass the step for a via appends at
most one message, and it appends one if and only if the area required for the
via (the circle built for it) minus the copper that is present on all enabled
copper layers is not empty; a via whose required area is fully covered gets no
message. The pass appends the messages of the vias and then of the pads, in
the order of iteration, and the copper it subtracts is the intersection over
the enabled copper layers of the copper paths of each layer. -/
theorem pth_annular_ring_via_iff_uncovered {G : Geometry} (H : Helpers G)
    (mBoard : Board G) (mOptions : Options) (tol : PositiveLength)
    (progressStart progressEnd : Int) (tht : List G.ClipperPath) (netsegment : NetSegment)
    (via : Via) (this : BoardDesignRuleCheck G) :
    (annularRingVia H mOptions tol tht netsegment this via).mMessages
      = this.mMessages
        ++ newMessages (fun s => annularRingVia H mOptions tol tht netsegment s via) ∧
    (newMessages (fun s => annularRingVia H mOptions tol tht netsegment s via)).length ≤ 1 ∧
    ((newMessages (fun s => annularRingVia H mOptions tol tht netsegment s via)).length = 1 ↔
      ∃ areas, viaRequiredAreas H mOptions tol via = some areas ∧
        G.flattenTree (H.subtractToTree areas tht) ≠ []) ∧
    (∀ areas, viaRequiredAreas H mOptions tol via = some areas →
      G.flattenTree (H.subtractToTree areas tht) = [] →
      newMessages (fun s => annularRingVia H mOptions tol tht netsegment s via) = []) ∧
    (checkMinimumPthAnnularRing H mBoard mOptions tol progressStart progressEnd this).mMessages
      = this.mMessages
        ++ mBoard.netSegments.flatMap
            (fun netsegment => netsegment.vias.flatMap
              (fun via => newMessages
                (fun s => annularRingVia H mOptions tol
                  (H.treeToPaths (H.intersectAll
                    ((mBoard.layers.filter fun l => l.isCopperLayer && l.isEnabled).map
                      (fun l => (getCopperPaths l [] this).1))))
                  netsegment s via)))
        ++ mBoard.devices.flatMap
            (fun device => device.pads.flatMap
              (fun pad => newMessages
                (fun s => annularRingPad H mOptions tol
                  (H.treeToPaths (H.intersectAll
                    ((mBoard.layers.filter fun l => l.isCopperLayer && l.isEnabled).map
                      (fun l => (getCopperPaths l [] this).1))))
                  s pad))) := by
  have hlen := annularRingVia_length H mOptions tol tht netsegment via
  refine ⟨annularRingVia_mMessages H mOptions tol tht netsegment this via, hlen.1, hlen.2,
    ?_, checkMinimumPthAnnularRing_mMessages H mBoard mOptions tol progressStart
      progressEnd this⟩
  intro areas ha hcov
  have hne : ¬ (newMessages
      (fun s => annularRingVia H mOptions tol tht netsegment s via)).length = 1 := by
    rw [hlen.2]
    rintro ⟨areas', ha', hne'⟩
    rw [ha] at ha'
    cases ha'
    exact hne' hcov
  have hle := hlen.1
  exact List.length_eq_zero.mp (by omega)

end LibrePCB

namespace LibrePCB
open BoardDesignRuleCheck

theorem length_flatMap_le_length {α β : Type} (g : α → List β)
    (h : ∀ x, (g x).length ≤ 1) (l : List α) : (l.flatMap g).length ≤ l.length := by
  induction l with
  | nil => simp
  | cons x l ih =>
    rw [List.flatMap_cons, List.length_append, List.length_cons]
    have := h x
    omega

theorem length_flatMap_le_sum {α β : Type} (g : α → List β) (c : α → Nat)
    (h : ∀ x, (g x).length ≤ c x) (l : List α) :
    (l.flatMap g).length ≤ (l.map c).sum := by
  induction l with
  | nil => simp
  | cons x l ih =>
    rw [List.flatMap_cons, List.length_append, List.map_cons, List.sum_cons]
    have := h x
    omega

theorem flatMap_eq_nil_of_forall {α β : Type} (g : α → List β) (l : List α)
    (h : ∀ x ∈ l, g x = []) : l.flatMap g = [] := by
  induction l with
  | nil => rfl
  | cons x l ih =>
    rw [List.flatMap_cons, h x (List.mem_cons_self x l),
      ih (fun y hy => h y (List.mem_cons_of_mem x hy))]
    rfl

theorem checkMinimumPthAnnularRing_length_le {G : Geometry} (H : Helpers G)
    (mBoard : Board G) (mOptions : Options) (tol : PositiveLength)
    (progressStart progressEnd : Int) (this : BoardDesignRuleCheck G) :
    (checkMinimumPthAnnularRing H mBoard mOptions tol progressStart
        progressEnd this).mMessages.length
      ≤ this.mMessages.length
        + (mBoard.netSegments.map fun netsegment => netsegment.vias.length).sum
        + (mBoard.devices.map fun device => device.pads.length).sum := by
  rw [checkMinimumPthAnnularRing_mMessages, List.length_append, List.length_append]
  have h1 := length_flatMap_le_sum
    (fun (netsegment : NetSegment) => netsegment.vias.flatMap
      (fun via => newMessages
        (fun s => annularRingVia H mOptions tol
          (H.treeToPaths (H.intersectAll
            ((mBoard.layers.filter fun l => l.isCopperLayer && l.isEnabled).map
              (fun l => (getCopperPaths l [] this).1))))
          netsegment s via)))
    (fun netsegment => netsegment.vias.length)
    (fun netsegment => length_flatMap_le_length _
      (fun via => (annularRingVia_length H mOptions tol _ netsegment via).1) _)
    mBoard.netSegments
  have h2 := length_flatMap_le_sum
    (fun (device : Device G) => device.pads.flatMap
      (fun pad => newMessages
        (fun s => annularRingPad H mOptions tol
          (H.treeToPaths (H.intersectAll
            ((mBoard.layers.filter fun l => l.isCopperLayer && l.isEnabled).map
              (fun l => (getCopperPaths l [] this).1))))
          s pad)))
    (fun device => device.pads.length)
    (fun device => length_flatMap_le_length _
      (fun pad => annularRingPad_length H mOptions tol _ pad) _)
    mBoard.devices
  omega

/-- C16: the annular ring pass appends at most one message per via and one
per pad, and its messages do not depend on the non-plated holes (the holes of
the board and of the footprints); so on a board without vias and pads whose
only hole is a non-plated hole that is no slot and has a diameter below
`minNpthDrillDiameter`, the drill diameter pass appends exactly one message and
the annular ring pass appends none. -/
theorem npth_hole_drill_violation_without_annular_ring {G : Geometry} (H : Helpers G)
    (mBoard : Board G) (mOptions : Options) (tol : PositiveLength)
    (progressStart progressEnd : Int) (this : BoardDesignRuleCheck G) (hole : Hole G)
    (hholes : mBoard.holes = [hole])
    (hfoot : ∀ device ∈ mBoard.devices, device.holes = [])
    (hvias : ∀ netsegment ∈ mBoard.netSegments, netsegment.vias = [])
    (hpads : ∀ device ∈ mBoard.devices, device.pads = [])
    (hslot : hole.isSlot = false)
    (hdia : hole.diameter.value < mOptions.minNpthDrillDiameter.value) :
    (∀ (board : Board G) (s : BoardDesignRuleCheck G),
      (checkMinimumPthAnnularRing H board mOptions tol progressStart
          progressEnd s).mMessages.length
        ≤ s.mMessages.length
          + (board.netSegments.map fun netsegment => netsegment.vias.length).sum
          + (board.devices.map fun device => device.pads.length).sum) ∧
    (∀ (board : Board G) (holes : List (Hole G)) (footprintHoles : Device G → List (Hole G))
        (s : BoardDesignRuleCheck G),
      (checkMinimumPthAnnularRing H
          { board with
            holes := holes
            devices := board.devices.map fun device =>
              { device with holes := footprintHoles device } }
          mOptions tol progressStart progressEnd s).mMessages
        = (checkMinimumPthAnnularRing H board mOptions tol progressStart
            progressEnd s).mMessages) ∧
    (∃ m, (checkMinimumNpthDrillDiameter H mBoard mOptions progressStart
        progressEnd this).mMessages = this.mMessages ++ [m]) ∧
    (checkMinimumPthAnnularRing H mBoard mOptions tol progressStart
        progressEnd this).mMessages = this.mMessages := by
  refine ⟨fun board s => checkMinimumPthAnnularRing_length_le H board mOptions tol
    progressStart progressEnd s, ?_, ?_, ?_⟩
  · intro board holes footprintHoles s
    rw [checkMinimumPthAnnularRing_mMessages, checkMinimumPthAnnularRing_mMessages]
    simp only [List.flatMap_map]
  · rw [checkMinimumNpthDrillDiameter_mMessages, hholes,
      flatMap_eq_nil_of_forall _ mBoard.devices
        (fun device hd => by rw [hfoot device hd]; rfl)]
    have hlen := npthDrillHole_length H mOptions Transform.identity hole
    rw [if_pos ⟨hslot, hdia⟩] at hlen
    obtain ⟨m, hm⟩ := List.length_eq_one.mp hlen
    exact ⟨m, by simp [hm]⟩
  · rw [checkMinimumPthAnnularRing_mMessages,
      flatMap_eq_nil_of_forall _ mBoard.netSegments
        (fun netsegment hs => by rw [hvias netsegment hs]; rfl),
      flatMap_eq_nil_of_forall _ mBoard.devices
        (fun device hd => by rw [hpads device hd]; rfl)]
    simp

/-- Witness of C16: the board whose only hole is a round non-plated hole of
0.2 mm, with `minNpthDrillDiameter` 0.25 mm. -/
theorem npth_hole_drill_violation_without_annular_ring_witness :
    oneHoleBoard.holes = [narrowHole] ∧
    (∃ m, (checkMinimumNpthDrillDiameter lineHelpers oneHoleBoard exampleOptions 74 76
        ({} : BoardDesignRuleCheck lineGeometry)).mMessages
      = ({} : BoardDesignRuleCheck lineGeometry).mMessages ++ [m]) ∧
    (checkMinimumPthAnnularRing lineHelpers oneHoleBoard exampleOptions exampleTolerance 74 76
        ({} : BoardDesignRuleCheck lineGeometry)).mMessages
      = ({} : BoardDesignRuleCheck lineGeometry).mMessages :=
  have h := npth_hole_drill_violation_without_annular_ring lineHelpers oneHoleBoard
    exampleOptions exampleTolerance 74 76 {} narrowHole rfl
    (fun _ hd => nomatch hd) (fun _ hs => nomatch hs) (fun _ hd => nomatch hd) rfl
    (by decide)
  ⟨rfl, h.2.2⟩

end LibrePCB

namespace LibrePCB
open BoardDesignRuleCheck

/-! ## BoardDesignRuleCheck: copper clearance just below the minimum -/

theorem foldl_emitMessage_mMessages {G : Geometry} {α : Type}
    (m : α → BoardDesignRuleCheckMessage G.Path) (l : List α) (s : BoardDesignRuleCheck G) :
    (l.foldl (fun s x => emitMessage (m x) s) s).mMessages = s.mMessages ++ l.map m := by
  induction l generalizing s with
  | nil => simp
  | cons x l ih =>
    rw [List.foldl_cons, ih, emitMessage_mMessages, List.map_cons, List.append_assoc]
    rfl

theorem copperCopperPair_mMessages {G : Geometry} (mOptions : Options)
    (tol : PositiveLength) (layer : GraphicsLayer) (netsignals : List (Option NetSignal))
    (i k : Nat) (paths1 : List G.ClipperPath) (this : BoardDesignRuleCheck G) :
    ∃ new, (copperCopperPair mOptions tol layer netsignals i paths1 this k).mMessages
        = this.mMessages ++ new ∧
      new.length = (G.flattenTree (G.intersect paths1
        (G.offset (getCopperPaths layer [netsignals.getD k none] this).1
          (copperCopperOffset mOptions tol) tol))).length := by
  unfold copperCopperPair
  simp only
  rw [foldl_emitMessage_mMessages, getCopperPaths_snd_mMessages]
  exact ⟨_, rfl, by simp⟩

theorem two_mul_tdiv_two_ge (x : Int) (hx : 0 ≤ x) : x - 1 ≤ 2 * x.tdiv 2 := by
  rw [Int.tdiv_eq_ediv hx (by decide)]
  omega

/-- C11, counterexample: on the board in one dimension the nets `A` and `B`
are at a gap of 0.2 mm; with a minimum copper clearance of 0.200001 mm (the gap
is the minimum minus one unit) and the tolerance 0.005 mm the copper clearance
pass appends no message, not one. -/
theorem copper_clearance_one_below_min_counterexample :
    lineGeometry.addCopper topCopper.name [some ⟨"A"⟩] = [(0, 100000)] ∧
    lineGeometry.addCopper topCopper.name [some ⟨"B"⟩] = [(300000, 400000)] ∧
    (300000 : Int) - 100000 = gapOptions.minCopperCopperClearance.value - 1 ∧
    (newMessages
      (checkCopperCopperClearances twoNetBoard gapOptions exampleTolerance 40 70)).length
        = 0 ∧
    ¬ (newMessages
      (checkCopperCopperClearances twoNetBoard gapOptions exampleTolerance 40 70)).length
        = 1 := by
  refine ⟨rfl, rfl, by decide, by decide, by decide⟩

end LibrePCB

namespace LibrePCB
open BoardDesignRuleCheck

theorem two_mul_tdiv_two_ge_sub_one (x : Int) : x - 1 ≤ 2 * x.tdiv 2 := by
  rcases le_or_lt 0 x with h | h
  · exact two_mul_tdiv_two_ge x h
  · have hneg : x.tdiv 2 = -((-x).tdiv 2) := by rw [Int.neg_tdiv, neg_neg]
    rw [hneg, Int.tdiv_eq_ediv (by omega) (by decide)]
    omega

/-- C11, amended: in the idealised model (the grown copper of entry `i` and
of entry `k` overlap if and only if the gap is less than the sum of the two
offsets) the step of the copper clearance pass for the pair appends one message
for each region of the overlap, and it appends a message if and only if the
gap is less than twice `(minCopperCopperClearance - tolerance) / 2`; so a gap
of at most `minCopperCopperClearance - tolerance - 2` is reported (with exactly
one message when the overlap is a single region), and a gap of exactly
`minCopperCopperClearance - 1` is not reported, for every positive
tolerance. -/
theorem copper_clearance_iff_gap_below_twice_offset (G : Geometry) (mOptions : Options)
    (maxArcTolerance : PositiveLength) (layer : GraphicsLayer)
    (netsignals : List (Option NetSignal)) (i k : Nat) (copper1 : List G.ClipperPath)
    (this : BoardDesignRuleCheck G) (gap : Int)
    (hideal :
      G.flattenTree (G.intersect
        (G.offset copper1 (copperCopperOffset mOptions maxArcTolerance) maxArcTolerance)
        (G.offset (getCopperPaths layer [netsignals.getD k none] this).1
          (copperCopperOffset mOptions maxArcTolerance) maxArcTolerance)) ≠ [] ↔
      gap < copperCopperOffset mOptions maxArcTolerance
        + copperCopperOffset mOptions maxArcTolerance) :
    (∃ new, (copperCopperPair mOptions maxArcTolerance layer netsignals i
          (G.offset copper1 (copperCopperOffset mOptions maxArcTolerance) maxArcTolerance)
          this k).mMessages = this.mMessages ++ new ∧
        new.length = (G.flattenTree (G.intersect
          (G.offset copper1 (copperCopperOffset mOptions maxArcTolerance) maxArcTolerance)
          (G.offset (getCopperPaths layer [netsignals.getD k none] this).1
            (copperCopperOffset mOptions maxArcTolerance) maxArcTolerance))).length) ∧
    ((copperCopperPair mOptions maxArcTolerance layer netsignals i
          (G.offset copper1 (copperCopperOffset mOptions maxArcTolerance) maxArcTolerance)
          this k).mMessages ≠ this.mMessages ↔
      gap < 2 * (mOptions.minCopperCopperClearance.value - maxArcTolerance.value).tdiv 2) ∧
    (gap + 2 ≤ mOptions.minCopperCopperClearance.value - maxArcTolerance.value →
      (copperCopperPair mOptions maxArcTolerance layer netsignals i
          (G.offset copper1 (copperCopperOffset mOptions maxArcTolerance) maxArcTolerance)
          this k).mMessages ≠ this.mMessages) ∧
    (0 < mOptions.minCopperCopperClearance.value →
      gap = mOptions.minCopperCopperClearance.value - 1 →
      (copperCopperPair mOptions maxArcTolerance layer netsignals i
          (G.offset copper1 (copperCopperOffset mOptions maxArcTolerance) maxArcTolerance)
          this k).mMessages = this.mMessages) ∧
    (∀ path,
      G.flattenTree (G.intersect
        (G.offset copper1 (copperCopperOffset mOptions maxArcTolerance) maxArcTolerance)
        (G.offset (getCopperPaths layer [netsignals.getD k none] this).1
          (copperCopperOffset mOptions maxArcTolerance) maxArcTolerance)) = [path] →
      ∃ m, (copperCopperPair mOptions maxArcTolerance layer netsignals i
          (G.offset copper1 (copperCopperOffset mOptions maxArcTolerance) maxArcTolerance)
          this k).mMessages = this.mMessages ++ [m]) := by
  obtain ⟨new, hnew, hlen⟩ := copperCopperPair_mMessages mOptions maxArcTolerance layer
    netsignals i
    (G.offset copper1 (copperCopperOffset mOptions maxArcTolerance) maxArcTolerance) this (k := k)
  have hoff : copperCopperOffset mOptions maxArcTolerance
      + copperCopperOffset mOptions maxArcTolerance
      = 2 * (mOptions.minCopperCopperClearance.value - maxArcTolerance.value).tdiv 2 := by
    unfold copperCopperOffset
    ring
  have hne : (copperCopperPair mOptions maxArcTolerance layer netsignals i
        (G.offset copper1 (copperCopperOffset mOptions maxArcTolerance) maxArcTolerance)
        this k).mMessages ≠ this.mMessages ↔
      gap < 2 * (mOptions.minCopperCopperClearance.value - maxArcTolerance.value).tdiv 2 := by
    rw [← hoff, ← hideal, hnew]
    constructor
    · intro h hnil
      apply h
      have : new = [] := List.length_eq_zero.mp (by rw [hlen, hnil]; rfl)
      rw [this, List.append_nil]
    · intro h heq
      apply h
      have hn : new = [] := by
        have := congrArg List.length heq
        rw [List.length_append] at this
        exact List.length_eq_zero.mp (by omega)
      exact List.length_eq_zero.mp (by rw [← hlen, hn]; rfl)
  have hge := two_mul_tdiv_two_ge_sub_one
    (mOptions.minCopperCopperClearance.value - maxArcTolerance.value)
  have hle := two_mul_tdiv_two_le
    (mOptions.minCopperCopperClearance.value - maxArcTolerance.value)
  have htol : (0 : Int) + 1 ≤ maxArcTolerance.value :=
    Int.lt_iff_add_one_le.mp maxArcTolerance.pos
  refine ⟨⟨new, hnew, hlen⟩, hne, ?_, ?_, ?_⟩
  · intro hgap
    apply hne.mpr
    linarith
  · intro hpos hgap
    have hpos1 : (0 : Int) + 1 ≤ mOptions.minCopperCopperClearance.value :=
      Int.lt_iff_add_one_le.mp hpos
    by_contra hcon
    have hlt := hne.mp hcon
    have hmax : max (mOptions.minCopperCopperClearance.value - maxArcTolerance.value) 0
        ≤ mOptions.minCopperCopperClearance.value - 1 := by
      apply max_le
      · linarith
      · linarith
    linarith
  · intro path hpath
    rw [hpath] at hlen
    obtain ⟨m, hm⟩ := List.length_eq_one.mp hlen
    exact ⟨m, by rw [hnew, hm]⟩

/-- Witness of C11 amended: the nets `A` and `B` of the board in one
dimension at the gap 0.2 mm, with a minimum clearance of 0.200001 mm and the
tolerance 0.005 mm: the offset is 0.0975 mm and nothing is reported. -/
theorem copper_clearance_iff_gap_below_twice_offset_witness :
    (lineGeometry.flattenTree (lineGeometry.intersect
        (lineGeometry.offset [(0, 100000)] (copperCopperOffset gapOptions exampleTolerance)
          exampleTolerance)
        (lineGeometry.offset
          (getCopperPaths topCopper [exampleNets.getD 1 none]
            ({} : BoardDesignRuleCheck lineGeometry)).1
          (copperCopperOffset gapOptions exampleTolerance) exampleTolerance)) ≠ [] ↔
      (200000 : Int) < copperCopperOffset gapOptions exampleTolerance
        + copperCopperOffset gapOptions exampleTolerance) ∧
    (0 < gapOptions.minCopperCopperClearance.value →
      (200000 : Int) = gapOptions.minCopperCopperClearance.value - 1 →
      (copperCopperPair gapOptions exampleTolerance topCopper exampleNets 0
          (lineGeometry.offset [(0, 100000)] (copperCopperOffset gapOptions exampleTolerance)
            exampleTolerance)
          ({} : BoardDesignRuleCheck lineGeometry) 1).mMessages
        = ({} : BoardDesignRuleCheck lineGeometry).mMessages) :=
  have hideal :
      (lineGeometry.flattenTree (lineGeometry.intersect
        (lineGeometry.offset [(0, 100000)] (copperCopperOffset gapOptions exampleTolerance)
          exampleTolerance)
        (lineGeometry.offset
          (getCopperPaths topCopper [exampleNets.getD 1 none]
            ({} : BoardDesignRuleCheck lineGeometry)).1
          (copperCopperOffset gapOptions exampleTolerance) exampleTolerance)) ≠ [] ↔
      (200000 : Int) < copperCopperOffset gapOptions exampleTolerance
        + copperCopperOffset gapOptions exampleTolerance) :=
    ⟨fun h => absurd rfl h, fun h => absurd h (by decide)⟩
  ⟨hideal, (copper_clearance_iff_gap_below_twice_offset lineGeometry gapOptions
    exampleTolerance topCopper exampleNets 0 1 [(0, 100000)] {} 200000 hideal).2.2.2.1⟩

end LibrePCB

namespace LibrePCB
open BoardDesignRuleCheck

/-! ## BoardDesignRuleCheck: the signals emitted by the passes -/

theorem emitsOnly_refl {G : Geometry} (Q : Signal → Prop) (s : BoardDesignRuleCheck G) :
    EmitsOnly Q s s :=
  ⟨[], by simp, by simp⟩

theorem emitsOnly_trans {G : Geometry} {Q : Signal → Prop} {a b c : BoardDesignRuleCheck G}
    (h1 : EmitsOnly Q a b) (h2 : EmitsOnly Q b c) : EmitsOnly Q a c := by
  obtain ⟨n1, e1, q1⟩ := h1
  obtain ⟨n2, e2, q2⟩ := h2
  refine ⟨n1 ++ n2, by rw [e2, e1, List.append_assoc], ?_⟩
  intro s hs
  rcases List.mem_append.mp hs with h | h
  · exact q1 s h
  · exact q2 s h

theorem emitsOnly_of_eq {G : Geometry} {Q : Signal → Prop} {a b c : BoardDesignRuleCheck G}
    (h : EmitsOnly Q a b) (hc : c.emitted = b.emitted) : EmitsOnly Q a c := by
  obtain ⟨n, e, q⟩ := h
  exact ⟨n, by rw [hc, e], q⟩

theorem emitsOnly_snoc {G : Geometry} {Q : Signal → Prop} {a b c : BoardDesignRuleCheck G}
    (h : EmitsOnly Q a b) (sig : Signal) (hq : Q sig) (hc : c.emitted = b.emitted ++ [sig]) :
    EmitsOnly Q a c := by
  obtain ⟨n, e, q⟩ := h
  refine ⟨n ++ [sig], by rw [hc, e, List.append_assoc], ?_⟩
  intro s hs
  rcases List.mem_append.mp hs with h | h
  · exact q s h
  · rw [List.mem_singleton.mp h]
    exact hq

theorem emitsOnly_emitStatus {G : Geometry} {Q : Signal → Prop}
    {a b : BoardDesignRuleCheck G} (h : EmitsOnly Q a b) (status : String)
    (hs : ∀ st, Q (Signal.progressStatus st)) :
    EmitsOnly Q a (BoardDesignRuleCheck.emitStatus status b) :=
  emitsOnly_snoc h _ (hs status) rfl

theorem emitsOnly_emitMessage {G : Geometry} {Q : Signal → Prop}
    {a b : BoardDesignRuleCheck G} (h : EmitsOnly Q a b)
    (msg : BoardDesignRuleCheckMessage G.Path) (hm : ∀ m, Q (Signal.progressMessage m)) :
    EmitsOnly Q a (BoardDesignRuleCheck.emitMessage msg b) :=
  emitsOnly_snoc h _ (hm msg.message) rfl

theorem emitsOnly_emitProgressPercent {G : Geometry} {Q : Signal → Prop}
    {a b : BoardDesignRuleCheck G} (h : EmitsOnly Q a b) (p : Int)
    (hp : Q (Signal.progressPercent p)) :
    EmitsOnly Q a (BoardDesignRuleCheck.emitProgressPercent p b) :=
  emitsOnly_snoc h _ hp rfl

theorem emitsOnly_getCopperPaths {G : Geometry} {Q : Signal → Prop}
    {a b : BoardDesignRuleCheck G} (h : EmitsOnly Q a b) (layer : GraphicsLayer)
    (netsignals : List (Option NetSignal)) :
    EmitsOnly Q a (BoardDesignRuleCheck.getCopperPaths layer netsignals b).2 :=
  emitsOnly_of_eq h (getCopperPaths_snd_emitted layer netsignals b)

theorem emitsOnly_foldl {G : Geometry} {Q : Signal → Prop} {α : Type}
    {a b : BoardDesignRuleCheck G} (h : EmitsOnly Q a b)
    (f : BoardDesignRuleCheck G → α → BoardDesignRuleCheck G) (l : List α)
    (hf : ∀ s x, x ∈ l → EmitsOnly Q s (f s x)) :
    EmitsOnly Q a (l.foldl f b) := by
  induction l generalizing b with
  | nil => exact h
  | cons x l ih =>
    rw [List.foldl_cons]
    exact ih (emitsOnly_trans h (hf b x (List.mem_cons_self x l)))
      (fun s y hy => hf s y (List.mem_cons_of_mem x hy))

theorem emitsOnly_foldl_emitMessage {G : Geometry} {Q : Signal → Prop} {α : Type}
    {a b : BoardDesignRuleCheck G} (h : EmitsOnly Q a b)
    (m : α → BoardDesignRuleCheckMessage G.Path) (l : List α)
    (hm : ∀ m, Q (Signal.progressMessage m)) :
    EmitsOnly Q a (l.foldl (fun s x => BoardDesignRuleCheck.emitMessage (m x) s) b) :=
  emitsOnly_foldl h _ l (fun s x _ => emitsOnly_emitMessage (emitsOnly_refl Q s) (m x) hm)

end LibrePCB

namespace LibrePCB
open BoardDesignRuleCheck

theorem emitsOnly_copperWidthText {G : Geometry} {Q : Signal → Prop} (H : Helpers G)
    (mBoard : Board G) (mOptions : Options) (hm : ∀ m, Q (Signal.progressMessage m))
    (s : BoardDesignRuleCheck G) (text : StrokeText G) :
    EmitsOnly Q s (copperWidthText H mBoard mOptions s text) := by
  unfold copperWidthText
  repeat' split
  all_goals
    first
      | exact emitsOnly_refl Q s
      | exact emitsOnly_emitMessage (emitsOnly_refl Q s) _ hm

theorem emitsOnly_copperWidthPlane {G : Geometry} {Q : Signal → Prop} (H : Helpers G)
    (mBoard : Board G) (mOptions : Options) (hm : ∀ m, Q (Signal.progressMessage m))
    (s : BoardDesignRuleCheck G) (plane : Plane G) :
    EmitsOnly Q s (copperWidthPlane H mBoard mOptions s plane) := by
  unfold copperWidthPlane
  repeat' split
  all_goals
    first
      | exact emitsOnly_refl Q s
      | exact emitsOnly_emitMessage (emitsOnly_refl Q s) _ hm

theorem emitsOnly_copperWidthNetLine {G : Geometry} {Q : Signal → Prop} (H : Helpers G)
    (mOptions : Options) (hm : ∀ m, Q (Signal.progressMessage m))
    (s : BoardDesignRuleCheck G) (netline : NetLine) :
    EmitsOnly Q s (copperWidthNetLine H mOptions s netline) := by
  unfold copperWidthNetLine
  repeat' split
  all_goals
    first
      | exact emitsOnly_refl Q s
      | exact emitsOnly_emitMessage (emitsOnly_refl Q s) _ hm

theorem emitsOnly_annularRingVia {G : Geometry} {Q : Signal → Prop} (H : Helpers G)
    (mOptions : Options) (tol : PositiveLength) (tht : List G.ClipperPath)
    (netsegment : NetSegment) (hm : ∀ m, Q (Signal.progressMessage m))
    (s : BoardDesignRuleCheck G) (via : Via) :
    EmitsOnly Q s (annularRingVia H mOptions tol tht netsegment s via) := by
  unfold annularRingVia
  split
  · exact emitsOnly_refl Q s
  · dsimp only
    split
    · exact emitsOnly_emitMessage (emitsOnly_refl Q s) _ hm
    · exact emitsOnly_refl Q s

theorem emitsOnly_annularRingPad {G : Geometry} {Q : Signal → Prop} (H : Helpers G)
    (mOptions : Options) (tol : PositiveLength) (tht : List G.ClipperPath)
    (hm : ∀ m, Q (Signal.progressMessage m))
    (s : BoardDesignRuleCheck G) (pad : FootprintPad G) :
    EmitsOnly Q s (annularRingPad H mOptions tol tht s pad) := by
  unfold annularRingPad
  dsimp only
  split
  · exact emitsOnly_emitMessage (emitsOnly_refl Q s) _ hm
  · exact emitsOnly_refl Q s

theorem emitsOnly_npthDrillHole {G : Geometry} {Q : Signal → Prop} (H : Helpers G)
    (mOptions : Options) (t : Transform) (hm : ∀ m, Q (Signal.progressMessage m))
    (s : BoardDesignRuleCheck G) (hole : Hole G) :
    EmitsOnly Q s (npthDrillHole H mOptions t s hole) := by
  unfold npthDrillHole
  repeat' split
  all_goals
    first
      | exact emitsOnly_refl Q s
      | exact emitsOnly_emitMessage (emitsOnly_refl Q s) _ hm

theorem emitsOnly_npthSlotHole {G : Geometry} {Q : Signal → Prop} (H : Helpers G)
    (mOptions : Options) (t : Transform) (hm : ∀ m, Q (Signal.progressMessage m))
    (s : BoardDesignRuleCheck G) (hole : Hole G) :
    EmitsOnly Q s (npthSlotHole H mOptions t s hole) := by
  unfold npthSlotHole
  repeat' split
  all_goals
    first
      | exact emitsOnly_refl Q s
      | exact emitsOnly_emitMessage (emitsOnly_refl Q s) _ hm

theorem emitsOnly_pthDrillVia {G : Geometry} {Q : Signal → Prop} (H : Helpers G)
    (mOptions : Options) (netsegment : NetSegment) (hm : ∀ m, Q (Signal.progressMessage m))
    (s : BoardDesignRuleCheck G) (via : Via) :
    EmitsOnly Q s (pthDrillVia H mOptions netsegment s via) := by
  unfold pthDrillVia
  repeat' split
  all_goals
    first
      | exact emitsOnly_refl Q s
      | exact emitsOnly_emitMessage (emitsOnly_refl Q s) _ hm

theorem emitsOnly_pthDrillPadHole {G : Geometry} {Q : Signal → Prop} (H : Helpers G)
    (mOptions : Options) (pad : FootprintPad G) (hm : ∀ m, Q (Signal.progressMessage m))
    (s : BoardDesignRuleCheck G) (hole : Hole G) :
    EmitsOnly Q s (pthDrillPadHole H mOptions pad s hole) := by
  unfold pthDrillPadHole
  repeat' split
  all_goals
    first
      | exact emitsOnly_refl Q s
      | exact emitsOnly_emitMessage (emitsOnly_refl Q s) _ hm

theorem emitsOnly_pthSlotPadHole {G : Geometry} {Q : Signal → Prop} (H : Helpers G)
    (mOptions : Options) (t1 t2 : Transform) (hm : ∀ m, Q (Signal.progressMessage m))
    (s : BoardDesignRuleCheck G) (hole : Hole G) :
    EmitsOnly Q s (pthSlotPadHole H mOptions t1 t2 s hole) := by
  unfold pthSlotPadHole
  repeat' split
  all_goals
    first
      | exact emitsOnly_refl Q s
      | exact emitsOnly_emitMessage (emitsOnly_refl Q s) _ hm

theorem emitsOnly_processHoleSlotWarning {G : Geometry} {Q : Signal → Prop} (H : Helpers G)
    (hole : Hole G) (level : SlotsWarningLevel) (t1 t2 : Transform)
    (hm : ∀ m, Q (Signal.progressMessage m)) (s : BoardDesignRuleCheck G) :
    EmitsOnly Q s (processHoleSlotWarning H hole level t1 t2 s) := by
  unfold processHoleSlotWarning
  repeat' split
  all_goals
    first
      | exact emitsOnly_refl Q s
      | exact emitsOnly_emitMessage (emitsOnly_refl Q s) _ hm

theorem emitsOnly_courtyardPair {G : Geometry} {Q : Signal → Prop} (layer : GraphicsLayer)
    (deviceCourtyards : List (Device G × List G.ClipperPath)) (i : Nat)
    (hm : ∀ m, Q (Signal.progressMessage m)) (s : BoardDesignRuleCheck G) (k : Nat) :
    EmitsOnly Q s (courtyardPair layer deviceCourtyards i s k) := by
  unfold courtyardPair
  split
  · exact emitsOnly_foldl_emitMessage (emitsOnly_refl Q s) _ _ hm
  · exact emitsOnly_refl Q s

theorem emitsOnly_copperCopperPair {G : Geometry} {Q : Signal → Prop} (mOptions : Options)
    (tol : PositiveLength) (layer : GraphicsLayer) (netsignals : List (Option NetSignal))
    (i : Nat) (paths1 : List G.ClipperPath) (hm : ∀ m, Q (Signal.progressMessage m))
    (s : BoardDesignRuleCheck G) (k : Nat) :
    EmitsOnly Q s (copperCopperPair mOptions tol layer netsignals i paths1 s k) := by
  unfold copperCopperPair
  exact emitsOnly_foldl_emitMessage (emitsOnly_getCopperPaths (emitsOnly_refl Q s) _ _) _ _ hm

theorem emitsOnly_copperCopperNet {G : Geometry} {Q : Signal → Prop} (mOptions : Options)
    (tol : PositiveLength) (progressStart progressSpan : Int) (layerCount layerIndex : Nat)
    (layer : GraphicsLayer) (netsignals : List (Option NetSignal))
    (hm : ∀ m, Q (Signal.progressMessage m)) (s : BoardDesignRuleCheck G) (i : Nat)
    (hp : Q (Signal.progressPercent
      (progressStart + layerNetProgress progressSpan layerCount layerIndex
        netsignals.length i))) :
    EmitsOnly Q s (copperCopperNet mOptions tol progressStart progressSpan layerCount
      layerIndex layer netsignals s i) := by
  unfold copperCopperNet
  exact emitsOnly_emitProgressPercent
    (emitsOnly_foldl (emitsOnly_getCopperPaths (emitsOnly_refl Q s) _ _) _ _
      (fun s k _ => emitsOnly_copperCopperPair mOptions tol layer netsignals i _ hm s k))
    _ hp

theorem emitsOnly_copperBoardNet {G : Geometry} {Q : Signal → Prop}
    (restrictedArea : List G.ClipperPath)
    (progressStart progressSpan : Int) (layerCount layerIndex : Nat)
    (layer : GraphicsLayer) (netsignals : List (Option NetSignal))
    (hm : ∀ m, Q (Signal.progressMessage m)) (s : BoardDesignRuleCheck G) (i : Nat)
    (hp : Q (Signal.progressPercent
      (progressStart + layerNetProgress progressSpan layerCount layerIndex
        netsignals.length i))) :
    EmitsOnly Q s (copperBoardNet restrictedArea progressStart progressSpan layerCount
      layerIndex layer netsignals s i) := by
  unfold copperBoardNet
  exact emitsOnly_emitProgressPercent
    (emitsOnly_foldl_emitMessage (emitsOnly_getCopperPaths (emitsOnly_refl Q s) _ _) _ _ hm)
    _ hp

end LibrePCB

namespace LibrePCB
open BoardDesignRuleCheck

theorem emitsOnly_rebuildPlanes {G : Geometry} {Q : Signal → Prop}
    (progressStart progressEnd : Int) (hs : ∀ st, Q (Signal.progressStatus st))
    (hp : Q (Signal.progressPercent progressEnd)) (this : BoardDesignRuleCheck G) :
    EmitsOnly Q this (rebuildPlanes progressStart progressEnd this) := by
  unfold rebuildPlanes
  exact emitsOnly_emitProgressPercent
    (emitsOnly_of_eq (emitsOnly_emitStatus (emitsOnly_refl Q this) _ hs) rfl) _ hp

theorem emitsOnly_checkForMissingConnections {G : Geometry} {Q : Signal → Prop}
    (H : Helpers G) (mBoard : Board G) (progressStart progressEnd : Int)
    (hs : ∀ st, Q (Signal.progressStatus st)) (hm : ∀ m, Q (Signal.progressMessage m))
    (hp : Q (Signal.progressPercent progressEnd)) (this : BoardDesignRuleCheck G) :
    EmitsOnly Q this (checkForMissingConnections H mBoard progressStart progressEnd this) := by
  unfold checkForMissingConnections
  refine emitsOnly_emitProgressPercent ?_ _ hp
  refine emitsOnly_foldl ?_ _ _
    (fun s airwire _ => emitsOnly_emitMessage (emitsOnly_refl Q s) _ hm)
  exact emitsOnly_of_eq (emitsOnly_emitStatus (emitsOnly_refl Q this) _ hs) rfl

theorem emitsOnly_checkCopperBoardClearances {G : Geometry} {Q : Signal → Prop}
    (H : Helpers G) (mBoard : Board G) (mOptions : Options) (tol : PositiveLength)
    (progressStart progressEnd : Int)
    (hs : ∀ st, Q (Signal.progressStatus st)) (hm : ∀ m, Q (Signal.progressMessage m))
    (hp : ∀ layerIndex i, layerIndex < mBoard.layers.length →
      i < (mBoard.netSignals.map some ++ [none]).length →
      Q (Signal.progressPercent
        (progressStart + layerNetProgress (progressEnd - progressStart) mBoard.layers.length
          layerIndex (mBoard.netSignals.map some ++ [none]).length i)))
    (this : BoardDesignRuleCheck G) :
    EmitsOnly Q this
      (checkCopperBoardClearances H mBoard mOptions tol progressStart progressEnd this) := by
  unfold checkCopperBoardClearances
  refine emitsOnly_foldl (emitsOnly_emitStatus (emitsOnly_refl Q this) _ hs) _ _ ?_
  intro s layerIndex hli
  have hli' : layerIndex < mBoard.layers.length := List.mem_range.mp hli
  split
  · exact emitsOnly_refl Q s
  · split
    · exact emitsOnly_refl Q s
    · refine emitsOnly_foldl (emitsOnly_refl Q s) _ _ ?_
      intro s' i hi
      exact emitsOnly_copperBoardNet _ _ _ _ _ _ _ hm s' i
        (hp layerIndex i hli' (List.mem_range.mp hi))

theorem emitsOnly_checkCopperCopperClearances {G : Geometry} {Q : Signal → Prop}
    (mBoard : Board G) (mOptions : Options) (tol : PositiveLength)
    (progressStart progressEnd : Int)
    (hs : ∀ st, Q (Signal.progressStatus st)) (hm : ∀ m, Q (Signal.progressMessage m))
    (hp : ∀ layerIndex i, layerIndex < mBoard.layers.length →
      i < (mBoard.netSignals.map some ++ [none]).length →
      Q (Signal.progressPercent
        (progressStart + layerNetProgress (progressEnd - progressStart) mBoard.layers.length
          layerIndex (mBoard.netSignals.map some ++ [none]).length i)))
    (this : BoardDesignRuleCheck G) :
    EmitsOnly Q this
      (checkCopperCopperClearances mBoard mOptions tol progressStart progressEnd this) := by
  unfold checkCopperCopperClearances
  refine emitsOnly_foldl (emitsOnly_emitStatus (emitsOnly_refl Q this) _ hs) _ _ ?_
  intro s layerIndex hli
  have hli' : layerIndex < mBoard.layers.length := List.mem_range.mp hli
  split
  · exact emitsOnly_refl Q s
  · split
    · exact emitsOnly_refl Q s
    · refine emitsOnly_foldl (emitsOnly_refl Q s) _ _ ?_
      intro s' i hi
      exact emitsOnly_copperCopperNet _ _ _ _ _ _ _ _ hm s' i
        (hp layerIndex i hli' (List.mem_range.mp hi))

theorem emitsOnly_checkCourtyardClearances {G : Geometry} {Q : Signal → Prop}
    (H : Helpers G) (mBoard : Board G) (mOptions : Options) (tol : PositiveLength)
    (progressStart progressEnd : Int)
    (hs : ∀ st, Q (Signal.progressStatus st)) (hm : ∀ m, Q (Signal.progressMessage m))
    (hp : Q (Signal.progressPercent progressEnd)) (this : BoardDesignRuleCheck G) :
    EmitsOnly Q this
      (checkCourtyardClearances H mBoard mOptions tol progressStart progressEnd this) := by
  unfold checkCourtyardClearances
  refine emitsOnly_emitProgressPercent ?_ _ hp
  refine emitsOnly_foldl (emitsOnly_emitStatus (emitsOnly_refl Q this) _ hs) _ _ ?_
  intro s layer _
  refine emitsOnly_foldl (emitsOnly_refl Q s) _ _ ?_
  intro s' i _
  refine emitsOnly_foldl (emitsOnly_refl Q s') _ _ ?_
  intro s'' k _
  exact emitsOnly_courtyardPair layer _ i hm s'' k

theorem emitsOnly_checkMinimumCopperWidth {G : Geometry} {Q : Signal → Prop}
    (H : Helpers G) (mBoard : Board G) (mOptions : Options)
    (progressStart progressEnd : Int)
    (hs : ∀ st, Q (Signal.progressStatus st)) (hm : ∀ m, Q (Signal.progressMessage m))
    (hp : Q (Signal.progressPercent progressEnd)) (this : BoardDesignRuleCheck G) :
    EmitsOnly Q this
      (checkMinimumCopperWidth H mBoard mOptions progressStart progressEnd this) := by
  unfold checkMinimumCopperWidth
  refine emitsOnly_emitProgressPercent ?_ _ hp
  refine emitsOnly_foldl ?_ _ _
    (fun s netsegment _ => emitsOnly_foldl (emitsOnly_refl Q s) _ _
      (fun s netline _ => emitsOnly_copperWidthNetLine H mOptions hm s netline))
  refine emitsOnly_foldl ?_ _ _
    (fun s device _ => emitsOnly_foldl (emitsOnly_refl Q s) _ _
      (fun s text _ => emitsOnly_copperWidthText H mBoard mOptions hm s text))
  refine emitsOnly_foldl ?_ _ _
    (fun s plane _ => emitsOnly_copperWidthPlane H mBoard mOptions hm s plane)
  exact emitsOnly_foldl (emitsOnly_emitStatus (emitsOnly_refl Q this) _ hs) _ _
    (fun s text _ => emitsOnly_copperWidthText H mBoard mOptions hm s text)

theorem emitsOnly_checkMinimumPthAnnularRing {G : Geometry} {Q : Signal → Prop}
    (H : Helpers G) (mBoard : Board G) (mOptions : Options) (tol : PositiveLength)
    (progressStart progressEnd : Int)
    (hs : ∀ st, Q (Signal.progressStatus st)) (hm : ∀ m, Q (Signal.progressMessage m))
    (hp : Q (Signal.progressPercent progressEnd)) (this : BoardDesignRuleCheck G) :
    EmitsOnly Q this
      (checkMinimumPthAnnularRing H mBoard mOptions tol progressStart progressEnd this) := by
  unfold checkMinimumPthAnnularRing
  dsimp only
  refine emitsOnly_emitProgressPercent ?_ _ hp
  refine emitsOnly_foldl ?_ _ _
    (fun s device _ => emitsOnly_foldl (emitsOnly_refl Q s) _ _
      (fun s pad _ => emitsOnly_annularRingPad H mOptions tol _ hm s pad))
  refine emitsOnly_foldl ?_ _ _
    (fun s netsegment _ => emitsOnly_foldl (emitsOnly_refl Q s) _ _
      (fun s via _ => emitsOnly_annularRingVia H mOptions tol _ netsegment hm s via))
  exact emitsOnly_of_eq (emitsOnly_emitStatus (emitsOnly_refl Q this) _ hs)
    (thtCopperAreas_spec mBoard _).2.2

end LibrePCB

namespace LibrePCB
open BoardDesignRuleCheck

theorem emitsOnly_checkMinimumNpthDrillDiameter {G : Geometry} {Q : Signal → Prop}
    (H : Helpers G) (mBoard : Board G) (mOptions : Options)
    (progressStart progressEnd : Int)
    (hs : ∀ st, Q (Signal.progressStatus st)) (hm : ∀ m, Q (Signal.progressMessage m))
    (hp : Q (Signal.progressPercent progressEnd)) (this : BoardDesignRuleCheck G) :
    EmitsOnly Q this
      (checkMinimumNpthDrillDiameter H mBoard mOptions progressStart progressEnd this) := by
  unfold checkMinimumNpthDrillDiameter
  refine emitsOnly_emitProgressPercent ?_ _ hp
  refine emitsOnly_foldl ?_ _ _
    (fun s device _ => emitsOnly_foldl (emitsOnly_refl Q s) _ _
      (fun s hole _ => emitsOnly_npthDrillHole H mOptions _ hm s hole))
  exact emitsOnly_foldl (emitsOnly_emitStatus (emitsOnly_refl Q this) _ hs) _ _
    (fun s hole _ => emitsOnly_npthDrillHole H mOptions _ hm s hole)

theorem emitsOnly_checkMinimumNpthSlotWidth {G : Geometry} {Q : Signal → Prop}
    (H : Helpers G) (mBoard : Board G) (mOptions : Options)
    (progressStart progressEnd : Int)
    (hs : ∀ st, Q (Signal.progressStatus st)) (hm : ∀ m, Q (Signal.progressMessage m))
    (hp : Q (Signal.progressPercent progressEnd)) (this : BoardDesignRuleCheck G) :
    EmitsOnly Q this
      (checkMinimumNpthSlotWidth H mBoard mOptions progressStart progressEnd this) := by
  unfold checkMinimumNpthSlotWidth
  refine emitsOnly_emitProgressPercent ?_ _ hp
  refine emitsOnly_foldl ?_ _ _
    (fun s device _ => emitsOnly_foldl (emitsOnly_refl Q s) _ _
      (fun s hole _ => emitsOnly_npthSlotHole H mOptions _ hm s hole))
  exact emitsOnly_foldl (emitsOnly_emitStatus (emitsOnly_refl Q this) _ hs) _ _
    (fun s hole _ => emitsOnly_npthSlotHole H mOptions _ hm s hole)

theorem emitsOnly_checkMinimumPthDrillDiameter {G : Geometry} {Q : Signal → Prop}
    (H : Helpers G) (mBoard : Board G) (mOptions : Options)
    (progressStart progressEnd : Int)
    (hs : ∀ st, Q (Signal.progressStatus st)) (hm : ∀ m, Q (Signal.progressMessage m))
    (hp : Q (Signal.progressPercent progressEnd)) (this : BoardDesignRuleCheck G) :
    EmitsOnly Q this
      (checkMinimumPthDrillDiameter H mBoard mOptions progressStart progressEnd this) := by
  unfold checkMinimumPthDrillDiameter
  refine emitsOnly_emitProgressPercent ?_ _ hp
  refine emitsOnly_foldl ?_ _ _
    (fun s device _ => emitsOnly_foldl (emitsOnly_refl Q s) _ _
      (fun s pad _ => emitsOnly_foldl (emitsOnly_refl Q s) _ _
        (fun s hole _ => emitsOnly_pthDrillPadHole H mOptions pad hm s hole)))
  exact emitsOnly_foldl (emitsOnly_emitStatus (emitsOnly_refl Q this) _ hs) _ _
    (fun s netsegment _ => emitsOnly_foldl (emitsOnly_refl Q s) _ _
      (fun s via _ => emitsOnly_pthDrillVia H mOptions netsegment hm s via))

theorem emitsOnly_checkMinimumPthSlotWidth {G : Geometry} {Q : Signal → Prop}
    (H : Helpers G) (mBoard : Board G) (mOptions : Options)
    (progressStart progressEnd : Int)
    (hs : ∀ st, Q (Signal.progressStatus st)) (hm : ∀ m, Q (Signal.progressMessage m))
    (hp : Q (Signal.progressPercent progressEnd)) (this : BoardDesignRuleCheck G) :
    EmitsOnly Q this
      (checkMinimumPthSlotWidth H mBoard mOptions progressStart progressEnd this) := by
  unfold checkMinimumPthSlotWidth
  refine emitsOnly_emitProgressPercent ?_ _ hp
  exact emitsOnly_foldl (emitsOnly_emitStatus (emitsOnly_refl Q this) _ hs) _ _
    (fun s device _ => emitsOnly_foldl (emitsOnly_refl Q s) _ _
      (fun s pad _ => emitsOnly_foldl (emitsOnly_refl Q s) _ _
        (fun s hole _ => emitsOnly_pthSlotPadHole H mOptions _ _ hm s hole)))

theorem emitsOnly_checkWarnNpthSlots {G : Geometry} {Q : Signal → Prop}
    (H : Helpers G) (mBoard : Board G) (mOptions : Options)
    (progressStart progressEnd : Int)
    (hs : ∀ st, Q (Signal.progressStatus st)) (hm : ∀ m, Q (Signal.progressMessage m))
    (hp : Q (Signal.progressPercent progressEnd)) (this : BoardDesignRuleCheck G) :
    EmitsOnly Q this
      (checkWarnNpthSlots H mBoard mOptions progressStart progressEnd this) := by
  unfold checkWarnNpthSlots
  refine emitsOnly_emitProgressPercent ?_ _ hp
  refine emitsOnly_foldl ?_ _ _
    (fun s device _ => emitsOnly_foldl (emitsOnly_refl Q s) _ _
      (fun s hole _ => emitsOnly_processHoleSlotWarning H hole _ _ _ hm s))
  exact emitsOnly_foldl (emitsOnly_emitStatus (emitsOnly_refl Q this) _ hs) _ _
    (fun s hole _ => emitsOnly_processHoleSlotWarning H hole _ _ _ hm s)

theorem emitsOnly_checkWarnPthSlots {G : Geometry} {Q : Signal → Prop}
    (H : Helpers G) (mBoard : Board G) (mOptions : Options)
    (progressStart progressEnd : Int)
    (hs : ∀ st, Q (Signal.progressStatus st)) (hm : ∀ m, Q (Signal.progressMessage m))
    (hp : Q (Signal.progressPercent progressEnd)) (this : BoardDesignRuleCheck G) :
    EmitsOnly Q this
      (checkWarnPthSlots H mBoard mOptions progressStart progressEnd this) := by
  unfold checkWarnPthSlots
  refine emitsOnly_emitProgressPercent ?_ _ hp
  exact emitsOnly_foldl (emitsOnly_emitStatus (emitsOnly_refl Q this) _ hs) _ _
    (fun s device _ => emitsOnly_foldl (emitsOnly_refl Q s) _ _
      (fun s pad _ => emitsOnly_foldl (emitsOnly_refl Q s) _ _
        (fun s hole _ => emitsOnly_processHoleSlotWarning H hole _ _ _ hm s)))

/-! ## BoardDesignRuleCheck: the progress values of the two passes over layers and nets -/

theorem layerNetProgress_eq_ediv (progressSpan : Int) (hspan : 0 ≤ progressSpan)
    (layerCount layerIndex count i : Nat) :
    layerNetProgress progressSpan layerCount layerIndex count i
      = progressSpan * (((layerIndex + 1) * count + i + 1 : Nat) : Int)
          / ((layerCount * count : Nat) : Int) := by
  unfold layerNetProgress truncToInt
  have hnum : (0 : ℚ) ≤ (progressSpan : ℚ) *
      ((((layerIndex + 1) * count + i + 1 : Nat) : Int) : ℚ) := by
    apply mul_nonneg
    · exact_mod_cast hspan
    · exact_mod_cast Int.natCast_nonneg _
  have hden : (0 : ℚ) ≤ (((layerCount * count : Nat) : Int) : ℚ) := by
    exact_mod_cast Int.natCast_nonneg _
  rw [if_pos (div_nonneg hnum hden)]
  have hcast : (progressSpan : ℚ) * ((((layerIndex + 1) * count + i + 1 : Nat) : Int) : ℚ)
      / (((layerCount * count : Nat) : Int) : ℚ)
      = ((progressSpan * (((layerIndex + 1) * count + i + 1 : Nat) : Int) : Int) : ℚ)
        / ((layerCount * count : Nat) : ℚ) := by
    push_cast
    ring
  rw [hcast, Rat.floor_intCast_div_natCast]

theorem layerNetProgress_bounds (progressSpan : Int) (hspan : 0 ≤ progressSpan)
    (layerCount layerIndex count i : Nat) (hl : layerIndex < layerCount) (hi : i < count) :
    0 < layerCount * count ∧
    0 ≤ layerNetProgress progressSpan layerCount layerIndex count i ∧
    layerNetProgress progressSpan layerCount layerIndex count i ≤ 2 * progressSpan := by
  have hpos : 0 < layerCount * count := Nat.mul_pos (by omega) (by omega)
  rw [layerNetProgress_eq_ediv progressSpan hspan]
  have hposz : (0 : Int) < ((layerCount * count : Nat) : Int) := by exact_mod_cast hpos
  have hnumle : (((layerIndex + 1) * count + i + 1 : Nat) : Int)
      ≤ 2 * ((layerCount * count : Nat) : Int) := by
    have h1 : (layerIndex + 1) * count ≤ layerCount * count :=
      Nat.mul_le_mul_right count (by omega)
    have h2 : count ≤ layerCount * count := Nat.le_mul_of_pos_left count (by omega)
    have : (layerIndex + 1) * count + i + 1 ≤ 2 * (layerCount * count) := by omega
    exact_mod_cast this
  refine ⟨hpos, ?_, ?_⟩
  · apply Int.ediv_nonneg
    · exact mul_nonneg hspan (Int.natCast_nonneg _)
    · exact le_of_lt hposz
  · apply Int.ediv_le_of_le_mul hposz
    calc progressSpan * (((layerIndex + 1) * count + i + 1 : Nat) : Int)
        ≤ progressSpan * (2 * ((layerCount * count : Nat) : Int)) :=
          mul_le_mul_of_nonneg_left hnumle hspan
      _ = 2 * progressSpan * ((layerCount * count : Nat) : Int) := by ring

end LibrePCB

namespace LibrePCB
open BoardDesignRuleCheck

/-! ## BoardDesignRuleCheck: the progress values of a run -/

theorem emitsOnly_ite {G : Geometry} {Q : Signal → Prop} {a b : BoardDesignRuleCheck G}
    (c : Prop) [Decidable c] (f : BoardDesignRuleCheck G → BoardDesignRuleCheck G)
    (hf : ∀ s, EmitsOnly Q s (f s)) (h : EmitsOnly Q a b) :
    EmitsOnly Q a (if c then f b else b) := by
  split
  · exact emitsOnly_trans h (hf b)
  · exact h

/-- The signals of one run of `execute`: the start and the end signal, status
lines, messages, the fixed progress values, and the values of the two passes
over layers and net signals, these for a layer index below the number of
layers and a net index below the number of entries only. -/
theorem emitsOnly_execute {G : Geometry} {Q : Signal → Prop} (H : Helpers G)
    (mBoard : Board G) (mOptions : Options) (tol : PositiveLength)
    (hstarted : Q Signal.started) (hfinished : Q Signal.finished)
    (hs : ∀ st, Q (Signal.progressStatus st)) (hm : ∀ m, Q (Signal.progressMessage m))
    (hfix : ∀ p ∈ ([5, 15, 72, 74, 76, 78, 80, 82, 83, 84, 88, 90, 100] : List Int),
      Q (Signal.progressPercent p))
    (hboard : ∀ layerIndex i, layerIndex < mBoard.layers.length →
      i < (mBoard.netSignals.map some ++ [none]).length →
      Q (Signal.progressPercent (15 + layerNetProgress (40 - 15) mBoard.layers.length
        layerIndex (mBoard.netSignals.map some ++ [none]).length i)))
    (hcopper : ∀ layerIndex i, layerIndex < mBoard.layers.length →
      i < (mBoard.netSignals.map some ++ [none]).length →
      Q (Signal.progressPercent (40 + layerNetProgress (70 - 40) mBoard.layers.length
        layerIndex (mBoard.netSignals.map some ++ [none]).length i)))
    (this : BoardDesignRuleCheck G) :
    EmitsOnly Q this (execute H mBoard mOptions tol this) := by
  unfold execute
  dsimp only
  refine emitsOnly_snoc ?_ Signal.finished hfinished rfl
  refine emitsOnly_emitProgressPercent ?_ _ (hfix 100 (by decide))
  refine emitsOnly_emitStatus ?_ _ hs
  refine emitsOnly_ite _ (fun s => checkForMissingConnections H mBoard 88 90 s)
    (fun s => emitsOnly_checkForMissingConnections H mBoard 88 90 hs hm
      (hfix 90 (by decide)) s) ?_
  refine emitsOnly_ite _ (fun s => checkCourtyardClearances H mBoard mOptions tol 84 88 s)
    (fun s => emitsOnly_checkCourtyardClearances H mBoard mOptions tol 84 88 hs hm
      (hfix 88 (by decide)) s) ?_
  refine emitsOnly_ite _ (fun s => checkWarnPthSlots H mBoard mOptions 83 84 s)
    (fun s => emitsOnly_checkWarnPthSlots H mBoard mOptions 83 84 hs hm
      (hfix 84 (by decide)) s) ?_
  refine emitsOnly_ite _ (fun s => checkWarnNpthSlots H mBoard mOptions 82 83 s)
    (fun s => emitsOnly_checkWarnNpthSlots H mBoard mOptions 82 83 hs hm
      (hfix 83 (by decide)) s) ?_
  refine emitsOnly_ite _ (fun s => checkMinimumPthSlotWidth H mBoard mOptions 80 82 s)
    (fun s => emitsOnly_checkMinimumPthSlotWidth H mBoard mOptions 80 82 hs hm
      (hfix 82 (by decide)) s) ?_
  refine emitsOnly_ite _ (fun s => checkMinimumPthDrillDiameter H mBoard mOptions 78 80 s)
    (fun s => emitsOnly_checkMinimumPthDrillDiameter H mBoard mOptions 78 80 hs hm
      (hfix 80 (by decide)) s) ?_
  refine emitsOnly_ite _ (fun s => checkMinimumNpthSlotWidth H mBoard mOptions 76 78 s)
    (fun s => emitsOnly_checkMinimumNpthSlotWidth H mBoard mOptions 76 78 hs hm
      (hfix 78 (by decide)) s) ?_
  refine emitsOnly_ite _ (fun s => checkMinimumNpthDrillDiameter H mBoard mOptions 74 76 s)
    (fun s => emitsOnly_checkMinimumNpthDrillDiameter H mBoard mOptions 74 76 hs hm
      (hfix 76 (by decide)) s) ?_
  refine emitsOnly_ite _ (fun s => checkMinimumPthAnnularRing H mBoard mOptions tol 72 74 s)
    (fun s => emitsOnly_checkMinimumPthAnnularRing H mBoard mOptions tol 72 74 hs hm
      (hfix 74 (by decide)) s) ?_
  refine emitsOnly_ite _ (fun s => checkMinimumCopperWidth H mBoard mOptions 70 72 s)
    (fun s => emitsOnly_checkMinimumCopperWidth H mBoard mOptions 70 72 hs hm
      (hfix 72 (by decide)) s) ?_
  refine emitsOnly_ite _ (fun s => checkCopperCopperClearances mBoard mOptions tol 40 70 s)
    (fun s => emitsOnly_checkCopperCopperClearances mBoard mOptions tol 40 70 hs hm
      hcopper s) ?_
  refine emitsOnly_ite _ (fun s => checkCopperBoardClearances H mBoard mOptions tol 15 40 s)
    (fun s => emitsOnly_checkCopperBoardClearances H mBoard mOptions tol 15 40 hs hm
      hboard s) ?_
  refine emitsOnly_ite _ (fun s => rebuildPlanes 5 15 s)
    (fun s => emitsOnly_rebuildPlanes 5 15 hs (hfix 15 (by decide)) s) ?_
  refine emitsOnly_of_eq (emitsOnly_of_eq ?_ rfl) rfl
  exact emitsOnly_emitProgressPercent
    (emitsOnly_snoc (emitsOnly_refl _ this) Signal.started hstarted rfl) 5
    (hfix 5 (by decide))

theorem mem_progressValues {signals : List Signal} {p : Int}
    (h : p ∈ progressValues signals) : Signal.progressPercent p ∈ signals := by
  unfold progressValues at h
  obtain ⟨s, hs, hp⟩ := List.mem_filterMap.mp h
  cases s with
  | progressPercent q =>
    simp only [Option.some.injEq] at hp
    rw [← hp]
    exact hs
  | _ => simp at hp

/-- The progress values of one run of `execute` are the fixed values and the
values of the two passes over layers and net signals. -/
theorem execute_progressValues {G : Geometry} (P : Int → Prop) (H : Helpers G)
    (mBoard : Board G) (mOptions : Options) (tol : PositiveLength)
    (hfix : ∀ p ∈ ([5, 15, 72, 74, 76, 78, 80, 82, 83, 84, 88, 90, 100] : List Int), P p)
    (hcomb : ∀ start span : Int, (start = 15 ∧ span = 25 ∨ start = 40 ∧ span = 30) →
      ∀ layerIndex i, layerIndex < mBoard.layers.length →
      i < mBoard.netSignals.length + 1 →
      P (start + layerNetProgress span mBoard.layers.length layerIndex
        (mBoard.netSignals.length + 1) i))
    (this : BoardDesignRuleCheck G) :
    ∃ new, (execute H mBoard mOptions tol this).emitted = this.emitted ++ new ∧
      ∀ p ∈ progressValues new, P p := by
  have hN : (mBoard.netSignals.map some ++ [none]).length = mBoard.netSignals.length + 1 := by
    simp
  obtain ⟨new, hnew, hall⟩ :=
    @emitsOnly_execute G (fun s => ∀ p, s = Signal.progressPercent p → P p) H mBoard
      mOptions tol
      (fun p hp => by cases hp) (fun p hp => by cases hp)
      (fun st p hp => by cases hp) (fun m p hp => by cases hp)
      (fun q hq p hp => by cases hp; exact hfix _ hq)
      (fun layerIndex i hl hi p hp => by
        cases hp
        rw [hN] at hi ⊢
        exact hcomb 15 (40 - 15) (Or.inl ⟨rfl, by decide⟩) layerIndex i hl hi)
      (fun layerIndex i hl hi p hp => by
        cases hp
        rw [hN] at hi ⊢
        exact hcomb 40 (70 - 40) (Or.inr ⟨rfl, by decide⟩) layerIndex i hl hi)
      this
  exact ⟨new, hnew, fun p hp => hall _ (mem_progressValues hp) p rfl⟩

/-- C20: every progress percentage emitted by one call of `execute`, on any
board (any layer stack, any number of net signals), with any options, lies in
the range 0 to 100 inclusive. Such a value is one of the fixed values of
`execute`, or a value `start + floor(span * ((layerIndex+1)*N + i+1) /
(layerCount*N))` of one of the two passes over layers and net signals (start 15
and span 25, or start 40 and span 30), where `N` is the number of net signals
plus one, `layerIndex < layerCount` and `i < N`; the denominator `layerCount*N`
of an emitted value is positive. -/
theorem execute_progress_in_range {G : Geometry} (H : Helpers G) (mBoard : Board G)
    (mOptions : Options) (maxArcTolerance : PositiveLength) (this : BoardDesignRuleCheck G) :
    ∃ new, (execute H mBoard mOptions maxArcTolerance this).emitted = this.emitted ++ new ∧
      ∀ p ∈ progressValues new,
        (0 ≤ p ∧ p ≤ 100) ∧
        (p ∈ ([5, 15, 72, 74, 76, 78, 80, 82, 83, 84, 88, 90, 100] : List Int) ∨
          ∃ start span : Int, ∃ layerIndex i : Nat,
            (start = 15 ∧ span = 25 ∨ start = 40 ∧ span = 30) ∧
            layerIndex < mBoard.layers.length ∧ i < mBoard.netSignals.length + 1 ∧
            0 < mBoard.layers.length * (mBoard.netSignals.length + 1) ∧
            layerNetProgress span mBoard.layers.length layerIndex
                (mBoard.netSignals.length + 1) i
              = span * (((layerIndex + 1) * (mBoard.netSignals.length + 1) + i + 1 : Nat) : Int)
                  / ((mBoard.layers.length * (mBoard.netSignals.length + 1) : Nat) : Int) ∧
            p = start + layerNetProgress span mBoard.layers.length layerIndex
                (mBoard.netSignals.length + 1) i) := by
  refine execute_progressValues _ H mBoard mOptions maxArcTolerance ?_ ?_ this
  · intro p hp
    have hrange : ∀ q ∈ ([5, 15, 72, 74, 76, 78, 80, 82, 83, 84, 88, 90, 100] : List Int),
        0 ≤ q ∧ q ≤ 100 := by decide
    exact ⟨hrange p hp, Or.inl hp⟩
  · intro start span hss layerIndex i hl hi
    have hspan : 0 ≤ span := by
      rcases hss with ⟨_, h⟩ | ⟨_, h⟩ <;> rw [h] <;> decide
    obtain ⟨hden, hlo, hhi⟩ := layerNetProgress_bounds span hspan mBoard.layers.length
      layerIndex (mBoard.netSignals.length + 1) i hl hi
    refine ⟨?_, Or.inr ⟨start, span, layerIndex, i, hss, hl, hi, hden,
      layerNetProgress_eq_ediv span hspan _ _ _ _, rfl⟩⟩
    rcases hss with ⟨h1, h2⟩ | ⟨h1, h2⟩
    · subst h1
      subst h2
      exact ⟨by linarith, by linarith⟩
    · subst h1
      subst h2
      exact ⟨by linarith, by linarith⟩

end LibrePCB

namespace LibrePCB
open BoardDesignRuleCheck

/-- C19: on the board with the layer stack top copper, bottom copper and no
net signal, with the copper clearance check and the copper width check
enabled, one call of `execute` emits the progress percentages 5, 70, 85, 72,
100 in this order: the value 85 of the copper clearance pass is followed by the
smaller value 72 of the copper width pass. -/
theorem execute_progress_decreases :
    progressValues (execute lineHelpers twoLayerBoard widthAndClearanceOptions
      exampleTolerance {}).emitted = [5, 70, 85, 72, 100] := by
  have h1 : layerNetProgress (70 - 40) 2 0 1 0 = 30 := by
    rw [layerNetProgress_eq_ediv _ (by decide)]
    decide
  have h2 : layerNetProgress (70 - 40) 2 1 1 0 = 45 := by
    rw [layerNetProgress_eq_ediv _ (by decide)]
    decide
  have h : progressValues (execute lineHelpers twoLayerBoard widthAndClearanceOptions
      exampleTolerance {}).emitted
      = [5, 40 + layerNetProgress (70 - 40) 2 0 1 0,
          40 + layerNetProgress (70 - 40) 2 1 1 0, 72, 100] := rfl
  rw [h, h1, h2]
  rfl

end LibrePCB

namespace LibrePCB
open BoardDesignRuleCheck

/-! ## BoardDesignRuleCheck: the constructed positive lengths -/

theorem PositiveLength.ofLength_of_pos {v : Length} (h : 0 < v) :
    PositiveLength.ofLength v = .ok ⟨v, h⟩ := by
  unfold PositiveLength.ofLength
  rw [dif_pos h]

theorem annularRingDiameter_nonpos_iff (mOptions : Options) (drill : PositiveLength) :
    annularRingDiameter mOptions drill ≤ 0
      ↔ drill.value = 1 ∧ mOptions.minPthAnnularRing.value = 0 := by
  unfold annularRingDiameter
  have h1 : (0 : Int) < drill.value := drill.pos
  have h2 : (0 : Int) ≤ mOptions.minPthAnnularRing.value := mOptions.minPthAnnularRing.nonneg
  constructor
  · intro h
    constructor <;> linarith
  · rintro ⟨h3, h4⟩
    rw [h3, h4]
    decide

theorem viaRequiredAreas_eq {G : Geometry} (H : Helpers G) (mOptions : Options)
    (maxArcTolerance : PositiveLength) (via : Via) :
    viaRequiredAreas H mOptions maxArcTolerance via
      = if h : 0 < via.drillDiameter.value + 2 * mOptions.minPthAnnularRing.value - 1 then
          some [H.toClipper
            (H.translated
              (H.circle ⟨via.drillDiameter.value + 2 * mOptions.minPthAnnularRing.value - 1, h⟩)
              via.position)
            maxArcTolerance]
        else none := by
  have he : annularRingDiameter mOptions via.drillDiameter
      = via.drillDiameter.value + 2 * mOptions.minPthAnnularRing.value - 1 := by
    unfold annularRingDiameter
    ring
  unfold viaRequiredAreas
  by_cases h : 0 < via.drillDiameter.value + 2 * mOptions.minPthAnnularRing.value - 1
  · have h' : ¬ annularRingDiameter mOptions via.drillDiameter ≤ 0 := by
      rw [he]
      exact not_le.mpr h
    rw [dif_neg h', dif_pos h]
    simp only [he]
  · have h' : annularRingDiameter mOptions via.drillDiameter ≤ 0 := by
      rw [he]
      exact not_lt.mp h
    rw [dif_pos h', dif_neg h]

theorem padRequiredAreas_snoc {G : Geometry} (H : Helpers G) (mOptions : Options)
    (maxArcTolerance : PositiveLength) (pad : FootprintPad G) (holes : List (Hole G))
    (hole : Hole G) :
    padRequiredAreas H mOptions maxArcTolerance { pad with holes := holes ++ [hole] }
      = if h : 0 < hole.diameter.value + 2 * mOptions.minPthAnnularRing.value - 1 then
          (H.toOutlineStrokes hole.path
              ⟨hole.diameter.value + 2 * mOptions.minPthAnnularRing.value - 1, h⟩).foldl
            (fun areas area =>
              H.unitePath areas (H.toClipper (H.mapPath pad.transform area) maxArcTolerance))
            (padRequiredAreas H mOptions maxArcTolerance { pad with holes := holes })
        else padRequiredAreas H mOptions maxArcTolerance { pad with holes := holes } := by
  have he : annularRingDiameter mOptions hole.diameter
      = hole.diameter.value + 2 * mOptions.minPthAnnularRing.value - 1 := by
    unfold annularRingDiameter
    ring
  unfold padRequiredAreas
  simp only [List.foldl_append, List.foldl_cons, List.foldl_nil]
  by_cases h : 0 < hole.diameter.value + 2 * mOptions.minPthAnnularRing.value - 1
  · have h' : ¬ annularRingDiameter mOptions hole.diameter ≤ 0 := by
      rw [he]
      exact not_le.mpr h
    rw [dif_neg h', dif_pos h]
    simp only [he]
    rfl
  · have h' : annularRingDiameter mOptions hole.diameter ≤ 0 := by
      rw [he]
      exact not_lt.mp h
    rw [dif_pos h', dif_neg h]
    rfl

/-- C30: the constructions of a positive length in the passes are safe. The
value `drill + 2*minPthAnnularRing - 1` is not positive exactly when the drill
is 1 and `minPthAnnularRing` is 0, the guard skips a via exactly then, and in
every other case the checked constructor `PositiveLength(...)` returns on that
value (for a via and for a hole of a pad); the widths `qMax(width, 50000)`
used for the locations of stroke texts and of pad holes are at least 50000 and
the checked constructor returns on them with the length used by the passes;
it returns on the constants 50000 and 200000 as well. -/
theorem positive_length_constructions_safe {G : Geometry} (H : Helpers G)
    (mOptions : Options) (maxArcTolerance : PositiveLength) :
    (∀ drill : PositiveLength,
      annularRingDiameter mOptions drill ≤ 0
        ↔ drill.value = 1 ∧ mOptions.minPthAnnularRing.value = 0) ∧
    (∀ via : Via,
      viaRequiredAreas H mOptions maxArcTolerance via = none
        ↔ via.drillDiameter.value = 1 ∧ mOptions.minPthAnnularRing.value = 0) ∧
    (∀ drill : PositiveLength,
      ¬ (drill.value = 1 ∧ mOptions.minPthAnnularRing.value = 0) →
      ∃ d : PositiveLength,
        PositiveLength.ofLength (annularRingDiameter mOptions drill) = .ok d ∧
        d.value = annularRingDiameter mOptions drill) ∧
    (∀ width : Length,
      PositiveLength.ofLength (qMax width 50000)
          = .ok (PositiveLength.ofQMax width ⟨50000, by decide⟩) ∧
        50000 ≤ (PositiveLength.ofQMax width ⟨50000, by decide⟩).value) ∧
    PositiveLength.ofLength 50000 = .ok ⟨50000, by decide⟩ ∧
    PositiveLength.ofLength 200000 = .ok ⟨200000, by decide⟩ := by
  refine ⟨annularRingDiameter_nonpos_iff mOptions, ?_, ?_, ?_, rfl, rfl⟩
  · intro via
    rw [← annularRingDiameter_nonpos_iff]
    unfold viaRequiredAreas
    constructor
    · intro h
      by_contra hn
      rw [dif_neg hn] at h
      exact Option.noConfusion h
    · intro h
      rw [dif_pos h]
  · intro drill hn
    have hpos : 0 < annularRingDiameter mOptions drill :=
      not_le.mp (fun h => hn ((annularRingDiameter_nonpos_iff mOptions drill).mp h))
    exact ⟨⟨_, hpos⟩, PositiveLength.ofLength_of_pos hpos, rfl⟩
  · intro width
    have hle : (50000 : Int) ≤ qMax width 50000 := by
      unfold qMax
      split_ifs with h
      · exact le_refl _
      · exact not_lt.mp h
    have hpos : 0 < qMax width 50000 := lt_of_lt_of_le (by decide) hle
    exact ⟨PositiveLength.ofLength_of_pos hpos, hle⟩

/-! ## BoardDesignRuleCheck: the area required around a plated hole -/

/-- C24, counterexample: for a via at the origin with a drill of 0.3 mm and
`minPthAnnularRing` 0.2 mm the required area is the circle of diameter 0.699999
mm, not the circle of diameter 0.7 mm. -/
theorem annular_ring_diameter_counterexample :
    exampleVia.drillDiameter.value + 2 * exampleOptions.minPthAnnularRing.value = 700000 ∧
    viaRequiredAreas lineHelpers exampleOptions exampleTolerance exampleVia
      = some [(-349999, 349999)] ∧
    lineHelpers.toClipper
        (lineHelpers.translated (lineHelpers.circle ⟨700000, by decide⟩) exampleVia.position)
        exampleTolerance = (-350000, 350000) ∧
    viaRequiredAreas lineHelpers exampleOptions exampleTolerance exampleVia
      ≠ some [lineHelpers.toClipper
          (lineHelpers.translated (lineHelpers.circle ⟨700000, by decide⟩) exampleVia.position)
          exampleTolerance] := by
  refine ⟨by decide, rfl, rfl, fun h => ?_⟩
  exact absurd
    (show (some [((-349999 : Int), (349999 : Int))] : Option (List (Int × Int)))
      = some [(-350000, 350000)] from h)
    (by decide)

/-- C24, amended: in the minimum PTH annular ring pass the required area of a
via is the circle of diameter `drillDiameter + 2*minPthAnnularRing - 1` moved
to the position of the via, when that diameter is positive, and the via is
skipped otherwise; for a hole of a pad the hole path is stroked with the width
`holeDiameter + 2*minPthAnnularRing - 1`, each stroke is mapped by the
transform of the pad and united with the areas of the holes before it, when
that width is positive, and the hole is skipped otherwise. -/
theorem annular_ring_required_area {G : Geometry} (H : Helpers G) (mOptions : Options)
    (maxArcTolerance : PositiveLength) :
    (∀ via : Via,
      viaRequiredAreas H mOptions maxArcTolerance via
        = if h : 0 < via.drillDiameter.value + 2 * mOptions.minPthAnnularRing.value - 1 then
            some [H.toClipper
              (H.translated
                (H.circle
                  ⟨via.drillDiameter.value + 2 * mOptions.minPthAnnularRing.value - 1, h⟩)
                via.position)
              maxArcTolerance]
          else none) ∧
    (∀ (pad : FootprintPad G) (holes : List (Hole G)) (hole : Hole G),
      padRequiredAreas H mOptions maxArcTolerance { pad with holes := holes ++ [hole] }
        = if h : 0 < hole.diameter.value + 2 * mOptions.minPthAnnularRing.value - 1 then
            (H.toOutlineStrokes hole.path
                ⟨hole.diameter.value + 2 * mOptions.minPthAnnularRing.value - 1, h⟩).foldl
              (fun areas area =>
                H.unitePath areas
                  (H.toClipper (H.mapPath pad.transform area) maxArcTolerance))
              (padRequiredAreas H mOptions maxArcTolerance { pad with holes := holes })
          else padRequiredAreas H mOptions maxArcTolerance { pad with holes := holes }) ∧
    (∀ pad : FootprintPad G,
      padRequiredAreas H mOptions maxArcTolerance { pad with holes := [] } = []) :=
  ⟨viaRequiredAreas_eq H mOptions maxArcTolerance,
    padRequiredAreas_snoc H mOptions maxArcTolerance, fun _ => rfl⟩

end LibrePCB

namespace LibrePCB
open BoardDesignRuleCheck

/-! ## BoardDesignRuleCheck: courtyard paths of a device -/

/-- C29, the code at the failing input: for the device placed 5 mm from the
origin, `getDeviceCourtyardPaths` returns the polygon of the footprint moved by
the placement (from 5 mm to 6 mm) and the circle of the footprint not moved
(from -0.5 mm to 0.5 mm); the circle around the mapped centre reaches from 4.5
mm to 5.5 mm. For every device the result does not depend on the centres of
the circles of the footprint. -/
theorem courtyard_circle_not_moved :
    courtyardDevice.position = (5000000, 0) ∧
    getDeviceCourtyardPaths lineHelpers exampleTolerance courtyardDevice topCourtyard
      = [(5000000, 6000000), (-500000, 500000)] ∧
    lineHelpers.toClipper
        (lineHelpers.translated (lineHelpers.circle ⟨1000000, by decide⟩)
          (lineHelpers.mapPoint courtyardDevice.transform (0, 0)))
        exampleTolerance = (4500000, 5500000) ∧
    (∀ (G : Geometry) (H : Helpers G) (maxArcTolerance : PositiveLength) (device : Device G)
        (layer : GraphicsLayer) (f : Circle → Point),
      getDeviceCourtyardPaths H maxArcTolerance
          { device with
            circles := device.circles.map fun circle => { circle with center := f circle } }
          layer
        = getDeviceCourtyardPaths H maxArcTolerance device layer) := by
  refine ⟨rfl, rfl, rfl, ?_⟩
  intro G H maxArcTolerance device layer f
  simp only [getDeviceCourtyardPaths, List.foldl_map]
  rfl

/-! ## BoardDesignRuleCheck: minimum copper width -/

theorem foldl_append_eq_flatMap {α β : Type} (f : α → List β) (l : List α) (init : List β) :
    l.foldl (fun acc x => acc ++ f x) init = init ++ l.flatMap f := by
  induction l generalizing init with
  | nil => simp
  | cons x l ih => rw [List.foldl_cons, ih, List.flatMap_cons, List.append_assoc]

theorem copperWidthText_mMessages {G : Geometry} (H : Helpers G) (mBoard : Board G)
    (mOptions : Options) (s : BoardDesignRuleCheck G) (text : StrokeText G) :
    (copperWidthText H mBoard mOptions s text).mMessages
      = s.mMessages ++ newMessages (fun s => copperWidthText H mBoard mOptions s text) := by
  unfold newMessages copperWidthText
  split
  · simp
  · split_ifs <;> simp [emitMessage]

theorem copperWidthPlane_mMessages {G : Geometry} (H : Helpers G) (mBoard : Board G)
    (mOptions : Options) (s : BoardDesignRuleCheck G) (plane : Plane G) :
    (copperWidthPlane H mBoard mOptions s plane).mMessages
      = s.mMessages ++ newMessages (fun s => copperWidthPlane H mBoard mOptions s plane) := by
  unfold newMessages copperWidthPlane
  split
  · simp
  · split_ifs <;> simp [emitMessage]

theorem copperWidthNetLine_mMessages {G : Geometry} (H : Helpers G)
    (mOptions : Options) (s : BoardDesignRuleCheck G) (netline : NetLine) :
    (copperWidthNetLine H mOptions s netline).mMessages
      = s.mMessages ++ newMessages (fun s => copperWidthNetLine H mOptions s netline) := by
  unfold newMessages copperWidthNetLine
  split_ifs <;> simp [emitMessage]

theorem copperWidthNetLine_new {G : Geometry} (H : Helpers G) (mOptions : Options)
    (netline : NetLine) :
    newMessages (fun s => copperWidthNetLine H mOptions s netline)
      = if netline.layer.isCopperLayer = true ∧ netline.layer.isEnabled = true ∧
            netline.width.value < mOptions.minCopperWidth.value then
          [{ message := "Min. copper width (" ++ netline.layer.nameTr ++ ") of trace: "
              ++ formatLength H netline.width.value
             locations := [H.obround netline.startPoint netline.endPoint netline.width] }]
        else [] := by
  unfold newMessages copperWidthNetLine
  cases hc : netline.layer.isCopperLayer <;> cases he : netline.layer.isEnabled <;>
    by_cases hw : netline.width.value < mOptions.minCopperWidth.value <;>
    simp [emitMessage, hw]

theorem checkMinimumCopperWidth_mMessages {G : Geometry} (H : Helpers G)
    (mBoard : Board G) (mOptions : Options) (progressStart progressEnd : Int)
    (this : BoardDesignRuleCheck G) :
    (checkMinimumCopperWidth H mBoard mOptions progressStart progressEnd this).mMessages
      = this.mMessages
        ++ mBoard.strokeTexts.flatMap
            (fun text => newMessages (fun s => copperWidthText H mBoard mOptions s text))
        ++ mBoard.planes.flatMap
            (fun plane => newMessages (fun s => copperWidthPlane H mBoard mOptions s plane))
        ++ mBoard.devices.flatMap
            (fun device => device.strokeTexts.flatMap
              (fun text => newMessages (fun s => copperWidthText H mBoard mOptions s text)))
        ++ mBoard.netSegments.flatMap
            (fun netsegment => netsegment.netLines.flatMap
              (fun netline => newMessages
                (fun s => copperWidthNetLine H mOptions s netline))) := by
  unfold checkMinimumCopperWidth
  simp only [emitProgressPercent_mMessages]
  have hdev : ∀ (s : BoardDesignRuleCheck G) (device : Device G),
      (device.strokeTexts.foldl (copperWidthText H mBoard mOptions) s).mMessages
        = s.mMessages ++ device.strokeTexts.flatMap
            (fun text => newMessages (fun s => copperWidthText H mBoard mOptions s text)) :=
    fun s device => foldl_mMessages (copperWidthText H mBoard mOptions) _
      (fun s text => copperWidthText_mMessages H mBoard mOptions s text) _ s
  have hseg : ∀ (s : BoardDesignRuleCheck G) (netsegment : NetSegment),
      (netsegment.netLines.foldl (copperWidthNetLine H mOptions) s).mMessages
        = s.mMessages ++ netsegment.netLines.flatMap
            (fun netline => newMessages
              (fun s => copperWidthNetLine H mOptions s netline)) :=
    fun s netsegment => foldl_mMessages (copperWidthNetLine H mOptions) _
      (fun s netline => copperWidthNetLine_mMessages H mOptions s netline) _ s
  rw [foldl_mMessages
      (fun (this : BoardDesignRuleCheck G) (netsegment : NetSegment) =>
        netsegment.netLines.foldl (copperWidthNetLine H mOptions) this)
      _ hseg,
    foldl_mMessages
      (fun (this : BoardDesignRuleCheck G) (device : Device G) =>
        device.strokeTexts.foldl (copperWidthText H mBoard mOptions) this)
      _ hdev,
    foldl_mMessages (copperWidthPlane H mBoard mOptions) _
      (fun s plane => copperWidthPlane_mMessages H mBoard mOptions s plane),
    foldl_mMessages (copperWidthText H mBoard mOptions) _
      (fun s text => copperWidthText_mMessages H mBoard mOptions s text),
    emitStatus_mMessages]

end LibrePCB

namespace LibrePCB
open BoardDesignRuleCheck

/-- C23: the minimum copper width pass appends, in the order of iteration, the
messages of the stroke texts, of the planes, of the stroke texts of the
devices and of the traces; the step for a trace appends exactly one message
when the trace is on an enabled copper layer and its width is strictly less
than `minCopperWidth`, and none otherwise; the message of a trace is located
at the obround between the end points of the trace with the width of the
trace. So on a board without texts and planes whose only trace is on an
enabled copper layer and narrower than `minCopperWidth`, the pass appends
exactly that one message. -/
theorem copper_width_pass_reports_narrow_traces {G : Geometry} (H : Helpers G)
    (mBoard : Board G) (mOptions : Options) (progressStart progressEnd : Int)
    (this : BoardDesignRuleCheck G) (netsegment : NetSegment) (netline : NetLine)
    (htexts : mBoard.strokeTexts = []) (hplanes : mBoard.planes = [])
    (hdevices : ∀ device ∈ mBoard.devices, device.strokeTexts = [])
    (hsegments : mBoard.netSegments = [netsegment])
    (hlines : netsegment.netLines = [netline])
    (hcopper : netline.layer.isCopperLayer = true)
    (henabled : netline.layer.isEnabled = true)
    (hwidth : netline.width.value < mOptions.minCopperWidth.value) :
    (∀ (board : Board G) (s : BoardDesignRuleCheck G),
      (checkMinimumCopperWidth H board mOptions progressStart progressEnd s).mMessages
        = s.mMessages
          ++ board.strokeTexts.flatMap
              (fun text => newMessages (fun s => copperWidthText H board mOptions s text))
          ++ board.planes.flatMap
              (fun plane => newMessages (fun s => copperWidthPlane H board mOptions s plane))
          ++ board.devices.flatMap
              (fun device => device.strokeTexts.flatMap
                (fun text => newMessages (fun s => copperWidthText H board mOptions s text)))
          ++ board.netSegments.flatMap
              (fun netsegment => netsegment.netLines.flatMap
                (fun netline => newMessages
                  (fun s => copperWidthNetLine H mOptions s netline)))) ∧
    (∀ line : NetLine,
      newMessages (fun s => copperWidthNetLine H mOptions s line)
        = if line.layer.isCopperLayer = true ∧ line.layer.isEnabled = true ∧
              line.width.value < mOptions.minCopperWidth.value then
            [{ message := "Min. copper width (" ++ line.layer.nameTr ++ ") of trace: "
                ++ formatLength H line.width.value
               locations := [H.obround line.startPoint line.endPoint line.width] }]
          else []) ∧
    (∀ line : NetLine,
      (newMessages (fun s => copperWidthNetLine H mOptions s line)).length
        = if line.layer.isCopperLayer = true ∧ line.layer.isEnabled = true ∧
              line.width.value < mOptions.minCopperWidth.value then 1 else 0) ∧
    (checkMinimumCopperWidth H mBoard mOptions progressStart progressEnd this).mMessages
      = this.mMessages
        ++ [{ message := "Min. copper width (" ++ netline.layer.nameTr ++ ") of trace: "
                ++ formatLength H netline.width.value
              locations := [H.obround netline.startPoint netline.endPoint netline.width] }] := by
  refine ⟨fun board s => checkMinimumCopperWidth_mMessages H board mOptions progressStart
    progressEnd s, copperWidthNetLine_new H mOptions, ?_, ?_⟩
  · intro line
    rw [copperWidthNetLine_new]
    split_ifs <;> rfl
  · rw [checkMinimumCopperWidth_mMessages, htexts, hplanes, hsegments]
    have hdev : mBoard.devices.flatMap
        (fun device => device.strokeTexts.flatMap
          (fun text => newMessages (fun s => copperWidthText H mBoard mOptions s text)))
        = [] := by
      apply flatMap_eq_nil_of_forall
      intro device hd
      rw [hdevices device hd]
      rfl
    rw [hdev]
    simp only [List.flatMap_nil, List.append_nil, List.flatMap_cons, hlines]
    rw [copperWidthNetLine_new, if_pos ⟨hcopper, henabled, hwidth⟩]

/-- Witness of C23: the board with two copper layers and one net whose only
item is a trace of width 0.1 mm, with `minCopperWidth` 0.2 mm. -/
theorem copper_width_pass_reports_narrow_traces_witness :
    thinTrace.width.value = 100000 ∧ exampleOptions.minCopperWidth.value = 200000 ∧
    (checkMinimumCopperWidth lineHelpers traceBoard exampleOptions 70 72
        ({} : BoardDesignRuleCheck lineGeometry)).mMessages
      = ({} : BoardDesignRuleCheck lineGeometry).mMessages
        ++ [{ message := "Min. copper width (" ++ thinTrace.layer.nameTr ++ ") of trace: "
                ++ formatLength lineHelpers thinTrace.width.value
              locations :=
                [lineHelpers.obround thinTrace.startPoint thinTrace.endPoint
                  thinTrace.width] }] :=
  ⟨rfl, rfl, (copper_width_pass_reports_narrow_traces lineHelpers traceBoard exampleOptions
    70 72 {} { netNameToDisplay := "A", vias := [], netLines := [thinTrace] } thinTrace
    rfl rfl (fun _ hd => nomatch hd) rfl rfl rfl rfl (by decide)).2.2.2⟩

/-- C28, counterexample: a plane with a minimum width of 0.3 mm fails the
minimum copper width of 0.5 mm, and its message is located at the outline
stroked with the width 0.2 mm, which is less than the minimum width of the
plane. -/
theorem plane_location_width_counterexample :
    examplePlane.minWidth.value = 300000 ∧
    (newMessages
      (fun s => copperWidthPlane lineHelpers planeBoard wideOptions s examplePlane)).map
        (fun m => m.locations)
      = [lineHelpers.toOutlineStrokes (lineHelpers.toClosedPath examplePlane.outline)
          ⟨200000, by decide⟩] ∧
    (newMessages
      (fun s => copperWidthPlane lineHelpers planeBoard wideOptions s examplePlane)).map
        (fun m => m.locations)
      = [[(-100000, 1100000)]] ∧
    lineHelpers.toOutlineStrokes (lineHelpers.toClosedPath examplePlane.outline)
        ⟨300000, by decide⟩ = [(-150000, 1150000)] ∧
    ¬ ((200000 : Int) ≥ examplePlane.minWidth.value) := by
  refine ⟨rfl, rfl, rfl, rfl, by decide⟩

end LibrePCB

namespace LibrePCB
open BoardDesignRuleCheck

theorem copperWidthText_locations {G : Geometry} (H : Helpers G) (mBoard : Board G)
    (mOptions : Options) (text : StrokeText G)
    (m : BoardDesignRuleCheckMessage G.Path)
    (hm : m ∈ newMessages (fun s => copperWidthText H mBoard mOptions s text)) :
    m.locations = (text.paths.map (H.mapPath text.transform)).flatMap
      (fun path => H.toOutlineStrokes path
        (PositiveLength.ofQMax text.strokeWidth.value ⟨50000, by decide⟩)) := by
  unfold newMessages copperWidthText at hm
  split at hm
  · simp at hm
  · split_ifs at hm
    · simp at hm
    · simp only [emitMessage, List.nil_append, List.mem_singleton] at hm
      rw [hm]
      simp only [foldl_append_eq_flatMap, List.nil_append]
    · simp at hm

theorem copperWidthPlane_locations {G : Geometry} (H : Helpers G) (mBoard : Board G)
    (mOptions : Options) (plane : Plane G)
    (m : BoardDesignRuleCheckMessage G.Path)
    (hm : m ∈ newMessages (fun s => copperWidthPlane H mBoard mOptions s plane)) :
    m.locations = H.toOutlineStrokes (H.toClosedPath plane.outline) ⟨200000, by decide⟩ := by
  unfold newMessages copperWidthPlane at hm
  split at hm
  · simp at hm
  · split_ifs at hm
    · simp at hm
    · simp only [emitMessage, List.nil_append, List.mem_singleton] at hm
      rw [hm]
    · simp at hm

/-- C28, amended: in the minimum copper width pass the message of a failing
stroke text is located at its paths stroked with the width `qMax(stroke width,
50000)`, which is at least the stroke width of the text; the message of a
failing trace is located at the obround with the width of the trace; the
message of a failing plane is located at its outline stroked with the fixed
width 200000 (0.2 mm), whatever the minimum width of the plane. -/
theorem copper_width_location_widths {G : Geometry} (H : Helpers G) (mBoard : Board G)
    (mOptions : Options) :
    (∀ text : StrokeText G,
      ∀ m ∈ newMessages (fun s => copperWidthText H mBoard mOptions s text),
        m.locations = (text.paths.map (H.mapPath text.transform)).flatMap
          (fun path => H.toOutlineStrokes path
            (PositiveLength.ofQMax text.strokeWidth.value ⟨50000, by decide⟩))) ∧
    (∀ text : StrokeText G,
      (PositiveLength.ofQMax text.strokeWidth.value ⟨50000, by decide⟩).value
          = max text.strokeWidth.value 50000 ∧
        text.strokeWidth.value
          ≤ (PositiveLength.ofQMax text.strokeWidth.value ⟨50000, by decide⟩).value) ∧
    (∀ plane : Plane G,
      ∀ m ∈ newMessages (fun s => copperWidthPlane H mBoard mOptions s plane),
        m.locations
          = H.toOutlineStrokes (H.toClosedPath plane.outline) ⟨200000, by decide⟩) ∧
    (∀ netline : NetLine,
      ∀ m ∈ newMessages (fun s => copperWidthNetLine H mOptions s netline),
        m.locations = [H.obround netline.startPoint netline.endPoint netline.width]) := by
  refine ⟨copperWidthText_locations H mBoard mOptions, ?_,
    copperWidthPlane_locations H mBoard mOptions, ?_⟩
  · intro text
    have hv : (PositiveLength.ofQMax text.strokeWidth.value ⟨50000, by decide⟩).value
        = max text.strokeWidth.value 50000 := qMax_eq_max _ _
    exact ⟨hv, by rw [hv]; exact le_max_left _ _⟩
  · intro netline m hm
    rw [copperWidthNetLine_new] at hm
    split_ifs at hm
    · rw [List.mem_singleton.mp hm]
    · simp at hm

end LibrePCB

namespace LibrePCB
open BoardDesignRuleCheck

/-! ## BoardDesignRuleCheck: relations kept by the statements of the passes -/

theorem stepRel_foldl {G : Geometry}
    {R : BoardDesignRuleCheck G → BoardDesignRuleCheck G → Prop} (hR : StepRel R)
    {α : Type} {a b : BoardDesignRuleCheck G} (h : R a b)
    (f : BoardDesignRuleCheck G → α → BoardDesignRuleCheck G) (l : List α)
    (hf : ∀ s x, x ∈ l → R s (f s x)) :
    R a (l.foldl f b) := by
  induction l generalizing b with
  | nil => exact h
  | cons x l ih =>
    rw [List.foldl_cons]
    exact ih (hR.trans _ _ _ h (hf b x (List.mem_cons_self x l)))
      (fun s y hy => hf s y (List.mem_cons_of_mem x hy))

theorem stepRel_foldl_emitMessage {G : Geometry}
    {R : BoardDesignRuleCheck G → BoardDesignRuleCheck G → Prop} (hR : StepRel R)
    {α : Type} {a b : BoardDesignRuleCheck G} (h : R a b)
    (m : α → BoardDesignRuleCheckMessage G.Path) (l : List α) :
    R a (l.foldl (fun s x => BoardDesignRuleCheck.emitMessage (m x) s) b) :=
  stepRel_foldl hR h _ l (fun s x _ => hR.message (m x) s)

theorem stepRel_percent {G : Geometry}
    {R : BoardDesignRuleCheck G → BoardDesignRuleCheck G → Prop} (hR : StepRel R)
    {a b : BoardDesignRuleCheck G} (h : R a b) (p : Int) :
    R a (BoardDesignRuleCheck.emitProgressPercent p b) :=
  hR.trans _ _ _ h (hR.percent p b)

theorem stepRel_copperWidthText {G : Geometry}
    {R : BoardDesignRuleCheck G → BoardDesignRuleCheck G → Prop} (hR : StepRel R)
    (H : Helpers G) (mBoard : Board G) (mOptions : Options)
    (s : BoardDesignRuleCheck G) (text : StrokeText G) :
    R s (copperWidthText H mBoard mOptions s text) := by
  unfold copperWidthText
  repeat' split
  all_goals
    first
      | exact hR.refl s
      | exact hR.message _ s

theorem stepRel_copperWidthPlane {G : Geometry}
    {R : BoardDesignRuleCheck G → BoardDesignRuleCheck G → Prop} (hR : StepRel R)
    (H : Helpers G) (mBoard : Board G) (mOptions : Options)
    (s : BoardDesignRuleCheck G) (plane : Plane G) :
    R s (copperWidthPlane H mBoard mOptions s plane) := by
  unfold copperWidthPlane
  repeat' split
  all_goals
    first
      | exact hR.refl s
      | exact hR.message _ s

theorem stepRel_copperWidthNetLine {G : Geometry}
    {R : BoardDesignRuleCheck G → BoardDesignRuleCheck G → Prop} (hR : StepRel R)
    (H : Helpers G) (mOptions : Options)
    (s : BoardDesignRuleCheck G) (netline : NetLine) :
    R s (copperWidthNetLine H mOptions s netline) := by
  unfold copperWidthNetLine
  repeat' split
  all_goals
    first
      | exact hR.refl s
      | exact hR.message _ s

theorem stepRel_annularRingVia {G : Geometry}
    {R : BoardDesignRuleCheck G → BoardDesignRuleCheck G → Prop} (hR : StepRel R)
    (H : Helpers G) (mOptions : Options) (tol : PositiveLength) (tht : List G.ClipperPath)
    (netsegment : NetSegment) (s : BoardDesignRuleCheck G) (via : Via) :
    R s (annularRingVia H mOptions tol tht netsegment s via) := by
  unfold annularRingVia
  split
  · exact hR.refl s
  · dsimp only
    split
    · exact hR.message _ s
    · exact hR.refl s

theorem stepRel_annularRingPad {G : Geometry}
    {R : BoardDesignRuleCheck G → BoardDesignRuleCheck G → Prop} (hR : StepRel R)
    (H : Helpers G) (mOptions : Options) (tol : PositiveLength) (tht : List G.ClipperPath)
    (s : BoardDesignRuleCheck G) (pad : FootprintPad G) :
    R s (annularRingPad H mOptions tol tht s pad) := by
  unfold annularRingPad
  dsimp only
  split
  · exact hR.message _ s
  · exact hR.refl s

theorem stepRel_npthDrillHole {G : Geometry}
    {R : BoardDesignRuleCheck G → BoardDesignRuleCheck G → Prop} (hR : StepRel R)
    (H : Helpers G) (mOptions : Options) (t : Transform)
    (s : BoardDesignRuleCheck G) (hole : Hole G) :
    R s (npthDrillHole H mOptions t s hole) := by
  unfold npthDrillHole
  repeat' split
  all_goals
    first
      | exact hR.refl s
      | exact hR.message _ s

theorem stepRel_npthSlotHole {G : Geometry}
    {R : BoardDesignRuleCheck G → BoardDesignRuleCheck G → Prop} (hR : StepRel R)
    (H : Helpers G) (mOptions : Options) (t : Transform)
    (s : BoardDesignRuleCheck G) (hole : Hole G) :
    R s (npthSlotHole H mOptions t s hole) := by
  unfold npthSlotHole
  repeat' split
  all_goals
    first
      | exact hR.refl s
      | exact hR.message _ s

theorem stepRel_pthDrillVia {G : Geometry}
    {R : BoardDesignRuleCheck G → BoardDesignRuleCheck G → Prop} (hR : StepRel R)
    (H : Helpers G) (mOptions : Options) (netsegment : NetSegment)
    (s : BoardDesignRuleCheck G) (via : Via) :
    R s (pthDrillVia H mOptions netsegment s via) := by
  unfold pthDrillVia
  repeat' split
  all_goals
    first
      | exact hR.refl s
      | exact hR.message _ s

theorem stepRel_pthDrillPadHole {G : Geometry}
    {R : BoardDesignRuleCheck G → BoardDesignRuleCheck G → Prop} (hR : StepRel R)
    (H : Helpers G) (mOptions : Options) (pad : FootprintPad G)
    (s : BoardDesignRuleCheck G) (hole : Hole G) :
    R s (pthDrillPadHole H mOptions pad s hole) := by
  unfold pthDrillPadHole
  repeat' split
  all_goals
    first
      | exact hR.refl s
      | exact hR.message _ s

theorem stepRel_pthSlotPadHole {G : Geometry}
    {R : BoardDesignRuleCheck G → BoardDesignRuleCheck G → Prop} (hR : StepRel R)
    (H : Helpers G) (mOptions : Options) (t1 t2 : Transform)
    (s : BoardDesignRuleCheck G) (hole : Hole G) :
    R s (pthSlotPadHole H mOptions t1 t2 s hole) := by
  unfold pthSlotPadHole
  repeat' split
  all_goals
    first
      | exact hR.refl s
      | exact hR.message _ s

theorem stepRel_processHoleSlotWarning {G : Geometry}
    {R : BoardDesignRuleCheck G → BoardDesignRuleCheck G → Prop} (hR : StepRel R)
    (H : Helpers G) (hole : Hole G) (level : SlotsWarningLevel) (t1 t2 : Transform)
    (s : BoardDesignRuleCheck G) :
    R s (processHoleSlotWarning H hole level t1 t2 s) := by
  unfold processHoleSlotWarning
  repeat' split
  all_goals
    first
      | exact hR.refl s
      | exact hR.message _ s

theorem stepRel_courtyardPair {G : Geometry}
    {R : BoardDesignRuleCheck G → BoardDesignRuleCheck G → Prop} (hR : StepRel R)
    (layer : GraphicsLayer) (deviceCourtyards : List (Device G × List G.ClipperPath))
    (i : Nat) (s : BoardDesignRuleCheck G) (k : Nat) :
    R s (courtyardPair layer deviceCourtyards i s k) := by
  unfold courtyardPair
  split
  · exact stepRel_foldl_emitMessage hR (hR.refl s) _ _
  · exact hR.refl s

theorem stepRel_copperCopperPair {G : Geometry}
    {R : BoardDesignRuleCheck G → BoardDesignRuleCheck G → Prop} (hR : StepRel R)
    (mOptions : Options) (tol : PositiveLength) (layer : GraphicsLayer)
    (netsignals : List (Option NetSignal)) (i : Nat) (paths1 : List G.ClipperPath)
    (s : BoardDesignRuleCheck G) (k : Nat) :
    R s (copperCopperPair mOptions tol layer netsignals i paths1 s k) := by
  unfold copperCopperPair
  exact stepRel_foldl_emitMessage hR (hR.copperPaths _ _ s) _ _

theorem stepRel_copperCopperNet {G : Geometry}
    {R : BoardDesignRuleCheck G → BoardDesignRuleCheck G → Prop} (hR : StepRel R)
    (mOptions : Options) (tol : PositiveLength) (progressStart progressSpan : Int)
    (layerCount layerIndex : Nat) (layer : GraphicsLayer)
    (netsignals : List (Option NetSignal)) (s : BoardDesignRuleCheck G) (i : Nat) :
    R s (copperCopperNet mOptions tol progressStart progressSpan layerCount
      layerIndex layer netsignals s i) := by
  unfold copperCopperNet
  exact stepRel_percent hR
    (stepRel_foldl hR (hR.copperPaths _ _ s) _ _
      (fun s k _ => stepRel_copperCopperPair hR mOptions tol layer netsignals i _ s k))
    _

theorem stepRel_copperBoardNet {G : Geometry}
    {R : BoardDesignRuleCheck G → BoardDesignRuleCheck G → Prop} (hR : StepRel R)
    (restrictedArea : List G.ClipperPath) (progressStart progressSpan : Int)
    (layerCount layerIndex : Nat) (layer : GraphicsLayer)
    (netsignals : List (Option NetSignal)) (s : BoardDesignRuleCheck G) (i : Nat) :
    R s (copperBoardNet restrictedArea progressStart progressSpan layerCount
      layerIndex layer netsignals s i) := by
  unfold copperBoardNet
  exact stepRel_percent hR
    (stepRel_foldl_emitMessage hR (hR.copperPaths _ _ s) _ _) _

theorem stepRel_thtCopperAreas {G : Geometry}
    {R : BoardDesignRuleCheck G → BoardDesignRuleCheck G → Prop} (hR : StepRel R)
    (mBoard : Board G) (s : BoardDesignRuleCheck G) :
    R s (thtCopperAreas mBoard s).2 := by
  unfold thtCopperAreas
  have key : ∀ (layers : List GraphicsLayer)
      (acc : List (List G.ClipperPath) × BoardDesignRuleCheck G), R s acc.2 →
      R s (layers.foldl
        (fun (acc : List (List G.ClipperPath) × BoardDesignRuleCheck G) l =>
          if l.isCopperLayer && l.isEnabled then
            let (paths, this) := getCopperPaths l [] acc.2
            (acc.1 ++ [paths], this)
          else acc)
        acc).2 := by
    intro layers
    induction layers with
    | nil => exact fun acc h => h
    | cons l layers ih =>
      intro acc h
      rw [List.foldl_cons]
      apply ih
      split
      · exact hR.trans _ _ _ h (hR.copperPaths _ _ _)
      · exact h
  exact key mBoard.layers ([], s) (hR.refl s)

end LibrePCB

namespace LibrePCB
open BoardDesignRuleCheck

/-! ## BoardDesignRuleCheck: relations kept by the passes after their status line -/

theorem stepRel_rebuildPlanes {G : Geometry}
    {R : BoardDesignRuleCheck G → BoardDesignRuleCheck G → Prop} (hR : StepRel R)
    (progressStart progressEnd : Int)
    (this : BoardDesignRuleCheck G) :
    R (emitStatus "Rebuild planes..." this)
      (rebuildPlanes progressStart progressEnd this) := by
  unfold rebuildPlanes
  exact stepRel_percent hR (hR.boardCall _ _) _

theorem stepRel_checkForMissingConnections {G : Geometry}
    {R : BoardDesignRuleCheck G → BoardDesignRuleCheck G → Prop} (hR : StepRel R)
    (H : Helpers G) (mBoard : Board G) (progressStart progressEnd : Int)
    (this : BoardDesignRuleCheck G) :
    R (emitStatus "Check for missing connections..." this)
      (checkForMissingConnections H mBoard progressStart progressEnd this) := by
  unfold checkForMissingConnections
  refine stepRel_percent hR ?_ _
  exact stepRel_foldl hR (hR.boardCall _ _) _ _ (fun s airwire _ => hR.message _ s)

theorem stepRel_checkCopperBoardClearances {G : Geometry}
    {R : BoardDesignRuleCheck G → BoardDesignRuleCheck G → Prop} (hR : StepRel R)
    (H : Helpers G) (mBoard : Board G) (mOptions : Options) (tol : PositiveLength)
    (progressStart progressEnd : Int)
    (this : BoardDesignRuleCheck G) :
    R (emitStatus "Check board clearances..." this)
      (checkCopperBoardClearances H mBoard mOptions tol progressStart progressEnd this) := by
  unfold checkCopperBoardClearances
  refine stepRel_foldl hR (hR.refl _) _ _ ?_
  intro s layerIndex _
  split
  · exact hR.refl s
  · split
    · exact hR.refl s
    · exact stepRel_foldl hR (hR.refl s) _ _
        (fun s i _ => stepRel_copperBoardNet hR _ _ _ _ _ _ _ s i)

theorem stepRel_checkCopperCopperClearances {G : Geometry}
    {R : BoardDesignRuleCheck G → BoardDesignRuleCheck G → Prop} (hR : StepRel R)
    (mBoard : Board G) (mOptions : Options) (tol : PositiveLength)
    (progressStart progressEnd : Int)
    (this : BoardDesignRuleCheck G) :
    R (emitStatus "Check copper clearances..." this)
      (checkCopperCopperClearances mBoard mOptions tol progressStart progressEnd this) := by
  unfold checkCopperCopperClearances
  refine stepRel_foldl hR (hR.refl _) _ _ ?_
  intro s layerIndex _
  split
  · exact hR.refl s
  · split
    · exact hR.refl s
    · exact stepRel_foldl hR (hR.refl s) _ _
        (fun s i _ => stepRel_copperCopperNet hR _ _ _ _ _ _ _ _ s i)

theorem stepRel_checkCourtyardClearances {G : Geometry}
    {R : BoardDesignRuleCheck G → BoardDesignRuleCheck G → Prop} (hR : StepRel R)
    (H : Helpers G) (mBoard : Board G) (mOptions : Options) (tol : PositiveLength)
    (progressStart progressEnd : Int)
    (this : BoardDesignRuleCheck G) :
    R (emitStatus "Check courtyard clearances..." this)
      (checkCourtyardClearances H mBoard mOptions tol progressStart progressEnd this) := by
  unfold checkCourtyardClearances
  refine stepRel_percent hR ?_ _
  refine stepRel_foldl hR (hR.refl _) _ _ ?_
  intro s layer _
  refine stepRel_foldl hR (hR.refl s) _ _ ?_
  intro s i _
  exact stepRel_foldl hR (hR.refl s) _ _ (fun s k _ => stepRel_courtyardPair hR layer _ i s k)

theorem stepRel_checkMinimumCopperWidth {G : Geometry}
    {R : BoardDesignRuleCheck G → BoardDesignRuleCheck G → Prop} (hR : StepRel R)
    (H : Helpers G) (mBoard : Board G) (mOptions : Options)
    (progressStart progressEnd : Int)
    (this : BoardDesignRuleCheck G) :
    R (emitStatus "Check minimum copper width..." this)
      (checkMinimumCopperWidth H mBoard mOptions progressStart progressEnd this) := by
  unfold checkMinimumCopperWidth
  refine stepRel_percent hR ?_ _
  refine stepRel_foldl hR ?_ _ _
    (fun s netsegment _ => stepRel_foldl hR (hR.refl s) _ _
      (fun s netline _ => stepRel_copperWidthNetLine hR H mOptions s netline))
  refine stepRel_foldl hR ?_ _ _
    (fun s device _ => stepRel_foldl hR (hR.refl s) _ _
      (fun s text _ => stepRel_copperWidthText hR H mBoard mOptions s text))
  refine stepRel_foldl hR ?_ _ _
    (fun s plane _ => stepRel_copperWidthPlane hR H mBoard mOptions s plane)
  exact stepRel_foldl hR (hR.refl _) _ _
    (fun s text _ => stepRel_copperWidthText hR H mBoard mOptions s text)

theorem stepRel_checkMinimumPthAnnularRing {G : Geometry}
    {R : BoardDesignRuleCheck G → BoardDesignRuleCheck G → Prop} (hR : StepRel R)
    (H : Helpers G) (mBoard : Board G) (mOptions : Options) (tol : PositiveLength)
    (progressStart progressEnd : Int)
    (this : BoardDesignRuleCheck G) :
    R (emitStatus "Check minimum PTH annular rings..." this)
      (checkMinimumPthAnnularRing H mBoard mOptions tol progressStart progressEnd this) := by
  unfold checkMinimumPthAnnularRing
  dsimp only
  refine stepRel_percent hR ?_ _
  refine stepRel_foldl hR ?_ _ _
    (fun s device _ => stepRel_foldl hR (hR.refl s) _ _
      (fun s pad _ => stepRel_annularRingPad hR H mOptions tol _ s pad))
  refine stepRel_foldl hR ?_ _ _
    (fun s netsegment _ => stepRel_foldl hR (hR.refl s) _ _
      (fun s via _ => stepRel_annularRingVia hR H mOptions tol _ netsegment s via))
  exact stepRel_thtCopperAreas hR mBoard _

theorem stepRel_checkMinimumNpthDrillDiameter {G : Geometry}
    {R : BoardDesignRuleCheck G → BoardDesignRuleCheck G → Prop} (hR : StepRel R)
    (H : Helpers G) (mBoard : Board G) (mOptions : Options)
    (progressStart progressEnd : Int)
    (this : BoardDesignRuleCheck G) :
    R (emitStatus "Check minimum NPTH drill diameters..." this)
      (checkMinimumNpthDrillDiameter H mBoard mOptions progressStart progressEnd this) := by
  unfold checkMinimumNpthDrillDiameter
  refine stepRel_percent hR ?_ _
  refine stepRel_foldl hR ?_ _ _
    (fun s device _ => stepRel_foldl hR (hR.refl s) _ _
      (fun s hole _ => stepRel_npthDrillHole hR H mOptions _ s hole))
  exact stepRel_foldl hR (hR.refl _) _ _
    (fun s hole _ => stepRel_npthDrillHole hR H mOptions _ s hole)

theorem stepRel_checkMinimumNpthSlotWidth {G : Geometry}
    {R : BoardDesignRuleCheck G → BoardDesignRuleCheck G → Prop} (hR : StepRel R)
    (H : Helpers G) (mBoard : Board G) (mOptions : Options)
    (progressStart progressEnd : Int)
    (this : BoardDesignRuleCheck G) :
    R (emitStatus "Check minimum NPTH slot width..." this)
      (checkMinimumNpthSlotWidth H mBoard mOptions progressStart progressEnd this) := by
  unfold checkMinimumNpthSlotWidth
  refine stepRel_percent hR ?_ _
  refine stepRel_foldl hR ?_ _ _
    (fun s device _ => stepRel_foldl hR (hR.refl s) _ _
      (fun s hole _ => stepRel_npthSlotHole hR H mOptions _ s hole))
  exact stepRel_foldl hR (hR.refl _) _ _
    (fun s hole _ => stepRel_npthSlotHole hR H mOptions _ s hole)

theorem stepRel_checkMinimumPthDrillDiameter {G : Geometry}
    {R : BoardDesignRuleCheck G → BoardDesignRuleCheck G → Prop} (hR : StepRel R)
    (H : Helpers G) (mBoard : Board G) (mOptions : Options)
    (progressStart progressEnd : Int)
    (this : BoardDesignRuleCheck G) :
    R (emitStatus "Check minimum PTH drill diameters..." this)
      (checkMinimumPthDrillDiameter H mBoard mOptions progressStart progressEnd this) := by
  unfold checkMinimumPthDrillDiameter
  refine stepRel_percent hR ?_ _
  refine stepRel_foldl hR ?_ _ _
    (fun s device _ => stepRel_foldl hR (hR.refl s) _ _
      (fun s pad _ => stepRel_foldl hR (hR.refl s) _ _
        (fun s hole _ => stepRel_pthDrillPadHole hR H mOptions pad s hole)))
  exact stepRel_foldl hR (hR.refl _) _ _
    (fun s netsegment _ => stepRel_foldl hR (hR.refl s) _ _
      (fun s via _ => stepRel_pthDrillVia hR H mOptions netsegment s via))

theorem stepRel_checkMinimumPthSlotWidth {G : Geometry}
    {R : BoardDesignRuleCheck G → BoardDesignRuleCheck G → Prop} (hR : StepRel R)
    (H : Helpers G) (mBoard : Board G) (mOptions : Options)
    (progressStart progressEnd : Int)
    (this : BoardDesignRuleCheck G) :
    R (emitStatus "Check minimum PTH slot width..." this)
      (checkMinimumPthSlotWidth H mBoard mOptions progressStart progressEnd this) := by
  unfold checkMinimumPthSlotWidth
  refine stepRel_percent hR ?_ _
  exact stepRel_foldl hR (hR.refl _) _ _
    (fun s device _ => stepRel_foldl hR (hR.refl s) _ _
      (fun s pad _ => stepRel_foldl hR (hR.refl s) _ _
        (fun s hole _ => stepRel_pthSlotPadHole hR H mOptions _ _ s hole)))

theorem stepRel_checkWarnNpthSlots {G : Geometry}
    {R : BoardDesignRuleCheck G → BoardDesignRuleCheck G → Prop} (hR : StepRel R)
    (H : Helpers G) (mBoard : Board G) (mOptions : Options)
    (progressStart progressEnd : Int)
    (this : BoardDesignRuleCheck G) :
    R (emitStatus "Check NPTH slots..." this)
      (checkWarnNpthSlots H mBoard mOptions progressStart progressEnd this) := by
  unfold checkWarnNpthSlots
  refine stepRel_percent hR ?_ _
  refine stepRel_foldl hR ?_ _ _
    (fun s device _ => stepRel_foldl hR (hR.refl s) _ _
      (fun s hole _ => stepRel_processHoleSlotWarning hR H hole _ _ _ s))
  exact stepRel_foldl hR (hR.refl _) _ _
    (fun s hole _ => stepRel_processHoleSlotWarning hR H hole _ _ _ s)

theorem stepRel_checkWarnPthSlots {G : Geometry}
    {R : BoardDesignRuleCheck G → BoardDesignRuleCheck G → Prop} (hR : StepRel R)
    (H : Helpers G) (mBoard : Board G) (mOptions : Options)
    (progressStart progressEnd : Int)
    (this : BoardDesignRuleCheck G) :
    R (emitStatus "Check PTH slots..." this)
      (checkWarnPthSlots H mBoard mOptions progressStart progressEnd this) := by
  unfold checkWarnPthSlots
  refine stepRel_percent hR ?_ _
  exact stepRel_foldl hR (hR.refl _) _ _
    (fun s device _ => stepRel_foldl hR (hR.refl s) _ _
      (fun s pad _ => stepRel_foldl hR (hR.refl s) _ _
        (fun s hole _ => stepRel_processHoleSlotWarning hR H hole _ _ _ s)))

end LibrePCB

namespace LibrePCB
open BoardDesignRuleCheck

/-! ## BoardDesignRuleCheck: the run as its start, its passes and its end -/

theorem execute_eq_runPasses {G : Geometry} (H : Helpers G) (mBoard : Board G)
    (mOptions : Options) (tol : PositiveLength) (this : BoardDesignRuleCheck G) :
    execute H mBoard mOptions tol this
      = executeFinish (runPasses (executePasses H mBoard mOptions tol) (executeStart this)) :=
  rfl

theorem runPasses_cons {G : Geometry}
    (pass : Bool × String × (BoardDesignRuleCheck G → BoardDesignRuleCheck G))
    (passes : List (Bool × String × (BoardDesignRuleCheck G → BoardDesignRuleCheck G)))
    (s : BoardDesignRuleCheck G) :
    runPasses (pass :: passes) s = runPasses passes (if pass.1 then pass.2.2 s else s) :=
  rfl

theorem runPasses_eq_enabled {G : Geometry}
    (passes : List (Bool × String × (BoardDesignRuleCheck G → BoardDesignRuleCheck G)))
    (s : BoardDesignRuleCheck G) :
    runPasses passes s
      = ((passes.filter fun pass => pass.1).map fun pass => pass.2.2).foldl
          (fun this pass => pass this) s := by
  induction passes generalizing s with
  | nil => rfl
  | cons pass passes ih =>
    rw [runPasses_cons, ih]
    cases hp : pass.1
    · rw [List.filter_cons_of_neg (by simp [hp])]
      simp
    · rw [List.filter_cons_of_pos (by simp [hp])]
      simp

theorem executePasses_stepRel {G : Geometry}
    {R : BoardDesignRuleCheck G → BoardDesignRuleCheck G → Prop} (hR : StepRel R)
    (H : Helpers G) (mBoard : Board G) (mOptions : Options) (tol : PositiveLength) :
    ∀ pass ∈ executePasses H mBoard mOptions tol,
      ∀ s, R (emitStatus pass.2.1 s) (pass.2.2 s) := by
  intro pass hpass s
  simp only [executePasses, List.mem_cons, List.mem_singleton, List.not_mem_nil,
    or_false] at hpass
  rcases hpass with h | h | h | h | h | h | h | h | h | h | h | h | h <;> subst h
  · exact stepRel_rebuildPlanes hR 5 15 s
  · exact stepRel_checkCopperBoardClearances hR H mBoard mOptions tol 15 40 s
  · exact stepRel_checkCopperCopperClearances hR mBoard mOptions tol 40 70 s
  · exact stepRel_checkMinimumCopperWidth hR H mBoard mOptions 70 72 s
  · exact stepRel_checkMinimumPthAnnularRing hR H mBoard mOptions tol 72 74 s
  · exact stepRel_checkMinimumNpthDrillDiameter hR H mBoard mOptions 74 76 s
  · exact stepRel_checkMinimumNpthSlotWidth hR H mBoard mOptions 76 78 s
  · exact stepRel_checkMinimumPthDrillDiameter hR H mBoard mOptions 78 80 s
  · exact stepRel_checkMinimumPthSlotWidth hR H mBoard mOptions 80 82 s
  · exact stepRel_checkWarnNpthSlots hR H mBoard mOptions 82 83 s
  · exact stepRel_checkWarnPthSlots hR H mBoard mOptions 83 84 s
  · exact stepRel_checkCourtyardClearances hR H mBoard mOptions tol 84 88 s
  · exact stepRel_checkForMissingConnections hR H mBoard 88 90 s

theorem stepRel_runPasses {G : Geometry}
    {R : BoardDesignRuleCheck G → BoardDesignRuleCheck G → Prop} (hR : StepRel R)
    (hstatus : ∀ status s, R s (emitStatus status s))
    (passes : List (Bool × String × (BoardDesignRuleCheck G → BoardDesignRuleCheck G)))
    (hpasses : ∀ pass ∈ passes, ∀ s, R (emitStatus pass.2.1 s) (pass.2.2 s))
    (s : BoardDesignRuleCheck G) :
    R s (runPasses passes s) := by
  unfold runPasses
  refine stepRel_foldl hR (hR.refl s) _ _ ?_
  intro s pass hpass
  split
  · exact hR.trans _ _ _ (hstatus _ s) (hpasses pass hpass s)
  · exact hR.refl s

theorem stepRel_execute {G : Geometry}
    {R : BoardDesignRuleCheck G → BoardDesignRuleCheck G → Prop} (hR : StepRel R)
    (hstatus : ∀ status s, R s (emitStatus status s))
    (hfinished : ∀ s, R s { s with emitted := s.emitted ++ [Signal.finished] })
    (H : Helpers G) (mBoard : Board G) (mOptions : Options) (tol : PositiveLength)
    (this : BoardDesignRuleCheck G) :
    R (executeStart this) (execute H mBoard mOptions tol this) := by
  rw [execute_eq_runPasses]
  unfold executeFinish
  refine hR.trans _ _ _ ?_ (hfinished _)
  refine stepRel_percent hR ?_ _
  refine hR.trans _ _ _ ?_ (hstatus _ _)
  exact stepRel_runPasses hR hstatus _
    (executePasses_stepRel hR H mBoard mOptions tol) _

end LibrePCB

namespace LibrePCB
open BoardDesignRuleCheck

/-! ## BoardDesignRuleCheck: status lines and messages of a run -/

theorem statusValues_append (a b : List Signal) :
    statusValues (a ++ b) = statusValues a ++ statusValues b := by
  unfold statusValues
  rw [List.filterMap_append]

theorem messageValues_append (a b : List Signal) :
    messageValues (a ++ b) = messageValues a ++ messageValues b := by
  unfold messageValues
  rw [List.filterMap_append]

theorem statusValues_eq_nil_of_notStatus (l : List Signal)
    (h : ∀ s ∈ l, Signal.NotStatus s) : statusValues l = [] := by
  induction l with
  | nil => rfl
  | cons x l ih =>
    have hx := h x (List.mem_cons_self x l)
    have hl := ih (fun s hs => h s (List.mem_cons_of_mem x hs))
    cases x with
    | progressStatus st => exact absurd hx (by simp [Signal.NotStatus])
    | _ => simpa [statusValues] using hl

theorem stepRel_emitsOnly {G : Geometry} (Q : Signal → Prop)
    (hm : ∀ m, Q (Signal.progressMessage m)) (hp : ∀ p, Q (Signal.progressPercent p)) :
    StepRel (EmitsOnly Q : BoardDesignRuleCheck G → BoardDesignRuleCheck G → Prop) where
  refl := emitsOnly_refl Q
  trans := fun _ _ _ h1 h2 => emitsOnly_trans h1 h2
  message := fun msg s => emitsOnly_emitMessage (emitsOnly_refl Q s) msg hm
  percent := fun p s => emitsOnly_emitProgressPercent (emitsOnly_refl Q s) p (hp p)
  copperPaths := fun layer netsignals s =>
    emitsOnly_getCopperPaths (emitsOnly_refl Q s) layer netsignals
  boardCall := fun _ s => emitsOnly_of_eq (emitsOnly_refl Q s) rfl

theorem statusValues_of_emitsOnly {G : Geometry} {a b : BoardDesignRuleCheck G}
    (h : EmitsOnly Signal.NotStatus a b) :
    statusValues b.emitted = statusValues a.emitted := by
  obtain ⟨new, he, hq⟩ := h
  rw [he, statusValues_append, statusValues_eq_nil_of_notStatus new hq, List.append_nil]

theorem statusValues_emitStatus {G : Geometry} (status : String)
    (s : BoardDesignRuleCheck G) :
    statusValues (emitStatus status s).emitted = statusValues s.emitted ++ [status] := by
  unfold emitStatus
  simp only [statusValues_append]
  rfl

theorem runPasses_statusValues {G : Geometry}
    (passes : List (Bool × String × (BoardDesignRuleCheck G → BoardDesignRuleCheck G)))
    (hpasses : ∀ pass ∈ passes, ∀ s,
      EmitsOnly Signal.NotStatus (emitStatus pass.2.1 s) (pass.2.2 s))
    (s : BoardDesignRuleCheck G) :
    statusValues (runPasses passes s).emitted
      = statusValues s.emitted
        ++ (passes.filter fun pass => pass.1).map fun pass => pass.2.1 := by
  induction passes generalizing s with
  | nil => simp [runPasses]
  | cons pass passes ih =>
    rw [runPasses_cons, ih (fun p hp => hpasses p (List.mem_cons_of_mem pass hp))]
    cases hc : pass.1
    · rw [List.filter_cons_of_neg (by simp [hc])]
      simp
    · rw [List.filter_cons_of_pos (by simp [hc])]
      simp only [if_true, List.map_cons]
      rw [statusValues_of_emitsOnly (hpasses pass (List.mem_cons_self pass passes) s),
        statusValues_emitStatus, List.append_assoc]
      rfl

theorem filter_map_status {α : Type} (l : List (Bool × String × α)) :
    (l.filter fun pass => pass.1).map (fun pass => pass.2.1)
      = ((l.map fun pass => (pass.1, pass.2.1)).filter fun p => p.1).map fun p => p.2 := by
  induction l with
  | nil => rfl
  | cons x l ih =>
    cases hx : x.1
    · rw [List.filter_cons_of_neg (by simp [hx]), List.map_cons,
        List.filter_cons_of_neg (by simp [hx]), ih]
    · rw [List.filter_cons_of_pos (by simp [hx]), List.map_cons, List.map_cons,
        List.filter_cons_of_pos (by simp [hx]), List.map_cons, ih]

theorem execute_statusValues {G : Geometry} (H : Helpers G) (mBoard : Board G)
    (mOptions : Options) (tol : PositiveLength) (this : BoardDesignRuleCheck G) :
    statusValues (execute H mBoard mOptions tol this).emitted
      = statusValues this.emitted
        ++ ((executePasses H mBoard mOptions tol).filter fun pass => pass.1).map
            (fun pass => pass.2.1)
        ++ ["Finished with "
            ++ toString (execute H mBoard mOptions tol this).mMessages.length
            ++ " message(s)!"] := by
  have hrun := runPasses_statusValues (executePasses H mBoard mOptions tol)
    (executePasses_stepRel
      (stepRel_emitsOnly Signal.NotStatus (fun _ => trivial) (fun _ => trivial))
      H mBoard mOptions tol)
    (executeStart this)
  have hstart : statusValues (executeStart this).emitted = statusValues this.emitted := by
    unfold executeStart emitProgressPercent
    simp only [statusValues_append]
    simp [statusValues]
  rw [hstart] at hrun
  have hfinish : ∀ s : BoardDesignRuleCheck G,
      statusValues (executeFinish s).emitted
        = statusValues s.emitted
          ++ ["Finished with " ++ toString s.mMessages.length ++ " message(s)!"] := by
    intro s
    unfold executeFinish emitProgressPercent emitStatus
    simp only [statusValues_append]
    simp [statusValues]
  have hmsg : (execute H mBoard mOptions tol this).mMessages
      = (runPasses (executePasses H mBoard mOptions tol) (executeStart this)).mMessages := rfl
  rw [hmsg, execute_eq_runPasses, hfinish, hrun]

theorem stepRel_messagesInStep {G : Geometry} :
    StepRel (MessagesInStep : BoardDesignRuleCheck G → BoardDesignRuleCheck G → Prop) where
  refl := fun s => ⟨[], by simp, by simp [messageValues]⟩
  trans := by
    rintro a b c ⟨n1, e1, m1⟩ ⟨n2, e2, m2⟩
    exact ⟨n1 ++ n2, by rw [e2, e1, List.append_assoc],
      by rw [m2, m1, messageValues_append, List.append_assoc]⟩
  message := fun msg s =>
    ⟨[Signal.progressMessage msg.message], rfl, by simp [emitMessage, messageValues]⟩
  percent := fun p s => ⟨[Signal.progressPercent p], rfl, by simp [messageValues]; rfl⟩
  copperPaths := fun layer netsignals s =>
    ⟨[], by rw [getCopperPaths_snd_emitted, List.append_nil],
      by rw [getCopperPaths_snd_mMessages]; simp [messageValues]⟩
  boardCall := fun _ s => ⟨[], by simp, by simp [messageValues]⟩

theorem execute_messagesInStep {G : Geometry} (H : Helpers G) (mBoard : Board G)
    (mOptions : Options) (tol : PositiveLength) (this : BoardDesignRuleCheck G) :
    MessagesInStep (executeStart this) (execute H mBoard mOptions tol this) :=
  stepRel_execute stepRel_messagesInStep
    (fun status s => ⟨[Signal.progressStatus status], rfl, by simp [messageValues]; rfl⟩)
    (fun s => ⟨[Signal.finished], rfl, by simp [messageValues]⟩)
    H mBoard mOptions tol this

end LibrePCB

namespace LibrePCB
open BoardDesignRuleCheck

/-- C21: one call of `execute` is its first statements, then the enabled
passes of the fixed list in the order of the list, then the summary; a
disabled pass is not run at all. The status lines emitted by the call are, in
order, the status lines of the enabled passes (rebuild planes, board
clearances, copper clearances, minimum copper width, PTH annular rings, NPTH
drill diameters, NPTH slot width, PTH drill diameters, PTH slot width, NPTH
slots, PTH slots, courtyard clearances, missing connections) followed by the
summary line; the board clearance pass is enabled by `checkCopperBoardClearance
|| checkCopperNpthClearance`. -/
theorem execute_status_lines {G : Geometry} (H : Helpers G) (mBoard : Board G)
    (mOptions : Options) (maxArcTolerance : PositiveLength) (this : BoardDesignRuleCheck G) :
    execute H mBoard mOptions maxArcTolerance this
      = executeFinish
          ((((executePasses H mBoard mOptions maxArcTolerance).filter
              fun pass => pass.1).map fun pass => pass.2.2).foldl
            (fun this pass => pass this) (executeStart this)) ∧
    (executePasses H mBoard mOptions maxArcTolerance).map (fun pass => (pass.1, pass.2.1))
      = [(mOptions.rebuildPlanes, "Rebuild planes..."),
         (mOptions.checkCopperBoardClearance || mOptions.checkCopperNpthClearance,
           "Check board clearances..."),
         (mOptions.checkCopperCopperClearance, "Check copper clearances..."),
         (mOptions.checkCopperWidth, "Check minimum copper width..."),
         (mOptions.checkPthAnnularRing, "Check minimum PTH annular rings..."),
         (mOptions.checkNpthDrillDiameter, "Check minimum NPTH drill diameters..."),
         (mOptions.checkNpthSlotWidth, "Check minimum NPTH slot width..."),
         (mOptions.checkPthDrillDiameter, "Check minimum PTH drill diameters..."),
         (mOptions.checkPthSlotWidth, "Check minimum PTH slot width..."),
         (mOptions.checkNpthSlotsWarning, "Check NPTH slots..."),
         (mOptions.checkPthSlotsWarning, "Check PTH slots..."),
         (mOptions.checkCourtyardClearance, "Check courtyard clearances..."),
         (mOptions.checkMissingConnections, "Check for missing connections...")] ∧
    ∃ new,
      (execute H mBoard mOptions maxArcTolerance this).emitted = this.emitted ++ new ∧
      statusValues new
        = ([(mOptions.rebuildPlanes, "Rebuild planes..."),
            (mOptions.checkCopperBoardClearance || mOptions.checkCopperNpthClearance,
              "Check board clearances..."),
            (mOptions.checkCopperCopperClearance, "Check copper clearances..."),
            (mOptions.checkCopperWidth, "Check minimum copper width..."),
            (mOptions.checkPthAnnularRing, "Check minimum PTH annular rings..."),
            (mOptions.checkNpthDrillDiameter, "Check minimum NPTH drill diameters..."),
            (mOptions.checkNpthSlotWidth, "Check minimum NPTH slot width..."),
            (mOptions.checkPthDrillDiameter, "Check minimum PTH drill diameters..."),
            (mOptions.checkPthSlotWidth, "Check minimum PTH slot width..."),
            (mOptions.checkNpthSlotsWarning, "Check NPTH slots..."),
            (mOptions.checkPthSlotsWarning, "Check PTH slots..."),
            (mOptions.checkCourtyardClearance, "Check courtyard clearances..."),
            (mOptions.checkMissingConnections, "Check for missing connections...")].filter
              fun p => p.1).map (fun p => p.2)
          ++ ["Finished with "
              ++ toString (execute H mBoard mOptions maxArcTolerance this).mMessages.length
              ++ " message(s)!"] := by
  refine ⟨?_, rfl, ?_⟩
  · rw [execute_eq_runPasses, runPasses_eq_enabled]
  · obtain ⟨new, hnew, _⟩ :=
      @emitsOnly_execute G (fun _ => True) H mBoard mOptions maxArcTolerance trivial trivial
        (fun _ => trivial) (fun _ => trivial) (fun _ _ => trivial)
        (fun _ _ _ _ => trivial) (fun _ _ _ _ => trivial) this
    refine ⟨new, hnew, ?_⟩
    have h := execute_statusValues H mBoard mOptions maxArcTolerance this
    rw [hnew, statusValues_append, List.append_assoc] at h
    have h2 := List.append_cancel_left h
    rw [h2, filter_map_status]
    rfl

/-- C22: for every state of the engine object before the call (also the state
left by an earlier run), one call of `execute` starts from the empty message
list, each `progressMessage` signal of the call goes with exactly one record
appended to the message list, in the same order, so that the message list
after the call holds exactly the violations emitted during the call; the last
status line of the call is the summary with the length of that list, which is
the number of violations emitted during the call. -/
theorem execute_summary_counts_run_messages {G : Geometry} (H : Helpers G)
    (mBoard : Board G) (mOptions : Options) (maxArcTolerance : PositiveLength)
    (this : BoardDesignRuleCheck G) :
    (executeStart this).mMessages = [] ∧
    execute H mBoard mOptions maxArcTolerance this
      = execute H mBoard mOptions maxArcTolerance { this with mMessages := [] } ∧
    ∃ new,
      (execute H mBoard mOptions maxArcTolerance this).emitted = this.emitted ++ new ∧
      (execute H mBoard mOptions maxArcTolerance this).mMessages.map (fun m => m.message)
        = messageValues new ∧
      (execute H mBoard mOptions maxArcTolerance this).mMessages.length
        = (messageValues new).length ∧
      (statusValues new).getLast?
        = some ("Finished with " ++ toString (messageValues new).length ++ " message(s)!") := by
  refine ⟨rfl, rfl, ?_⟩
  obtain ⟨new, hnew, hmsg⟩ := execute_messagesInStep H mBoard mOptions maxArcTolerance this
  have hstart : (executeStart this).emitted
      = this.emitted ++ [Signal.started, Signal.progressPercent 5] := by
    unfold executeStart emitProgressPercent
    simp
  have hstartm : (executeStart this).mMessages = [] := rfl
  rw [hstart, List.append_assoc] at hnew
  rw [hstartm, List.map_nil, List.nil_append] at hmsg
  have hvals : messageValues ([Signal.started, Signal.progressPercent 5] ++ new)
      = messageValues new := by
    rw [messageValues_append]
    rfl
  have hlen : (execute H mBoard mOptions maxArcTolerance this).mMessages.length
      = (messageValues ([Signal.started, Signal.progressPercent 5] ++ new)).length := by
    rw [hvals, ← hmsg, List.length_map]
  refine ⟨[Signal.started, Signal.progressPercent 5] ++ new, hnew, by rw [hvals, hmsg],
    hlen, ?_⟩
  have h := execute_statusValues H mBoard mOptions maxArcTolerance this
  rw [hnew, statusValues_append, List.append_assoc] at h
  have h2 := List.append_cancel_left h
  rw [h2, List.getLast?_append, ← hlen]
  rfl

end LibrePCB

namespace LibrePCB
open BoardDesignRuleCheck

/-! ## BoardDesignRuleCheck: progress values at the end of a pass -/

/-- C26, the code at the failing inputs: on a board without an enabled copper
layer the copper clearance pass emits its status line and no progress value
before the next status line; on the board with the layer stack top copper,
bottom copper the progress values between the status line of the copper
clearance pass (the range from 40 to 70) and the next status line are 70 and
85, the last of them is not the end 70 of the range. -/
theorem clearance_pass_emits_no_end_percentage :
    (execute lineHelpers disabledCopperBoard clearanceOnlyOptions exampleTolerance
        {}).emitted
      = [Signal.started, Signal.progressPercent 5,
          Signal.progressStatus "Check copper clearances...",
          Signal.progressStatus "Finished with 0 message(s)!",
          Signal.progressPercent 100, Signal.finished] ∧
    (execute lineHelpers twoLayerBoard widthAndClearanceOptions exampleTolerance {}).emitted
      = [Signal.started, Signal.progressPercent 5,
          Signal.progressStatus "Check copper clearances...",
          Signal.progressPercent 70, Signal.progressPercent 85,
          Signal.progressStatus "Check minimum copper width...",
          Signal.progressPercent 72,
          Signal.progressStatus "Finished with 0 message(s)!",
          Signal.progressPercent 100, Signal.finished] := by
  have h1 : layerNetProgress (70 - 40) 2 0 1 0 = 30 := by
    rw [layerNetProgress_eq_ediv _ (by decide)]
    decide
  have h2 : layerNetProgress (70 - 40) 2 1 1 0 = 45 := by
    rw [layerNetProgress_eq_ediv _ (by decide)]
    decide
  have h : (execute lineHelpers twoLayerBoard widthAndClearanceOptions exampleTolerance
      {}).emitted
      = [Signal.started, Signal.progressPercent 5,
          Signal.progressStatus "Check copper clearances...",
          Signal.progressPercent (40 + layerNetProgress (70 - 40) 2 0 1 0),
          Signal.progressPercent (40 + layerNetProgress (70 - 40) 2 1 1 0),
          Signal.progressStatus "Check minimum copper width...",
          Signal.progressPercent 72,
          Signal.progressStatus "Finished with 0 message(s)!",
          Signal.progressPercent 100, Signal.finished] := rfl
  refine ⟨rfl, ?_⟩
  rw [h, h1, h2]
  rfl

/-! ## BoardDesignRuleCheck: the path cache across runs -/

theorem stepRel_cacheKept {G : Geometry} :
    StepRel (CacheKept : BoardDesignRuleCheck G → BoardDesignRuleCheck G → Prop) where
  refl := fun _ _ _ h => h
  trans := fun _ _ _ h1 h2 key paths h => h2 key paths (h1 key paths h)
  message := fun _ _ _ _ h => h
  percent := fun _ _ _ _ h => h
  copperPaths := by
    intro layer netsignals s key paths h
    cases hl : s.mCachedPaths.lookup (layer, netsignals) with
    | some cached =>
      have hs : (getCopperPaths layer netsignals s).2 = s := by
        simp only [getCopperPaths, hl]
      rw [hs]
      exact h
    | none =>
      have hs : (getCopperPaths layer netsignals s).2
          = { s with mCachedPaths :=
                ((layer, netsignals), G.addCopper layer.name netsignals)
                  :: s.mCachedPaths } := by
        simp only [getCopperPaths, hl]
      rw [hs]
      have hk : key ≠ (layer, netsignals) := by
        intro hk
        rw [hk, hl] at h
        exact Option.noConfusion h
      have hb : (key == ((layer, netsignals) : CacheKey)) = false := by
        simpa using hk
      simp only [List.lookup, hb]
      exact h
  boardCall := fun _ _ _ _ h => h

theorem execute_cacheKept {G : Geometry} (H : Helpers G) (mBoard : Board G)
    (mOptions : Options) (tol : PositiveLength) (this : BoardDesignRuleCheck G) :
    CacheKept this (execute H mBoard mOptions tol this) := by
  have h : CacheKept (executeStart this) (execute H mBoard mOptions tol this) :=
    stepRel_execute stepRel_cacheKept (fun _ _ _ _ h => h) (fun _ _ _ h => h)
      H mBoard mOptions tol this
  exact h

/-- C27, the code at the failing input: a first run on the board in one
dimension (gap 0.2 mm between the nets `A` and `B`, minimum clearance 0.2 mm)
reports nothing and leaves the copper of net `B` in the path cache; after the
board is edited (gap 0.05 mm), `getCopperPaths` on the same engine object
returns the paths of the first run and not those of the board, a second run on
the same engine object reports nothing, and a run on a new engine object
reports the violation. For every run, an entry found in the path cache before
the run is found unchanged after it, and a lookup of a cached key returns the
cached paths whatever the board holds. -/
theorem second_run_returns_cached_paths :
    (execute lineHelpers twoNetBoard clearanceOnlyOptions exampleTolerance {}).mMessages.map
        (fun m => m.message) = [] ∧
    (execute lineHelpers twoNetBoard clearanceOnlyOptions exampleTolerance
        {}).mCachedPaths.lookup (topCopper, [some ⟨"B"⟩]) = some [(300000, 400000)] ∧
    movedGeometry.addCopper topCopper.name [some ⟨"B"⟩] = [(150000, 250000)] ∧
    (getCopperPaths topCopper [some ⟨"B"⟩]
      (afterEdit (execute lineHelpers twoNetBoard clearanceOnlyOptions exampleTolerance
        {}))).1 = [(300000, 400000)] ∧
    (execute movedHelpers movedBoard clearanceOnlyOptions exampleTolerance
      (afterEdit (execute lineHelpers twoNetBoard clearanceOnlyOptions exampleTolerance
        {}))).mMessages.map (fun m => m.message) = [] ∧
    (execute movedHelpers movedBoard clearanceOnlyOptions exampleTolerance {}).mMessages.map
        (fun m => m.message) = ["Clearance (Top Copper): 'A' <-> 'B'"] ∧
    (∀ (G : Geometry) (H : Helpers G) (mBoard : Board G) (mOptions : Options)
        (maxArcTolerance : PositiveLength) (this : BoardDesignRuleCheck G)
        (key : CacheKey) (paths : List G.ClipperPath),
      this.mCachedPaths.lookup key = some paths →
      (execute H mBoard mOptions maxArcTolerance this).mCachedPaths.lookup key
        = some paths) ∧
    (∀ (G : Geometry) (layer : GraphicsLayer) (netsignals : List (Option NetSignal))
        (this : BoardDesignRuleCheck G) (paths : List G.ClipperPath),
      this.mCachedPaths.lookup (layer, netsignals) = some paths →
      getCopperPaths layer netsignals this = (paths, this)) := by
  refine ⟨rfl, rfl, rfl, rfl, rfl, rfl, ?_, ?_⟩
  · intro G H mBoard mOptions maxArcTolerance this key paths h
    exact execute_cacheKept H mBoard mOptions maxArcTolerance this key paths h
  · intro G layer netsignals this paths h
    simp only [getCopperPaths, h]

end LibrePCB

namespace LibrePCB
open BoardDesignRuleCheck

/-! ## BoardDesignRuleCheck: the index pairs of the pairwise passes -/

theorem mem_loopPairs (n i k : Nat) : (i, k) ∈ loopPairs n ↔ i < k ∧ k < n := by
  unfold loopPairs
  simp only [List.mem_flatMap, List.mem_range, List.mem_map, List.mem_range'_1,
    Prod.mk.injEq]
  constructor
  · rintro ⟨a, ha, b, ⟨hb1, hb2⟩, rfl, rfl⟩
    omega
  · rintro ⟨h1, h2⟩
    exact ⟨i, by omega, k, ⟨by omega, by omega⟩, rfl, rfl⟩

theorem loopPairs_pairwise (n : Nat) :
    (loopPairs n).Pairwise (fun p q => p.1 < q.1 ∨ (p.1 = q.1 ∧ p.2 < q.2)) := by
  unfold loopPairs
  rw [List.pairwise_flatMap]
  constructor
  · intro i _
    rw [List.pairwise_map]
    exact (List.pairwise_lt_range' (i + 1) (n - (i + 1))).imp
      (fun h => Or.inr ⟨rfl, h⟩)
  · refine (List.pairwise_lt_range n).imp ?_
    intro a b hab x hx y hy
    obtain ⟨_, _, rfl⟩ := List.mem_map.mp hx
    obtain ⟨_, _, rfl⟩ := List.mem_map.mp hy
    exact Or.inl hab

theorem loopPairs_nodup (n : Nat) : (loopPairs n).Nodup := by
  refine (loopPairs_pairwise n).imp ?_
  intro p q h heq
  rw [heq] at h
  rcases h with h | ⟨_, h⟩
  · exact lt_irrefl _ h
  · exact lt_irrefl _ h

theorem sum_range_sub (n m : Nat) (h : m ≤ n) :
    2 * ((List.range m).map fun i => n - (i + 1)).sum + m * (m + 1) = 2 * m * n := by
  induction m with
  | zero => simp
  | succ m ih =>
    have ih' := ih (by omega)
    obtain ⟨e, rfl⟩ := Nat.exists_eq_add_of_le h
    rw [List.range_succ, List.map_append, List.sum_append]
    simp only [List.map_cons, List.map_nil, List.sum_cons, List.sum_nil]
    have he : m + 1 + e - (m + 1) = e := by omega
    rw [he]
    nlinarith [ih']

theorem loopPairs_length (n : Nat) : (loopPairs n).length = n * (n - 1) / 2 := by
  have hlen : (loopPairs n).length = ((List.range n).map fun i => n - (i + 1)).sum := by
    unfold loopPairs
    rw [List.length_flatMap]
    congr 1
    apply List.map_congr_left
    intro i _
    simp
  have hsum := sum_range_sub n n (le_refl n)
  rw [← hlen] at hsum
  have h2 : n * (n - 1) = 2 * (loopPairs n).length := by
    cases n with
    | zero => simp [loopPairs]
    | succ k =>
      simp only [Nat.add_sub_cancel]
      nlinarith [hsum]
  rw [h2]
  simp

end LibrePCB

namespace LibrePCB
open BoardDesignRuleCheck

/-! ## BoardDesignRuleCheck: the messages of the pairwise passes -/

theorem flatMap_loopPairs {β : Type} (n : Nat) (g : Nat → Nat → List β) :
    (loopPairs n).flatMap (fun p => g p.1 p.2)
      = (List.range n).flatMap
          (fun i => (List.range' (i + 1) (n - (i + 1))).flatMap (fun k => g i k)) := by
  unfold loopPairs
  rw [List.flatMap_assoc]
  congr 1
  funext i
  rw [List.flatMap_map]

theorem range_flatMap_get? {α β : Type} (l : List α) (g : α → List β) :
    (List.range l.length).flatMap (fun i => (l.get? i).elim [] g) = l.flatMap g := by
  induction l with
  | nil => rfl
  | cons x l ih =>
    rw [List.length_cons, List.range_succ_eq_map, List.flatMap_cons, List.flatMap_map,
      List.flatMap_cons]
    congr 1

theorem flatMap_ite_eq_filter {α β : Type} (l : List α) (p : α → Bool) (g : α → List β) :
    l.flatMap (fun x => if p x then g x else []) = (l.filter p).flatMap g := by
  induction l with
  | nil => rfl
  | cons x l ih =>
    rw [List.flatMap_cons, ih]
    cases hp : p x
    · rw [List.filter_cons_of_neg (by simp [hp])]
      simp
    · rw [List.filter_cons_of_pos hp]
      simp

theorem courtyardPair_mMessages {G : Geometry} (layer : GraphicsLayer)
    (deviceCourtyards : List (Device G × List G.ClipperPath)) (i k : Nat)
    (s : BoardDesignRuleCheck G) :
    (courtyardPair layer deviceCourtyards i s k).mMessages
      = s.mMessages ++ courtyardPairMessages layer deviceCourtyards i k := by
  unfold courtyardPair courtyardPairMessages
  split
  · rw [foldl_emitMessage_mMessages]
  · simp

theorem checkCourtyardClearances_mMessages {G : Geometry} (H : Helpers G)
    (mBoard : Board G) (mOptions : Options) (tol : PositiveLength)
    (progressStart progressEnd : Int) (this : BoardDesignRuleCheck G) :
    (checkCourtyardClearances H mBoard mOptions tol progressStart progressEnd this).mMessages
      = this.mMessages
        ++ (mBoard.getLayers
              [GraphicsLayer.sTopCourtyard, GraphicsLayer.sBotCourtyard]).flatMap
            (fun layer => (loopPairs mBoard.devices.length).flatMap
              (fun p => courtyardPairMessages layer
                (mBoard.devices.map fun device =>
                  (device, G.offset (getDeviceCourtyardPaths H tol device layer)
                    mOptions.courtyardOffset tol))
                p.1 p.2)) := by
  unfold checkCourtyardClearances
  simp only [emitProgressPercent_mMessages, List.length_map]
  have hlayer : ∀ (s : BoardDesignRuleCheck G) (layer : GraphicsLayer),
      ((List.range mBoard.devices.length).foldl
        (fun this i =>
          (List.range' (i + 1) (mBoard.devices.length - (i + 1))).foldl
            (courtyardPair layer
              (mBoard.devices.map fun device =>
                (device, G.offset (getDeviceCourtyardPaths H tol device layer)
                  mOptions.courtyardOffset tol)) i) this) s).mMessages
        = s.mMessages ++ (loopPairs mBoard.devices.length).flatMap
            (fun p => courtyardPairMessages layer
              (mBoard.devices.map fun device =>
                (device, G.offset (getDeviceCourtyardPaths H tol device layer)
                  mOptions.courtyardOffset tol))
              p.1 p.2) := by
    intro s layer
    generalize (mBoard.devices.map fun device =>
      (device, G.offset (getDeviceCourtyardPaths H tol device layer)
        mOptions.courtyardOffset tol)) = dc
    rw [flatMap_loopPairs mBoard.devices.length
      (fun i k => courtyardPairMessages layer dc i k)]
    exact foldl_mMessages
      (fun (this : BoardDesignRuleCheck G) (i : Nat) =>
        (List.range' (i + 1) (mBoard.devices.length - (i + 1))).foldl
          (courtyardPair layer dc i) this)
      (fun i => (List.range' (i + 1) (mBoard.devices.length - (i + 1))).flatMap
        (fun k => courtyardPairMessages layer dc i k))
      (fun s i => foldl_mMessages (courtyardPair layer dc i)
        (fun k => courtyardPairMessages layer dc i k)
        (fun s k => courtyardPair_mMessages layer dc i k s) _ s)
      (List.range mBoard.devices.length) s
  rw [foldl_mMessages _ _ hlayer, emitStatus_mMessages]

end LibrePCB

namespace LibrePCB
open BoardDesignRuleCheck

theorem stepRel_copperPathsKept {G : Geometry} :
    StepRel (CopperPathsKept : BoardDesignRuleCheck G → BoardDesignRuleCheck G → Prop) where
  refl := fun _ _ _ => rfl
  trans := fun _ _ _ h1 h2 layer netsignals => (h2 layer netsignals).trans (h1 layer netsignals)
  message := fun _ _ layer netsignals => getCopperPaths_fst_congr layer netsignals _ _ rfl
  percent := fun _ _ layer netsignals => getCopperPaths_fst_congr layer netsignals _ _ rfl
  copperPaths := fun layer netsignals s layer' netsignals' =>
    getCopperPaths_fst_after layer layer' netsignals netsignals' s
  boardCall := fun _ _ layer netsignals => getCopperPaths_fst_congr layer netsignals _ _ rfl

theorem copperCopperPair_mMessages_eq {G : Geometry} (mOptions : Options)
    (tol : PositiveLength) (layer : GraphicsLayer) (netsignals : List (Option NetSignal))
    (i k : Nat) (paths1 : List G.ClipperPath) (s : BoardDesignRuleCheck G) :
    (copperCopperPair mOptions tol layer netsignals i paths1 s k).mMessages
      = s.mMessages
        ++ (G.flattenTree (G.intersect paths1
            (G.offset (getCopperPaths layer [netsignals.getD k none] s).1
              (copperCopperOffset mOptions tol) tol))).map
          (fun path =>
            { message := "Clearance (" ++ layer.nameTr ++ "): '" ++ netNameAt netsignals i
                ++ "' <-> '" ++ netNameAt netsignals k ++ "'"
              locations := [G.convert path] }) := by
  unfold copperCopperPair
  simp only
  rw [foldl_emitMessage_mMessages, getCopperPaths_snd_mMessages]

theorem foldl_mMessages_kept {G : Geometry} {α : Type} (s0 : BoardDesignRuleCheck G)
    (f : BoardDesignRuleCheck G → α → BoardDesignRuleCheck G)
    (g : α → List (BoardDesignRuleCheckMessage G.Path)) (l : List α)
    (hf : ∀ s x, x ∈ l → CopperPathsKept s0 s →
      (f s x).mMessages = s.mMessages ++ g x ∧ CopperPathsKept s0 (f s x))
    (s : BoardDesignRuleCheck G) (hs : CopperPathsKept s0 s) :
    (l.foldl f s).mMessages = s.mMessages ++ l.flatMap g ∧
      CopperPathsKept s0 (l.foldl f s) := by
  induction l generalizing s with
  | nil => exact ⟨by simp, hs⟩
  | cons x l ih =>
    obtain ⟨hm, hk⟩ := hf s x (List.mem_cons_self x l) hs
    obtain ⟨hm', hk'⟩ := ih (fun s y hy => hf s y (List.mem_cons_of_mem x hy)) (f s x) hk
    rw [List.foldl_cons]
    exact ⟨by rw [hm', hm, List.flatMap_cons, List.append_assoc], hk'⟩

theorem copperCopperNet_mMessages {G : Geometry} (mOptions : Options)
    (tol : PositiveLength) (progressStart progressSpan : Int) (layerCount layerIndex : Nat)
    (layer : GraphicsLayer) (netsignals : List (Option NetSignal))
    (s0 s : BoardDesignRuleCheck G) (hs : CopperPathsKept s0 s) (i : Nat) :
    (copperCopperNet mOptions tol progressStart progressSpan layerCount layerIndex layer
        netsignals s i).mMessages
      = s.mMessages
        ++ (List.range' (i + 1) (netsignals.length - (i + 1))).flatMap
            (fun k => copperCopperPairMessages mOptions tol layer netsignals
              (fun j => (getCopperPaths layer [netsignals.getD j none] s0).1) i k) ∧
    CopperPathsKept s0
      (copperCopperNet mOptions tol progressStart progressSpan layerCount layerIndex layer
        netsignals s i) := by
  have hK := stepRel_copperPathsKept.trans s0 s _ hs
    (stepRel_copperCopperNet stepRel_copperPathsKept mOptions tol progressStart progressSpan
      layerCount layerIndex layer netsignals s i)
  refine ⟨?_, hK⟩
  unfold copperCopperNet
  simp only [emitProgressPercent_mMessages]
  have h1 : (getCopperPaths layer [netsignals.getD i none] s).1
      = (getCopperPaths layer [netsignals.getD i none] s0).1 := hs _ _
  rw [h1]
  have hfold := foldl_mMessages_kept s0
    (copperCopperPair mOptions tol layer netsignals i
      (G.offset (getCopperPaths layer [netsignals.getD i none] s0).1
        (copperCopperOffset mOptions tol) tol))
    (fun k => copperCopperPairMessages mOptions tol layer netsignals
      (fun j => (getCopperPaths layer [netsignals.getD j none] s0).1) i k)
    (List.range' (i + 1) (netsignals.length - (i + 1)))
    (fun s' k _ hs' =>
      ⟨by
        rw [copperCopperPair_mMessages_eq, hs' layer _]
        rfl,
       stepRel_copperPathsKept.trans s0 s' _ hs'
        (stepRel_copperCopperPair stepRel_copperPathsKept mOptions tol layer netsignals i
          _ s' k)⟩)
    (getCopperPaths layer [netsignals.getD i none] s).2
    (stepRel_copperPathsKept.trans s0 s _ hs (stepRel_copperPathsKept.copperPaths _ _ s))
  rw [hfold.1, getCopperPaths_snd_mMessages]

theorem checkCopperCopperClearances_mMessages {G : Geometry} (mBoard : Board G)
    (mOptions : Options) (tol : PositiveLength) (progressStart progressEnd : Int)
    (this : BoardDesignRuleCheck G) :
    (checkCopperCopperClearances mBoard mOptions tol progressStart progressEnd this).mMessages
      = this.mMessages
        ++ (mBoard.layers.filter fun layer => layer.isCopperLayer && layer.isEnabled).flatMap
            (fun layer => (loopPairs (mBoard.netSignals.length + 1)).flatMap
              (fun p => copperCopperPairMessages mOptions tol layer
                (mBoard.netSignals.map some ++ [none])
                (fun j => (getCopperPaths layer
                  [(mBoard.netSignals.map some ++ [none]).getD j none] this).1)
                p.1 p.2)) := by
  have hN : (mBoard.netSignals.map some ++ [none]).length = mBoard.netSignals.length + 1 := by
    simp
  unfold checkCopperCopperClearances
  generalize hnets : (mBoard.netSignals.map some ++ [none]) = netsignals at hN
  have hstatus : CopperPathsKept this (emitStatus "Check copper clearances..." this) :=
    fun layer ns => getCopperPaths_fst_congr layer ns _ _ rfl
  have hlayer : ∀ (layerIndex : Nat) (layer : GraphicsLayer) (s : BoardDesignRuleCheck G),
      CopperPathsKept this s →
      ((List.range netsignals.length).foldl
        (copperCopperNet mOptions tol progressStart (progressEnd - progressStart)
          mBoard.layers.length layerIndex layer netsignals) s).mMessages
        = s.mMessages ++ (loopPairs netsignals.length).flatMap
            (fun p => copperCopperPairMessages mOptions tol layer netsignals
              (fun j => (getCopperPaths layer [netsignals.getD j none] this).1) p.1 p.2) ∧
      CopperPathsKept this
        ((List.range netsignals.length).foldl
          (copperCopperNet mOptions tol progressStart (progressEnd - progressStart)
            mBoard.layers.length layerIndex layer netsignals) s) := by
    intro layerIndex layer s hs
    rw [flatMap_loopPairs netsignals.length
      (fun i k => copperCopperPairMessages mOptions tol layer netsignals
        (fun j => (getCopperPaths layer [netsignals.getD j none] this).1) i k)]
    exact foldl_mMessages_kept this _
      (fun i => (List.range' (i + 1) (netsignals.length - (i + 1))).flatMap
        (fun k => copperCopperPairMessages mOptions tol layer netsignals
          (fun j => (getCopperPaths layer [netsignals.getD j none] this).1) i k))
      (List.range netsignals.length)
      (fun s' i _ hs' => copperCopperNet_mMessages mOptions tol progressStart
        (progressEnd - progressStart) mBoard.layers.length layerIndex layer netsignals
        this s' hs' i)
      s hs
  have hall := foldl_mMessages_kept this
    (fun (this : BoardDesignRuleCheck G) (layerIndex : Nat) =>
      match mBoard.layers.get? layerIndex with
      | none => this
      | some layer =>
        if (!layer.isCopperLayer) || (!layer.isEnabled) then this
        else
          (List.range netsignals.length).foldl
            (copperCopperNet mOptions tol progressStart (progressEnd - progressStart)
              mBoard.layers.length layerIndex layer netsignals)
            this)
    (fun layerIndex =>
      (mBoard.layers.get? layerIndex).elim []
        (fun layer =>
          if layer.isCopperLayer && layer.isEnabled then
            (loopPairs netsignals.length).flatMap
              (fun p => copperCopperPairMessages mOptions tol layer netsignals
                (fun j => (getCopperPaths layer [netsignals.getD j none] this).1) p.1 p.2)
          else []))
    (List.range mBoard.layers.length)
    (fun s layerIndex _ hs => by
      dsimp only
      cases mBoard.layers.get? layerIndex with
      | none => exact ⟨(List.append_nil _).symm, hs⟩
      | some layer =>
        dsimp only
        cases hc : layer.isCopperLayer <;> cases he : layer.isEnabled
        · exact ⟨by simp [hc, he], by simpa [hc, he] using hs⟩
        · exact ⟨by simp [hc, he], by simpa [hc, he] using hs⟩
        · exact ⟨by simp [hc, he], by simpa [hc, he] using hs⟩
        · have h := hlayer layerIndex layer s hs
          exact ⟨by simpa [hc, he] using h.1, by simpa [hc, he] using h.2⟩)
    (emitStatus "Check copper clearances..." this) hstatus
  refine hall.1.trans ?_
  rw [emitStatus_mMessages, hN, ← flatMap_ite_eq_filter]
  congr 1
  exact range_flatMap_get? mBoard.layers
    (fun layer =>
      if layer.isCopperLayer && layer.isEnabled then
        (loopPairs (mBoard.netSignals.length + 1)).flatMap
          (fun p => copperCopperPairMessages mOptions tol layer netsignals
            (fun j => (getCopperPaths layer [netsignals.getD j none] this).1) p.1 p.2)
      else [])

end LibrePCB

namespace LibrePCB
open BoardDesignRuleCheck

/-- C25: the loop nest of the two pairwise passes reaches exactly the index
pairs `(i, k)` with `i < k < n`, each once, in lexicographic order, which are
`n * (n - 1) / 2` pairs, no pair `(i, i)` and no pair in both orders. The
messages appended by `checkCopperCopperClearances` are, for each enabled
copper layer in the order of the layer stack and for each of these pairs over
the net signals followed by the unconnected pseudo net, the messages of the
intersection of the offset copper of entry `i` with the offset copper of entry
`k`; the messages appended by `checkCourtyardClearances` are, for each
courtyard layer and for each of these pairs over the devices, the messages of
the intersection of the courtyards of the two devices. -/
theorem pairwise_passes_visit_each_pair_once {G : Geometry} (H : Helpers G)
    (mBoard : Board G) (mOptions : Options) (maxArcTolerance : PositiveLength)
    (progressStart progressEnd : Int) (this : BoardDesignRuleCheck G) :
    (∀ n i k : Nat, (i, k) ∈ loopPairs n ↔ i < k ∧ k < n) ∧
    (∀ n : Nat,
      (loopPairs n).Pairwise (fun p q => p.1 < q.1 ∨ (p.1 = q.1 ∧ p.2 < q.2))) ∧
    (∀ n : Nat, (loopPairs n).Nodup) ∧
    (∀ n : Nat, (loopPairs n).length = n * (n - 1) / 2) ∧
    (∀ n i : Nat, (i, i) ∉ loopPairs n) ∧
    (∀ n i k : Nat, (i, k) ∈ loopPairs n → (k, i) ∉ loopPairs n) ∧
    (checkCopperCopperClearances mBoard mOptions maxArcTolerance progressStart progressEnd
        this).mMessages
      = this.mMessages
        ++ (mBoard.layers.filter fun layer => layer.isCopperLayer && layer.isEnabled).flatMap
            (fun layer => (loopPairs (mBoard.netSignals.length + 1)).flatMap
              (fun p => copperCopperPairMessages mOptions maxArcTolerance layer
                (mBoard.netSignals.map some ++ [none])
                (fun j => (getCopperPaths layer
                  [(mBoard.netSignals.map some ++ [none]).getD j none] this).1)
                p.1 p.2)) ∧
    (checkCourtyardClearances H mBoard mOptions maxArcTolerance progressStart progressEnd
        this).mMessages
      = this.mMessages
        ++ (mBoard.getLayers
              [GraphicsLayer.sTopCourtyard, GraphicsLayer.sBotCourtyard]).flatMap
            (fun layer => (loopPairs mBoard.devices.length).flatMap
              (fun p => courtyardPairMessages layer
                (mBoard.devices.map fun device =>
                  (device, G.offset (getDeviceCourtyardPaths H maxArcTolerance device layer)
                    mOptions.courtyardOffset maxArcTolerance))
                p.1 p.2)) := by
  refine ⟨mem_loopPairs, loopPairs_pairwise, loopPairs_nodup, loopPairs_length, ?_, ?_,
    checkCopperCopperClearances_mMessages mBoard mOptions maxArcTolerance progressStart
      progressEnd this,
    checkCourtyardClearances_mMessages H mBoard mOptions maxArcTolerance progressStart
      progressEnd this⟩
  · intro n i h
    exact lt_irrefl i ((mem_loopPairs n i i).mp h).1
  · intro n i k h h'
    have h1 := ((mem_loopPairs n i k).mp h).1
    have h2 := ((mem_loopPairs n k i).mp h').1
    exact lt_asymm h1 h2

end LibrePCB
